import Mathlib

/-!
# Admin controller of the school-management backend

A shallow embedding of `backend/controllers/admin-controller.js` and of the
route table of `backend/routes/route.js`.

* JavaScript strings are sequences of UTF-16 code units, request bodies are
  JSON values, and the two regular expressions of the controller are run by a
  small backtracking matcher.
* A handler is a program that issues calls to the outside (the Mongoose models
  and bcrypt) and ends by sending a response; the outside is a parameter, so a
  statement can range over every behaviour of the store and of the hasher, or be
  specialised to a concrete in-memory store.
* A thrown value is known by the value of its `message` property, which is all
  that the `catch` blocks read.
* The router is the list of its routes with Express path matching; the auth
  middleware is a parameter of it. `middleware/auth.js` is not among the
  sources, and its decision table is written from the specification.
-/

namespace Sms

/-! ## Strings and JSON values -/

/-- A JavaScript string: its sequence of UTF-16 code units. -/
abbrev JStr := List Nat

/-- The UTF-16 code units of one character. -/
def charUnits (c : Char) : List Nat :=
  if c.toNat < 65536 then [c.toNat]
  else [55296 + (c.toNat - 65536) / 1024, 56320 + (c.toNat - 65536) % 1024]

/-- The JavaScript string written as a source literal. -/
def utf16 (s : String) : JStr := (s.toList.map charUnits).flatten

/-- The code units that `String.prototype.trim` strips and that `\s` matches in a
regular expression: ECMAScript WhiteSpace and LineTerminator. -/
def isWhiteSpace (c : Nat) : Bool :=
  c == 9 || c == 10 || c == 11 || c == 12 || c == 13 || c == 32 || c == 160 ||
  c == 5760 || (8192 ≤ c && c ≤ 8202) || c == 8232 || c == 8233 || c == 8239 ||
  c == 8287 || c == 12288 || c == 65279

/-- Strips leading white space. -/
def trimStart (s : JStr) : JStr := s.dropWhile isWhiteSpace

/-- Strips trailing white space. -/
def trimEnd (s : JStr) : JStr := (s.reverse.dropWhile isWhiteSpace).reverse

/-- The method `String.prototype.trim`. -/
def trim (s : JStr) : JStr := trimEnd (trimStart s)

/-- A value of a parsed JSON request body, or `undefined` for a key that the
body does not have. A JSON number that is not an integer behaves in this
controller like any other non-zero number. -/
inductive JVal where
  | undefined
  | null
  | bool (b : Bool)
  | num (n : Int)
  | str (s : JStr)
  | arr (items : List JVal)
  | obj (fields : List (String × JVal))

mutual
/-- Structural equality test on JSON values. -/
def JVal.beq : JVal → JVal → Bool
  | .undefined, .undefined => true
  | .null, .null => true
  | .bool a, .bool b => a == b
  | .num a, .num b => a == b
  | .str a, .str b => a == b
  | .arr a, .arr b => JVal.beqList a b
  | .obj a, .obj b => JVal.beqFields a b
  | _, _ => false
/-- Structural equality test on lists of JSON values. -/
def JVal.beqList : List JVal → List JVal → Bool
  | [], [] => true
  | a :: as, b :: bs => JVal.beq a b && JVal.beqList as bs
  | _, _ => false
/-- Structural equality test on the fields of a JSON object. -/
def JVal.beqFields : List (String × JVal) → List (String × JVal) → Bool
  | [], [] => true
  | (k, a) :: as, (l, b) :: bs => k == l && JVal.beq a b && JVal.beqFields as bs
  | _, _ => false
end

mutual
theorem JVal.beq_iff : ∀ a b : JVal, JVal.beq a b = true ↔ a = b
  | .undefined, b => by cases b <;> simp [JVal.beq]
  | .null, b => by cases b <;> simp [JVal.beq]
  | .bool _, b => by cases b <;> simp [JVal.beq]
  | .num _, b => by cases b <;> simp [JVal.beq]
  | .str _, b => by cases b <;> simp [JVal.beq]
  | .arr xs, b => by
    cases b <;> simp [JVal.beq]
    exact JVal.beqList_iff xs _
  | .obj xs, b => by
    cases b <;> simp [JVal.beq]
    exact JVal.beqFields_iff xs _
theorem JVal.beqList_iff : ∀ a b : List JVal, JVal.beqList a b = true ↔ a = b
  | [], b => by cases b <;> simp [JVal.beqList]
  | x :: xs, b => by
    cases b with
    | nil => simp [JVal.beqList]
    | cons y ys => simp [JVal.beqList, JVal.beq_iff x y, JVal.beqList_iff xs ys]
theorem JVal.beqFields_iff :
    ∀ a b : List (String × JVal), JVal.beqFields a b = true ↔ a = b
  | [], b => by cases b <;> simp [JVal.beqFields]
  | (k, x) :: xs, b => by
    cases b with
    | nil => simp [JVal.beqFields]
    | cons y ys =>
      obtain ⟨l, y⟩ := y
      simp [JVal.beqFields, JVal.beq_iff x y, JVal.beqFields_iff xs ys, and_assoc]
end

instance : DecidableEq JVal := fun a b =>
  decidable_of_iff (JVal.beq a b = true) (JVal.beq_iff a b)

/-- JavaScript truthiness (`ToBoolean`). -/
def truthy : JVal → Bool
  | .undefined => false
  | .null => false
  | .bool b => b
  | .num n => n != 0
  | .str s => !s.isEmpty
  | .arr _ => true
  | .obj _ => true

/-- A thrown value, or the reason of a rejected promise, as far as a `catch`
block of the controller looks at it: the value of its `message` property. For an
`Error` that is a string unless the property was reassigned; for a plain object
without the property it is `undefined`. The values `null` and `undefined`
themselves, of which no property can be read, are not among the thrown values
considered. -/
abbrev Thrown := JVal

/-- The parts of the JavaScript runtime whose full definition is outside this
development: the Unicode case mapping behind `String.prototype.toLowerCase`, and
the relational comparison `v < n` for an operand `v` that needs a string or
object to number conversion, and the conversion to a string of a value that is
not one. -/
structure Builtins where
  toLowerCase : JStr → JStr
  coerceLt : JVal → Int → Bool
  coerceStr : JVal → JStr

/-- The method call `v.trim()`, where `expr` is the source text of `v`. Only a
string has a callable `trim`. -/
def callTrim (expr : String) : JVal → Except Thrown JStr
  | .str s => .ok (trim s)
  | .undefined => .error (.str (utf16 "Cannot read properties of undefined (reading \x27trim\x27)"))
  | .null => .error (.str (utf16 "Cannot read properties of null (reading \x27trim\x27)"))
  | _ => .error (.str (utf16 (expr ++ ".trim is not a function")))

/-- The property read `v.length`. -/
def getLength : JVal → Except Thrown JVal
  | .str s => .ok (.num s.length)
  | .arr items => .ok (.num items.length)
  | .obj fields => .ok ((fields.lookup "length").getD .undefined)
  | .undefined => .error (.str (utf16 "Cannot read properties of undefined (reading \x27length\x27)"))
  | .null => .error (.str (utf16 "Cannot read properties of null (reading \x27length\x27)"))
  | _ => .ok .undefined

/-- The comparison `v < n` against a number literal. -/
def lessThan (B : Builtins) (v : JVal) (n : Int) : Bool :=
  match v with
  | .undefined => false
  | .null => decide (0 < n)
  | .bool b => decide ((if b then 1 else 0) < n)
  | .num k => decide (k < n)
  | w => B.coerceLt w n

/-! ## Regular expressions -/

/-- The regular-expression constructs that the controller uses. -/
inductive Re where
  | eps
  | unit (c : Nat)
  | many1 (cls : Nat → Bool)
  | seq (a b : Re)
  | alt (a b : Re)

/-- Canonical form of a code unit for matching under the `i` flag (no `u`
flag). A code unit of 128 or more is never identified with one below 128, and
the patterns of this controller are ASCII, so such a unit is left as it is. -/
def canonicalize (ignoreCase : Bool) (c : Nat) : Nat :=
  if ignoreCase && (97 ≤ c && c ≤ 122) then c - 32 else c

/-- What is left of the input after `[cls]+` has consumed one or more code
units, longest match first. -/
def spans (cls : Nat → Bool) : JStr → List JStr
  | [] => []
  | c :: cs => if cls c then spans cls cs ++ [cs] else []

/-- Backtracking matcher: every remainder of the input after a match of the
expression at its start. -/
def Re.run (ignoreCase : Bool) : Re → JStr → List JStr
  | .eps, s => [s]
  | .unit _, [] => []
  | .unit c, x :: xs =>
    if canonicalize ignoreCase x = canonicalize ignoreCase c then [xs] else []
  | .many1 cls, s => spans cls s
  | .seq a b, s => ((a.run ignoreCase s).map (b.run ignoreCase)).flatten
  | .alt a b, s => a.run ignoreCase s ++ b.run ignoreCase s

/-- The expression matching a literal text. -/
def Re.lit : JStr → Re
  | [] => .eps
  | c :: cs => .seq (.unit c) (Re.lit cs)

/-- A regular expression with its anchors and flag. -/
structure RegExp where
  body : Re
  anchorStart : Bool
  anchorEnd : Bool
  ignoreCase : Bool

/-- Whether the expression matches at the start of `s` (up to its end when
anchored there). -/
def RegExp.matchAt (r : RegExp) (s : JStr) : Bool :=
  (r.body.run r.ignoreCase s).any fun rest => !r.anchorEnd || rest.isEmpty

/-- The method `RegExp.prototype.test`. -/
def RegExp.test (r : RegExp) (s : JStr) : Bool :=
  if r.anchorStart then r.matchAt s else s.tails.any r.matchAt

/-- The class `[^\s@]`. -/
def notSpaceAt (c : Nat) : Bool := !(isWhiteSpace c || c == 64)

/-- The expression `/^[^\s@]+@[^\s@]+\.[^\s@]+$/`. -/
def emailRegex : RegExp where
  body := .seq (.many1 notSpaceAt) (.seq (.unit 64)
    (.seq (.many1 notSpaceAt) (.seq (.unit 46) (.many1 notSpaceAt))))
  anchorStart := true
  anchorEnd := true
  ignoreCase := false

/-- The alternatives of the expression that screens a name. -/
def xssPatterns : List JStr :=
  [utf16 "<script", utf16 "</script", utf16 "javascript:", utf16 "onerror=", utf16 "onload="]

/-- The expression `/<script|<\/script|javascript:|onerror=|onload=/i`. -/
def xssRegex : RegExp where
  body := .alt (.lit (utf16 "<script")) (.alt (.lit (utf16 "</script"))
    (.alt (.lit (utf16 "javascript:")) (.alt (.lit (utf16 "onerror=")) (.lit (utf16 "onload=")))))
  anchorStart := false
  anchorEnd := false
  ignoreCase := true

/-! ## Documents, calls to the outside, responses -/

/-- An identifier of a stored document, as the text of its ObjectId. -/
abbrev Id := JStr

/-- A route parameter such as `req.params.id`: a string, or `undefined` when
the route declares no such parameter. -/
abbrev Param := Option Id

/-- Modelled from the spec: `models/adminSchema.js` is not among the sources. An
account document holds the five string attributes of the spec, stored as they
were given to the constructor, and the identity assigned at creation. -/
structure AdminRec where
  _id : Id
  name : JStr
  email : JStr
  password : JStr
  role : JStr
  schoolName : JStr
  deriving DecidableEq

/-- The object literal given to `new Admin(...)`. -/
structure AdminFields where
  name : JStr
  email : JStr
  password : JStr
  role : JStr
  schoolName : JStr
  deriving DecidableEq

/-- A document read through `.select('-password')`. -/
structure AdminView where
  _id : Id
  name : JStr
  email : JStr
  role : JStr
  schoolName : JStr
  deriving DecidableEq

/-- The filter object of `Admin.findOne`: an email, and optionally
`_id: { $ne: adminId }`. -/
structure Filter where
  email : JStr
  idNe : Option Param
  deriving DecidableEq

/-- The object `updateData` of `updateAdmin`; `none` is a key that was not
set. -/
structure UpdateData where
  name : Option JStr := none
  email : Option JStr := none
  password : Option JStr := none
  deriving DecidableEq

/-- The models whose documents refer to an account through `school`. -/
inductive Collection where
  | sclass | student | teacher | subject | notice | complain
  deriving DecidableEq

/-- The calls that the controller makes to Mongoose and to bcrypt. -/
inductive Call where
  | findOne (filter : Filter)
  | create (fields : AdminFields)
  | save (doc : AdminRec)
  | hash (data : JVal) (rounds : Nat)
  | compare (data : JVal) (encrypted : JStr)
  | findByIdSelect (id : Param)
  | findSelect
  | findByIdAndUpdate (id : Param) (update : UpdateData)
  | findById (id : Param)
  | deleteMany (coll : Collection) (school : Param)
  | findByIdAndDelete (id : Param)
  | countDocuments (coll : Collection) (school : Param)
  deriving DecidableEq

/-- What a call gives back when it does not fail. `create` is `new Admin(...)`
and gives the identity of the new document. -/
@[reducible] def Call.Result : Call → Type
  | .findOne _ => Option AdminRec
  | .create _ => Id
  | .save _ => Unit
  | .hash _ _ => JStr
  | .compare _ _ => Bool
  | .findByIdSelect _ => Option AdminView
  | .findSelect => List AdminView
  | .findByIdAndUpdate _ _ => Option AdminView
  | .findById _ => Option AdminRec
  | .deleteMany _ _ => Unit
  | .findByIdAndDelete _ => Unit
  | .countDocuments _ _ => Nat

/-- An HTTP response: status and JSON body. -/
structure Response where
  status : Nat
  body : JVal
  deriving DecidableEq

/-- The response `res.status(status).json({ message: text })`. -/
def message (status : Nat) (text : String) : Response :=
  ⟨status, .obj [("message", .str (utf16 text))]⟩

/-- The response of a `catch` block: `res.status(500).json({ message: err.message })`. -/
def failure (e : Thrown) : Response := ⟨500, .obj [("message", e)]⟩

/-- The object `adminResponse` that registration and login build. -/
def adminResponse (a : AdminRec) : JVal :=
  .obj [("_id", .str a._id), ("name", .str a.name), ("email", .str a.email),
    ("role", .str a.role), ("schoolName", .str a.schoolName)]

/-- The JSON form of a document read without its password. -/
def AdminView.toJson (a : AdminView) : JVal :=
  .obj [("_id", .str a._id), ("name", .str a.name), ("email", .str a.email),
    ("role", .str a.role), ("schoolName", .str a.schoolName)]

/-! ## Handler programs -/

/-- A piece of an async handler: it ends with a value, by throwing an error
(given by its message), or by sending a response and returning; or it makes a
call and goes on with the result or the failure of that call. Every response of
the controller is sent by a `return` statement or by the last statement of the
handler, so sending a response ends the handler. -/
inductive Js (α : Type) where
  | pure (a : α)
  | throw (e : Thrown)
  | respond (r : Response)
  | call (c : Call) (k : Except Thrown c.Result → Js α)

/-- Sequencing: a thrown error and a sent response end the block. -/
def Js.bind {α β : Type} : Js α → (α → Js β) → Js β
  | .pure a, f => f a
  | .throw e, _ => .throw e
  | .respond r, _ => .respond r
  | .call c k, f => .call c fun x => (k x).bind f

instance : Monad Js where
  pure := Js.pure
  bind := Js.bind

/-- The expression `await c`: a rejected promise throws. -/
def await (c : Call) : Js c.Result :=
  .call c fun
    | .ok v => .pure v
    | .error e => .throw e

/-- An expression that may throw. -/
def eval {α : Type} : Except Thrown α → Js α
  | .ok v => .pure v
  | .error e => .throw e

/-- The block `try { ... } catch (err) { res.status(500).json({ message: err.message }) }`. -/
def tryBlock {α : Type} : Js α → Js α
  | .pure a => .pure a
  | .throw e => .respond (failure e)
  | .respond r => .respond r
  | .call c k => .call c fun x => tryBlock (k x)

/-- The statement `return res.status(status).json({ message: text })`. -/
def reply {α : Type} (status : Nat) (text : String) : Js α := .respond (message status text)

/-- The conversion of the argument of `RegExp.prototype.test` to a string. -/
def toStr (B : Builtins) : JVal → JStr
  | .str s => s
  | w => B.coerceStr w

/-- The condition `!v || v.trim() === ''` of the required-field checks. -/
def blank (expr : String) (v : JVal) : Js Bool :=
  if truthy v then do
    let t ← eval (callTrim expr v)
    pure (decide (t = []))
  else pure true

/-- The body of a registration request, destructured. -/
structure RegisterBody where
  name : JVal := .undefined
  email : JVal := .undefined
  password : JVal := .undefined
  schoolName : JVal := .undefined

/-- The body of a login request, destructured. -/
structure LoginBody where
  email : JVal := .undefined
  password : JVal := .undefined

/-- The body of an update request, destructured. -/
structure UpdateBody where
  name : JVal := .undefined
  email : JVal := .undefined
  password : JVal := .undefined

/-- Lines 59 to 94 of `adminRegister`: what it does once the validation has
passed. -/
def registerAccount (B : Builtins) (body : RegisterBody) : Js Unit := do
  let sanitizedEmail := B.toLowerCase (← eval (callTrim "email" body.email))
  let sanitizedName ← eval (callTrim "name" body.name)
  let sanitizedSchoolName ← eval (callTrim "schoolName" body.schoolName)
  let existingAdmin ← await (.findOne ⟨sanitizedEmail, none⟩)
  if existingAdmin.isSome then
    reply 400 "Email already exists"
  let hashedPassword ← await (.hash body.password 10)
  let fields : AdminFields :=
    ⟨sanitizedName, sanitizedEmail, hashedPassword, utf16 "Admin", sanitizedSchoolName⟩
  let _id ← await (.create fields)
  let admin : AdminRec :=
    ⟨_id, fields.name, fields.email, fields.password, fields.role, fields.schoolName⟩
  await (.save admin)
  .respond ⟨200, adminResponse admin⟩

/-- The handler `adminRegister`: the validation of lines 15 to 57, then
`registerAccount`. -/
def adminRegister (B : Builtins) (body : RegisterBody) : Js Unit :=
  tryBlock do
    if (← blank "name" body.name) then
      reply 400 "Name is required"
    if (← blank "email" body.email) then
      reply 400 "Email is required"
    if (← blank "password" body.password) then
      reply 400 "Password is required"
    if (← blank "schoolName" body.schoolName) then
      reply 400 "School name is required"
    if !emailRegex.test (← eval (callTrim "email" body.email)) then
      reply 400 "Invalid email format"
    if lessThan B (← eval (getLength body.password)) 6 then
      reply 400 "Password must be at least 6 characters long"
    if (← eval (callTrim "name" body.name)).length > 100 then
      reply 400 "Name is too long"
    if (← eval (callTrim "email" body.email)).length > 255 then
      reply 400 "Email is too long"
    if xssRegex.test (toStr B body.name) then
      reply 400 "Invalid characters in name"
    registerAccount B body

/-- Lines 110 to 136 of `adminLogIn`: what it does once both fields are
present. -/
def loginAccount (B : Builtins) (body : LoginBody) : Js Unit := do
  let sanitizedEmail := B.toLowerCase (← eval (callTrim "email" body.email))
  let admin ← await (.findOne ⟨sanitizedEmail, none⟩)
  match admin with
  | none => reply 404 "Admin not found"
  | some admin =>
    let isPasswordValid ← await (.compare body.password admin.password)
    if !isPasswordValid then
      reply 401 "Invalid credentials"
    .respond ⟨200, adminResponse admin⟩

/-- The handler `adminLogIn`: the presence check of line 106, then
`loginAccount`. -/
def adminLogIn (B : Builtins) (body : LoginBody) : Js Unit :=
  tryBlock do
    if !truthy body.email || !truthy body.password then
      reply 400 "Email and password are required"
    loginAccount B body

/-- The handler `getAdminDetail`. -/
def getAdminDetail (id : Param) : Js Unit :=
  tryBlock do
    let admin ← await (.findByIdSelect id)
    match admin with
    | none => reply 404 "Admin not found"
    | some admin => .respond ⟨200, admin.toJson⟩

/-- The handler `getAllAdmins`. -/
def getAllAdmins : Js Unit :=
  tryBlock do
    let admins ← await .findSelect
    .respond ⟨200, .arr (admins.map AdminView.toJson)⟩

/-- The handler `updateAdmin`. -/
def updateAdmin (B : Builtins) (adminId : Param) (body : UpdateBody) : Js Unit :=
  tryBlock do
    let mut updateData : UpdateData := {}
    if truthy body.name then
      updateData := { updateData with name := some (← eval (callTrim "name" body.name)) }
    if truthy body.email then
      if !emailRegex.test (← eval (callTrim "email" body.email)) then
        reply 400 "Invalid email format"
      let existingAdmin ← await (.findOne
        ⟨B.toLowerCase (← eval (callTrim "email" body.email)), some adminId⟩)
      if existingAdmin.isSome then
        reply 400 "Email already exists"
      updateData :=
        { updateData with email := some (B.toLowerCase (← eval (callTrim "email" body.email))) }
    if truthy body.password then
      if lessThan B (← eval (getLength body.password)) 6 then
        reply 400 "Password must be at least 6 characters long"
      updateData := { updateData with password := some (← await (.hash body.password 10)) }
    let updatedAdmin ← await (.findByIdAndUpdate adminId updateData)
    match updatedAdmin with
    | none => reply 404 "Admin not found"
    | some updatedAdmin => .respond ⟨200, updatedAdmin.toJson⟩

/-- The handler `deleteAdmin`. -/
def deleteAdmin (adminId : Param) : Js Unit :=
  tryBlock do
    let admin ← await (.findById adminId)
    if admin.isNone then
      reply 404 "Admin not found"
    await (.deleteMany .sclass adminId)
    await (.deleteMany .student adminId)
    await (.deleteMany .teacher adminId)
    await (.deleteMany .subject adminId)
    await (.deleteMany .notice adminId)
    await (.deleteMany .complain adminId)
    await (.findByIdAndDelete adminId)
    reply 200 "Admin and all related data deleted successfully"

/-- The handler `getDashboard`. -/
def getDashboard (adminId : Param) : Js Unit :=
  tryBlock do
    let admin ← await (.findById adminId)
    if admin.isNone then
      reply 404 "Admin not found"
    let studentCount : Nat ← await (.countDocuments .student adminId)
    let teacherCount : Nat ← await (.countDocuments .teacher adminId)
    let classCount : Nat ← await (.countDocuments .sclass adminId)
    let subjectCount : Nat ← await (.countDocuments .subject adminId)
    .respond ⟨200, .obj [("students", .num studentCount), ("teachers", .num teacherCount),
      ("classes", .num classCount), ("subjects", .num subjectCount)]⟩

/-! ## Running a handler against the outside -/

/-- The outside of the controller, as a state machine: how the store and the
hasher answer a call in a state, and the state that follows. -/
structure World (σ : Type) where
  answer : σ → (c : Call) → Except Thrown c.Result × σ

/-- A call together with its outcome. -/
structure Event where
  call : Call
  result : Except Thrown call.Result

/-- How a handler ended. -/
inductive Outcome where
  | responded (r : Response)
  | uncaught (e : Thrown)
  | silent
  deriving DecidableEq

/-- The observable result of one request: how the handler ended, the calls it
made with their outcomes, and the state it left. -/
structure Run (σ : Type) where
  outcome : Outcome
  trace : List Event
  final : σ

/-- The run that starts with one more event. -/
def Run.after {σ : Type} (ev : Event) (r : Run σ) : Run σ := ⟨r.outcome, ev :: r.trace, r.final⟩

/-- Runs a handler program from a state of the outside. -/
def Js.run {σ α : Type} (W : World σ) : Js α → σ → Run σ
  | .pure _, s => ⟨.silent, [], s⟩
  | .throw e, s => ⟨.uncaught e, [], s⟩
  | .respond r, s => ⟨.responded r, [], s⟩
  | .call c k, s =>
    ((k (W.answer s c).1).run W (W.answer s c).2).after ⟨c, (W.answer s c).1⟩

/-- The calls of a run, in order. -/
def Run.calls {σ : Type} (r : Run σ) : List Call := r.trace.map Event.call

/-! ## An in-memory store -/

/-- A document of one of the dependent collections, with the account it
belongs to. -/
structure Dependent where
  coll : Collection
  _id : Id
  school : Id
  deriving DecidableEq

/-- The state of the in-memory outside: the stored accounts, the dependent
documents, and a counter that feeds ObjectId generation and salts. -/
structure Db where
  admins : List AdminRec
  dependents : List Dependent
  entropy : Nat
  deriving DecidableEq

/-- The password hasher: `hash` by salt, data and cost, and `compare`. -/
structure Hasher where
  hash : Nat → JVal → Nat → Except Thrown JStr
  compare : JVal → JStr → Except Thrown Bool

/-- Whether a stored account satisfies a `findOne` filter: exact equality on
the email, and an identity different from the excluded one. -/
def Filter.holds (f : Filter) (a : AdminRec) : Bool :=
  decide (a.email = f.email) &&
    match f.idNe with
    | none => true
    | some p => decide (some a._id ≠ p)

/-- The projection that leaves the password out. -/
def AdminRec.view (a : AdminRec) : AdminView := ⟨a._id, a.name, a.email, a.role, a.schoolName⟩

/-- Applies the keys that an update document has. -/
def UpdateData.apply (u : UpdateData) (a : AdminRec) : AdminRec :=
  { a with
    name := u.name.getD a.name
    email := u.email.getD a.email
    password := u.password.getD a.password }

/-- An in-memory store of the kind the specification reasons over: `save`
inserts the document, `findOne` matches on exact equality, lookups by identity
compare identities, and the bulk operations act on the documents whose `school`
is the given identity; no call fails except those of the hasher. -/
def memStore (H : Hasher) (newId : Nat → Id) : World Db where
  answer db
    | .findOne f => (.ok (db.admins.find? f.holds), db)
    | .create _ => (.ok (newId db.entropy), { db with entropy := db.entropy + 1 })
    | .save doc => (.ok (), { db with admins := db.admins ++ [doc] })
    | .hash data rounds => (H.hash db.entropy data rounds, { db with entropy := db.entropy + 1 })
    | .compare data encrypted => (H.compare data encrypted, db)
    | .findByIdSelect id =>
      (.ok ((db.admins.find? fun a => decide (some a._id = id)).map AdminRec.view), db)
    | .findSelect => (.ok (db.admins.map AdminRec.view), db)
    | .findByIdAndUpdate id u =>
      (.ok (((db.admins.find? fun a => decide (some a._id = id)).map u.apply).map AdminRec.view),
        { db with admins := db.admins.map fun a => if some a._id = id then u.apply a else a })
    | .findById id => (.ok (db.admins.find? fun a => decide (some a._id = id)), db)
    | .deleteMany coll school =>
      (.ok (), { db with dependents :=
        db.dependents.filter fun d => !(decide (d.coll = coll) && decide (some d.school = school)) })
    | .findByIdAndDelete id =>
      (.ok (), { db with admins := db.admins.filter fun a => !decide (some a._id = id) })
    | .countDocuments coll school =>
      (.ok (db.dependents.countP fun d => decide (d.coll = coll) && decide (some d.school = school)),
        db)

/-- Lower-casing of one of the letters A to Z. -/
def lowerUnit (c : Nat) : Nat := if 65 ≤ c ∧ c ≤ 90 then c + 32 else c

/-- Lower-casing of an ASCII text: the ASCII part of `toLowerCase`. -/
def asciiLower (s : JStr) : JStr := s.map lowerUnit

/-- A runtime for evaluating examples on ASCII input: ASCII lower-casing, and
the conversions as they are for arrays and plain objects without a `length`
that converts (`NaN` compares false, an array prints as its empty join). -/
def asciiRuntime : Builtins where
  toLowerCase := asciiLower
  coerceLt _ _ := false
  coerceStr _ := []

/-- A stand-in for bcrypt for evaluating examples (not a secure hash): the hash
of a string is a marker, the salt and the string, and a value that is not a
string is refused. -/
def toyHasher : Hasher where
  hash salt data _ :=
    match data with
    | .str s => .ok (36 :: salt :: s)
    | _ => .error (.str (utf16 "data must be a string or Buffer and salt must either be a salt string or a number of rounds"))
  compare data encrypted :=
    match data with
    | .str s => .ok (decide (encrypted.drop 2 = s))
    | _ => .error (.str (utf16 "data and hash must be strings"))

/-- ObjectIds for examples: the counter as one code unit after the letter `a`. -/
def toyId (n : Nat) : Id := [97, n]

/-- The in-memory store used in examples. -/
def toyStore : World Db := memStore toyHasher toyId

/-- The empty in-memory state. -/
def emptyDb : Db := ⟨[], [], 0⟩

/-! ## The vocabulary of the specification -/

/-- The part of an email after its first `@`. -/
def afterAt (s : JStr) : JStr := (s.dropWhile fun c => c != 64).drop 1

/-- The email shape in the words of the specification: no white space, exactly
one `@` that is not the first character, and after the `@` a dot with at least
one character before it and at least one after it. -/
def SpecEmailShape (s : JStr) : Prop :=
  (∀ c ∈ s, isWhiteSpace c = false) ∧ s.count 64 = 1 ∧ s.head? ≠ some 64 ∧
    ∃ a b, a ≠ [] ∧ b ≠ [] ∧ afterAt s = a ++ 46 :: b

/-- In the words of the specification: the text contains `p`, letter case
ignored (`p` is in lower case). -/
def SpecContains (s p : JStr) : Prop := ∃ pre post, asciiLower s = pre ++ p ++ post

/-- A code unit of a pattern of `xssRegex`: a lower-case letter, or a sign
below the letter `A`. -/
def patternUnit (c : Nat) : Bool := (97 ≤ c && c ≤ 122) || c < 65

/-- In the words of the specification: the field is absent (or null), or is
a string that is empty after trimming. -/
def missing : JVal → Bool
  | .undefined => true
  | .null => true
  | .str s => decide (trim s = [])
  | _ => false

/-- The field is absent, null or a string. -/
def textOrAbsent : JVal → Bool
  | .undefined => true
  | .null => true
  | .str _ => true
  | _ => false

/-- In the words of the specification: the field is absent, null or the empty
string. -/
def loginMissing : JVal → Bool
  | .undefined => true
  | .null => true
  | .str s => decide (s = [])
  | _ => false

/-- The validation rules of `adminRegister` on four strings, in the order of
the source (lines 16 to 57): the condition under which a rule rejects, and its
message. -/
def registerRules (n e p sn : JStr) : List (Bool × String) :=
  [(decide (trim n = []), "Name is required"),
   (decide (trim e = []), "Email is required"),
   (decide (trim p = []), "Password is required"),
   (decide (trim sn = []), "School name is required"),
   (!emailRegex.test (trim e), "Invalid email format"),
   (decide (p.length < 6), "Password must be at least 6 characters long"),
   (decide ((trim n).length > 100), "Name is too long"),
   (decide ((trim e).length > 255), "Email is too long"),
   (xssRegex.test n, "Invalid characters in name")]

/-- The first rule that rejects, if any. -/
def firstFailure (n e p sn : JStr) : Option String :=
  ((registerRules n e p sn).find? fun r => r.1).map fun r => r.2

/-- A response that validation sends by itself: a 400 or the 500 of a thrown
error. -/
def Response.isRejection (r : Response) : Prop := r.status = 400 ∨ r.status = 500

/-- The keys of a JSON object, in order. -/
def JVal.keys : JVal → List String
  | .obj fields => fields.map Prod.fst
  | _ => []

/-! ## Protocols of handler programs -/

/-- A handler program meets a protocol: from the history `h` of events, every
call it makes is allowed by `P` given the events before it, every response it
sends (a thrown error counts as the 500 response that the `try` block makes of
it) is allowed by `R` given all events before it, and a value it ends with is
allowed by `K`. -/
def Js.Meets {α : Type} (P : List Event → Call → Prop) (R : List Event → Response → Prop)
    (K : List Event → α → Prop) : List Event → Js α → Prop
  | h, .pure a => K h a
  | h, .throw e => R h (failure e)
  | h, .respond r => R h r
  | h, .call c k => P h c ∧ ∀ x, Js.Meets P R K (h ++ [⟨c, x⟩]) (k x)

/-- The email that a call hands to the store, if it hands one: the email of a
`findOne` filter, of a document built or saved, and of an update document. -/
def Call.email? : Call → Option JStr
  | .findOne f => some f.email
  | .create fields => some fields.email
  | .save doc => some doc.email
  | .findByIdAndUpdate _ u => u.email
  | _ => none

/-- The calls to `bcrypt.hash` among some events: data, cost and outcome. -/
def hashCalls : List Event → List (JVal × Nat × Except Thrown JStr)
  | [] => []
  | ⟨.hash data rounds, result⟩ :: rest => (data, rounds, result) :: hashCalls rest
  | _ :: rest => hashCalls rest

/-- The documents handed to `save` among some events. -/
def savedDocs : List Event → List AdminRec
  | [] => []
  | ⟨.save doc, _⟩ :: rest => doc :: savedDocs rest
  | _ :: rest => savedDocs rest

/-- The update documents handed to `findByIdAndUpdate` among some events. -/
def updateDocs : List Event → List UpdateData
  | [] => []
  | ⟨.findByIdAndUpdate _ u, _⟩ :: rest => u :: updateDocs rest
  | _ :: rest => updateDocs rest

/-- The hashing discipline of a registration, on the events `t` of a run that
ended with `status`: at most one call to the hasher, with the submitted password
and cost 10; exactly one when the status is 200; and a saved document holds the
result of that call as password and is otherwise built from the other fields. -/
def RegisterHashing (B : Builtins) (body : RegisterBody) (t : List Event) (status : Nat) :
    Prop :=
  (hashCalls t = [] ∨ ∃ res, hashCalls t = [(body.password, 10, res)]) ∧
  (status = 200 → ∃ h, hashCalls t = [(body.password, 10, .ok h)]) ∧
  ∀ doc ∈ savedDocs t,
    hashCalls t = [(body.password, 10, .ok doc.password)] ∧
    ∃ n e sn, body.name = .str n ∧ body.email = .str e ∧ body.schoolName = .str sn ∧
      doc.name = trim n ∧ doc.email = B.toLowerCase (trim e) ∧ doc.role = utf16 "Admin" ∧
      doc.schoolName = trim sn

/-- The hashing discipline of an update, on the events `t` of a run that ended
with `status`: at most one call to the hasher, with the submitted password and
cost 10; and an update document holds the result of that call as password when
a password was supplied, no password otherwise, and a name and an email that
come from the submitted name and email. -/
def UpdateHashing (B : Builtins) (body : UpdateBody) (t : List Event) (status : Nat) : Prop :=
  (hashCalls t = [] ∨ ∃ res, hashCalls t = [(body.password, 10, res)]) ∧
  (status = 200 → truthy body.password = true →
    ∃ h, hashCalls t = [(body.password, 10, .ok h)]) ∧
  ∀ u ∈ updateDocs t,
    (truthy body.password = true →
      ∃ h, u.password = some h ∧ hashCalls t = [(body.password, 10, .ok h)]) ∧
    (truthy body.password = false → u.password = none ∧ hashCalls t = []) ∧
    (u.name = none ∨ ∃ n, body.name = .str n ∧ u.name = some (trim n)) ∧
    (u.email = none ∨ ∃ e, body.email = .str e ∧ u.email = some (B.toLowerCase (trim e)))

/-! ## Scenarios over the in-memory store -/

/-- The record that a successful registration stores. -/
def registered (B : Builtins) (i : Id) (h n e sn : JStr) : AdminRec :=
  ⟨i, trim n, B.toLowerCase (trim e), h, utf16 "Admin", trim sn⟩

/-- The state of the in-memory store after a list of registration requests. -/
def afterRegistrations (B : Builtins) (H : Hasher) (newId : Nat → Id) :
    List RegisterBody → Db → Db
  | [], db => db
  | b :: bs, db =>
    afterRegistrations B H newId bs ((adminRegister B b).run (memStore H newId) db).final

/-- The store in which every stored password hash is replaced by another
value. -/
def Db.rehash (g : AdminRec → JStr) (db : Db) : Db :=
  { db with admins := db.admins.map fun a => { a with password := g a } }

/-- A registration whose name is the number 5 and that has no other field. -/
def numericNameBody : RegisterBody := { name := .num 5 }

/-- A registration with a name of 101 letters and an email without `@`. -/
def longNameBadEmail : RegisterBody :=
  { name := .str (List.replicate 101 97), email := .str (utf16 "invalidemail"),
    password := .str (utf16 "password123"), schoolName := .str (utf16 "Test School") }

/-- A login whose email is the number 5. -/
def numericEmailLogin : LoginBody := { email := .num 5, password := .str (utf16 "x") }

/-- The registration of the scenario of the specification. -/
def scenarioRegistration : RegisterBody :=
  ⟨.str (utf16 "Admin"), .str (utf16 "ADMIN@Test.com"), .str (utf16 "secret1"),
    .str (utf16 "X")⟩

/-! ## Requests and routes -/

/-- The property read `body.key` on the fields of a parsed JSON object. -/
def field (fields : List (String × JVal)) (key : String) : JVal :=
  (fields.lookup key).getD .undefined

/-- The property read `v.key` on a JSON value. -/
def JVal.prop : JVal → String → JVal
  | .obj fields, key => field fields key
  | _, _ => .undefined

/-- The statement `const { name, email, password, schoolName } = req.body`. -/
def RegisterBody.ofFields (fields : List (String × JVal)) : RegisterBody :=
  ⟨field fields "name", field fields "email", field fields "password", field fields "schoolName"⟩

/-- The statement `const { email, password } = req.body`. -/
def LoginBody.ofFields (fields : List (String × JVal)) : LoginBody :=
  ⟨field fields "email", field fields "password"⟩

/-- The statement `const { name, email, password } = req.body`. -/
def UpdateBody.ofFields (fields : List (String × JVal)) : UpdateBody :=
  ⟨field fields "name", field fields "email", field fields "password"⟩

/-- A request to one of the seven handlers that the controller exports. -/
inductive Request where
  | adminRegister (body : RegisterBody)
  | adminLogIn (body : LoginBody)
  | getAdminDetail (id : Param)
  | getAllAdmins
  | updateAdmin (id : Param) (body : UpdateBody)
  | deleteAdmin (id : Param)
  | getDashboard (id : Param)

/-- The handler program of a request. -/
def Request.program (B : Builtins) : Request → Js Unit
  | .adminRegister body => Sms.adminRegister B body
  | .adminLogIn body => Sms.adminLogIn B body
  | .getAdminDetail id => Sms.getAdminDetail id
  | .getAllAdmins => Sms.getAllAdmins
  | .updateAdmin id body => Sms.updateAdmin B id body
  | .deleteAdmin id => Sms.deleteAdmin id
  | .getDashboard id => Sms.getDashboard id

/-- The HTTP methods for which `routes/route.js` registers a route. -/
inductive Method where
  | get | post | put | delete
  deriving DecidableEq

/-- A piece of a route path between two slashes: a literal text, or a named
parameter such as `:id`. -/
inductive Segment where
  | lit (text : String)
  | param (name : String)
  deriving DecidableEq

/-- What `handleRoute(...)` is given in `routes/route.js`: one of the seven
exports of the admin controller, a property that the admin controller does not
export (for which `handleRoute` substitutes its 404), or a handler of another
controller, named by the source expression. -/
inductive Handler where
  | adminRegister | adminLogIn | getAdminDetail | getAllAdmins | updateAdmin | deleteAdmin
  | getDashboard
  | notAvailable
  | other (expr : String)
  deriving DecidableEq

/-- A line `router.METHOD(path, [authMiddleware,] handleRoute(handler))`. -/
structure Route where
  method : Method
  path : List Segment
  auth : Bool
  handler : Handler
  deriving DecidableEq

/-- The routes of `routes/route.js`, lines 36 to 89, in order. The admin
controller is taken as loaded, so that `adminController.adminRegister ||
adminController.addAdmin` is `adminRegister`, and `adminController.manageUsers`
is undefined. -/
def routes : List Route :=
  [⟨.post, [.lit "AdminReg"], false, .adminRegister⟩,
   ⟨.post, [.lit "AdminLogin"], false, .adminLogIn⟩,
   ⟨.get, [.lit "Admin", .param "id"], false, .getAdminDetail⟩,
   ⟨.get, [.lit "Admins"], true, .getAllAdmins⟩,
   ⟨.put, [.lit "Admin", .param "id"], true, .updateAdmin⟩,
   ⟨.delete, [.lit "Admin", .param "id"], true, .deleteAdmin⟩,
   ⟨.post, [.lit "StudentReg"], true, .other "studentController.addStudent"⟩,
   ⟨.get, [.lit "Student", .param "id"], true, .other "studentController.getStudentDetail"⟩,
   ⟨.get, [.lit "Students"], true, .other "studentController.getStudents"⟩,
   ⟨.put, [.lit "Student", .param "id"], true, .other "studentController.updateStudent"⟩,
   ⟨.delete, [.lit "Student", .param "id"], true, .other "studentController.deleteStudent"⟩,
   ⟨.put, [.lit "UpdateMarks"], true, .other "studentController.updateMarks"⟩,
   ⟨.get, [.lit "StudentMarks", .param "id"], true, .other "studentController.getStudentMarks"⟩,
   ⟨.post, [.lit "TeacherReg"], true,
     .other "teacherController.addTeacher || teacherController.addTeachers"⟩,
   ⟨.get, [.lit "Teacher", .param "id"], true, .other "teacherController.getTeacherDetail"⟩,
   ⟨.get, [.lit "Teachers"], true, .other "teacherController.getTeachers"⟩,
   ⟨.put, [.lit "Teacher", .param "id"], true, .other "teacherController.updateTeacher"⟩,
   ⟨.delete, [.lit "DeleteTeacher", .param "id"], true,
     .other "teacherController.deleteTeacher"⟩,
   ⟨.post, [.lit "ClassAdd"], true, .other "classController.addClass || classController.addSclass"⟩,
   ⟨.get, [.lit "Class", .param "id"], true, .other "classController.getClassDetail"⟩,
   ⟨.get, [.lit "Classes"], true, .other "classController.getClasses"⟩,
   ⟨.put, [.lit "Class", .param "id"], true, .other "classController.updateClass"⟩,
   ⟨.delete, [.lit "Class", .param "id"], true, .other "classController.deleteClass"⟩,
   ⟨.post, [.lit "SubjectAdd"], true, .other "subjectController.addSubject"⟩,
   ⟨.get, [.lit "Subject", .param "id"], true, .other "subjectController.getSubjectDetail"⟩,
   ⟨.get, [.lit "Subjects"], true, .other "subjectController.getSubjects"⟩,
   ⟨.put, [.lit "Subject", .param "id"], true, .other "subjectController.updateSubject"⟩,
   ⟨.delete, [.lit "Subject", .param "id"], true, .other "subjectController.deleteSubject"⟩,
   ⟨.get, [.lit "Attendance"], true, .other "studentController.getAttendance"⟩,
   ⟨.get, [.lit "StudentAttendance", .param "id"], true,
     .other "studentController.getStudentAttendance"⟩,
   ⟨.get, [.lit "ClassAttendance", .param "id"], true,
     .other "studentController.getClassAttendance"⟩,
   ⟨.get, [.lit "AttendanceByDate"], true, .other "studentController.getAttendanceByDate"⟩,
   ⟨.post, [.lit "NoticeAdd"], true, .other "noticeController.addNotice"⟩,
   ⟨.get, [.lit "Notices"], true, .other "noticeController.getNotices"⟩,
   ⟨.post, [.lit "ComplainAdd"], true, .other "complainController.addComplain"⟩,
   ⟨.get, [.lit "Complains"], true, .other "complainController.getComplains"⟩,
   ⟨.get, [.lit "AdminDashboard"], true, .getDashboard⟩,
   ⟨.get, [.lit "ManageUsers"], true, .notAvailable⟩]

/-- An incoming request as the router and the handlers see it: the method, the
pieces of the path between its slashes, the query string, the `authorization`
header and the fields of the JSON body. -/
structure HttpRequest where
  method : Method
  path : List JStr
  query : List (JStr × JStr) := []
  authorization : JVal := .undefined
  body : List (String × JVal) := []

/-- Express matching of a route path against the path of a request: a literal
piece is compared without regard to the case of ASCII letters, a parameter takes
one non-empty piece, and the whole path has to be used up. The result is
`req.params`. -/
def matchPath : List Segment → List JStr → Option (List (String × JStr))
  | [], [] => some []
  | .lit text :: rest, piece :: pieces =>
    if asciiLower piece = asciiLower (utf16 text) then matchPath rest pieces else none
  | .param name :: rest, piece :: pieces =>
    if piece = [] then none else (matchPath rest pieces).map fun ps => (name, piece) :: ps
  | _, _ => none

/-- The first route that matches the method and the path of a request, with the
parameters of the match. -/
def matchRoute (req : HttpRequest) : Option (Route × List (String × JStr)) :=
  routes.findSome? fun rt =>
    if rt.method = req.method then (matchPath rt.path req.path).map fun ps => (rt, ps) else none

/-- What a middleware does with a request: it sends a response and does not
call `next`, or it calls `next()` once, after which `req.user` has the given
value (`undefined` when the middleware does not set it). -/
inductive Verdict where
  | reject (r : Response)
  | next (user : JVal)
  deriving DecidableEq

/-- A middleware, by what it does with each request. -/
abbrev Middleware := HttpRequest → Verdict

/-- Lines 22 to 28 of `routes/route.js`: the middleware that `require` gives,
or, when `require` throws, one that calls `next()` at once. -/
def loadAuth (loaded : Option Middleware) : Middleware :=
  match loaded with
  | some m => m
  | none => fun _ => .next .undefined

/-- The program of a handler on a request whose route matched with `params`:
`req.params.id` is the parameter named `id`, if the route path has one. The
handlers of other controllers are given by `others`. -/
def Handler.program (B : Builtins) (others : String → HttpRequest → Js Unit)
    (params : List (String × JStr)) (req : HttpRequest) : Handler → Js Unit
  | .adminRegister => Sms.adminRegister B (.ofFields req.body)
  | .adminLogIn => Sms.adminLogIn B (.ofFields req.body)
  | .getAdminDetail => Sms.getAdminDetail (params.lookup "id")
  | .getAllAdmins => Sms.getAllAdmins
  | .updateAdmin => Sms.updateAdmin B (params.lookup "id") (.ofFields req.body)
  | .deleteAdmin => Sms.deleteAdmin (params.lookup "id")
  | .getDashboard => Sms.getDashboard (params.lookup "id")
  | .notAvailable => .respond (message 404 "Route not available")
  | .other expr => others expr req

/-- The chain `authMiddleware, handler` of a protected route: the handler runs
when the middleware calls `next`, and the response is that of the middleware
otherwise. -/
def guarded (auth : Middleware) (req : HttpRequest) (handler : Js Unit) : Js Unit :=
  match auth req with
  | .reject r => .respond r
  | .next _ => handler

/-- The router on a request: the first matching route runs its middleware, if
it has one, and then, if that called `next`, its handler; a request that no
route matches gets the 404 of the final `router.use`. -/
def dispatch (B : Builtins) (others : String → HttpRequest → Js Unit) (auth : Middleware)
    (req : HttpRequest) : Js Unit :=
  match matchRoute req with
  | none => .respond (message 404 "Route not found")
  | some (rt, params) =>
    if rt.auth then guarded auth req (rt.handler.program B others params req)
    else rt.handler.program B others params req

/-! ## The authentication middleware -/

/-- Modelled from the spec: `middleware/auth.js` is not among the sources. What
the token service answers on a token: the decoded claims, an expiry error, or
another error with its detail. -/
inductive Verified where
  | claims (decoded : JVal)
  | expired
  | rejected (detail : JStr)

/-- The method `String.prototype.split` with a separator of one code unit. -/
def split (sep : Nat) : JStr → List JStr
  | [] => [[]]
  | c :: cs =>
    if c = sep then [] :: split sep cs
    else
      match split sep cs with
      | [] => [[c]]
      | part :: parts => (c :: part) :: parts

/-- Modelled from the spec: `middleware/auth.js` is not among the sources. The
token of a header of exactly two parts separated by one space, the first being
`Bearer`. -/
def bearerToken (header : JStr) : Option JStr :=
  match split 32 header with
  | [scheme, token] => if scheme = utf16 "Bearer" then some token else none
  | _ => none

/-- Modelled from the spec: `middleware/auth.js` is not among the sources. The
rows of the decision table of section 4.3 for a token: the claims are attached
and `next` is called, or the request is rejected with a fixed message. -/
def bearerVerdict (verify : JStr → Verified) (token : JStr) : Verdict :=
  match verify token with
  | .claims decoded => .next decoded
  | .expired => .reject (message 401 "Token has expired")
  | .rejected _ => .reject (message 401 "Invalid token")

/-- Modelled from the spec: `middleware/auth.js` is not among the sources. The
decision table of section 4.3 on the `authorization` header, with the token
service as a parameter. -/
def authMiddleware (verify : JStr → Verified) (authorization : JVal) : Verdict :=
  if !truthy authorization then .reject (message 401 "Authorization token is missing")
  else
    match authorization with
    | .str header =>
      match bearerToken header with
      | some token => bearerVerdict verify token
      | none => .reject (message 401 "Invalid token format")
    | _ => .reject (message 401 "Invalid token format")

/-- A token service for examples: the token `good` carries the claims of `a0`,
the token `old` has expired, and every other token is refused. -/
def toyVerify (token : JStr) : Verified :=
  if token = utf16 "good" then .claims (.obj [("id", .str (toyId 0))])
  else if token = utf16 "old" then .expired
  else .rejected (utf16 "invalid signature")

/-! ## Failures of the outside -/

/-- The reason with which an event failed, if it did. -/
def Event.error? (ev : Event) : Option Thrown :=
  match ev.result with
  | .ok _ => none
  | .error e => some e

/-- The state after a list of calls, each answered by the world. -/
def World.exec {σ : Type} (W : World σ) : σ → List Call → σ
  | s, [] => s
  | s, c :: cs => W.exec (W.answer s c).2 cs

/-- A world in which the calls that `fault` names are rejected with the given
reason and leave the state as it is, and every other call is answered as in
`W`. -/
def World.withFaults {σ : Type} (W : World σ) (fault : Call → Option Thrown) : World σ where
  answer s c :=
    match fault c with
    | some e => (.error e, s)
    | none => W.answer s c

/-- The seven deletion steps of `deleteAdmin`, lines 232 to 240, in order. -/
def deletionSteps (id : Param) : List Call :=
  [.deleteMany .sclass id, .deleteMany .student id, .deleteMany .teacher id,
   .deleteMany .subject id, .deleteMany .notice id, .deleteMany .complain id,
   .findByIdAndDelete id]

/-- The role that a call hands to the store, if it hands one: that of a
document built or saved. An update document has no such key. -/
def Call.role? : Call → Option JStr
  | .create fields => some fields.role
  | .save doc => some doc.role
  | _ => none

/-- Whether a call writes to the store or computes a hash. -/
def Call.isWrite : Call → Bool
  | .create _ => true
  | .save _ => true
  | .hash _ _ => true
  | .findByIdAndUpdate _ _ => true
  | .deleteMany _ _ => true
  | .findByIdAndDelete _ => true
  | _ => false

/-- The state of the in-memory store after a list of requests. -/
def afterRequests (B : Builtins) (H : Hasher) (newId : Nat → Id) : List Request → Db → Db
  | [], db => db
  | q :: qs, db => afterRequests B H newId qs (((q.program B).run (memStore H newId) db).final)

/-- A response body of the form `{ message: <string> }`. -/
def Response.hasMessage (r : Response) : Prop := ∃ m : JStr, r.body = .obj [("message", .str m)]

/-! ## Protocols and scenarios of the update, delete and routing claims -/

/-- The events of the seven deletion steps of `deleteAdmin` when none fails. -/
def deletionEvents (id : Param) : List Event :=
  [⟨.deleteMany .sclass id, .ok ()⟩, ⟨.deleteMany .student id, .ok ()⟩,
   ⟨.deleteMany .teacher id, .ok ()⟩, ⟨.deleteMany .subject id, .ok ()⟩,
   ⟨.deleteMany .notice id, .ok ()⟩, ⟨.deleteMany .complain id, .ok ()⟩,
   ⟨.findByIdAndDelete id, .ok ()⟩]

/-- What `deleteAdmin` answers after the events `h`, none of which failed: 404
after a lookup that found nothing, 200 after a lookup that found the account and
the seven deletion steps. -/
def DeleteDone (id : Param) (h : List Event) (r : Response) : Prop :=
  (h = [⟨.findById id, .ok none⟩] ∧ r = message 404 "Admin not found") ∨
  ∃ a, h = ⟨.findById id, .ok (some a)⟩ :: deletionEvents id ∧
    r = message 200 "Admin and all related data deleted successfully"

/-- What `deleteAdmin` answers after the events `h`, the last of which failed
with `e`: the 500 of `e`, the events before the last not having failed, and the
calls being the lookup and the first deletion steps. -/
def DeleteAborted (id : Param) (h : List Event) (r : Response) (e : Thrown) : Prop :=
  r = failure e ∧ (∀ ev ∈ h.dropLast, ev.error? = none) ∧
    h.map Event.call = (Call.findById id :: deletionSteps id).take h.length

/-- A state of the in-memory store with two accounts: `a0` with a class, a
student and a teacher, and `a1` with a student. -/
def twoSchools : Db :=
  ⟨[⟨toyId 0, utf16 "Ann", utf16 "ann@a.com", 36 :: 0 :: utf16 "secret1", utf16 "Admin",
      utf16 "A"⟩,
    ⟨toyId 1, utf16 "Bob", utf16 "bob@b.com", 36 :: 1 :: utf16 "secret2", utf16 "Admin",
      utf16 "B"⟩],
   [⟨.sclass, toyId 10, toyId 0⟩, ⟨.student, toyId 11, toyId 0⟩, ⟨.teacher, toyId 12, toyId 0⟩,
    ⟨.student, toyId 13, toyId 1⟩], 2⟩

/-- The in-memory store in which the bulk delete of the teachers of `a0` is
rejected, as in the test of the partial failure. -/
def teacherFault : World Db :=
  toyStore.withFaults fun c =>
    if c = .deleteMany .teacher (some (toyId 0)) then
      some (.str (utf16 "Partial failure: Could not delete all teachers"))
    else none

/-- The status of the response of a run, if it ended with one. -/
def Outcome.status? : Outcome → Option Nat
  | .responded r => some r.status
  | _ => none

/-- The body of the response of a run, if it ended with one. -/
def Outcome.body? : Outcome → Option JVal
  | .responded r => some r.body
  | _ => none

/-- A registration with the password of two letters padded with spaces to six
characters. -/
def paddedPassword : RegisterBody :=
  ⟨.str (utf16 "Admin"), .str (utf16 "admin@test.com"), .str (utf16 "  ab  "), .str (utf16 "X")⟩

/-- The registration of the test that sends `role: SuperAdmin`. -/
def superAdminFields : List (String × JVal) :=
  [("name", .str (utf16 "John Doe")), ("email", .str (utf16 "john@example.com")),
   ("password", .str (utf16 "Password123")), ("schoolName", .str (utf16 "Test School")),
   ("role", .str (utf16 "SuperAdmin"))]

/-- What a 400 of a registration says of the events before it. -/
def FailFast (h : List Event) (r : Response) : Prop :=
  r.status = 400 →
    (r ≠ message 400 "Email already exists" → h = []) ∧ ∀ ev ∈ h, ev.call.isWrite = false

/-- An update with a new, well-formed email and the password `123`. -/
def emailAndShortPassword : UpdateBody :=
  ⟨.undefined, .str (utf16 "new@x.com"), .str (utf16 "123")⟩

/-- What the validation responses of an update say of the events before them:
`Invalid email format` comes before any call, and the password message after at
most the uniqueness lookup, which found nothing. -/
def UpdateValidation (body : UpdateBody) (h : List Event) (r : Response) : Prop :=
  (r = message 400 "Invalid email format" → h = []) ∧
  (r = message 400 "Password must be at least 6 characters long" →
    h = [] ∨ truthy body.email = true ∧ ∃ f, h = [⟨.findOne f, .ok none⟩])

/-- The calls that an update may make: the uniqueness lookup, the hashing, and
the write of an update document that has a key exactly for each truthy field of
the body. -/
def UpdateCall (body : UpdateBody) : Call → Prop
  | .findOne _ => True
  | .hash _ _ => True
  | .findByIdAndUpdate _ u =>
    u.name.isSome = truthy body.name ∧ u.email.isSome = truthy body.email ∧
      u.password.isSome = truthy body.password
  | _ => False

/-- What an update leaves of an account: its identity, role and school name,
and every field for which the body has no truthy value. -/
def Untouched (body : UpdateBody) (a a' : AdminRec) : Prop :=
  a'._id = a._id ∧ a'.role = a.role ∧ a'.schoolName = a.schoolName ∧
    (truthy body.name = false → a'.name = a.name) ∧
    (truthy body.email = false → a'.email = a.email) ∧
    (truthy body.password = false → a'.password = a.password)

/-- An update of the name alone. -/
def renameTo (name : JStr) : UpdateBody := ⟨.str name, .undefined, .undefined⟩

/-- Every failure among some events has a string as message. -/
def TextErrors (h : List Event) : Prop :=
  ∀ ev ∈ h, ∀ e, ev.error? = some e → ∃ m : JStr, e = .str m

/-- What the events before a response say of its body: when every failure
among them has a string as message, an error response has the form
`{ message: <string> }`. -/
structure ErrorShape (h : List Event) (r : Response) : Prop where
  shape : TextErrors h → 400 ≤ r.status → r.hasMessage

/-- A world in which every call is rejected with the same reason. -/
def rejecting (e : Thrown) : World Unit where
  answer s _ := (.error e, s)

/-- The in-memory store in which `save` is rejected with the given reason. -/
def saveFault (e : Thrown) : World Db :=
  toyStore.withFaults fun c =>
    match c with
    | .save _ => some e
    | _ => none

/-- A login with a query operator as email. -/
def operatorLogin : LoginBody :=
  ⟨.obj [("$gt", .str [])], .str (utf16 "anything")⟩

/-- The registration of the tests with the given name. -/
def namedBody (name : String) : RegisterBody :=
  ⟨.str (utf16 name), .str (utf16 "admin@school.com"), .str (utf16 "password123"),
    .str (utf16 "Test School")⟩

/-- The registration of the tests with the given email. -/
def emailBody (email : String) : RegisterBody :=
  ⟨.str (utf16 "Admin"), .str (utf16 email), .str (utf16 "password123"),
    .str (utf16 "Test School")⟩

/-- A request for the dashboard that carries the id of `a0` in its query
string, with a bearer token. -/
def dashboardRequest : HttpRequest where
  method := .get
  path := [utf16 "AdminDashboard"]
  query := [(utf16 "id", toyId 0)]
  authorization := .str (utf16 "Bearer t")

/-- A middleware that lets every request through. -/
def passAll : Middleware := fun _ => .next (.obj [])

/-- No other controller is looked at in the examples. -/
def noOthers : String → HttpRequest → Js Unit :=
  fun _ _ => .respond (message 404 "Route not available")

/-! ## Reduction lemmas -/

@[simp] theorem bind_eq {α β : Type} (x : Js α) (f : α → Js β) : x >>= f = x.bind f := rfl

@[simp] theorem pure_eq {α : Type} (a : α) : (pure a : Js α) = Js.pure a := rfl

theorem trim_nil : trim [] = [] := rfl

theorem ne_nil_of_trim_ne_nil {s : JStr} (h : trim s ≠ []) : s ≠ [] := by
  rintro rfl
  exact h trim_nil

/-- The required-field condition on a string: it is empty after trimming. -/
theorem blank_str (expr : String) (s : JStr) :
    blank expr (.str s) = .pure (decide (trim s = [])) := by
  by_cases h : s = []
  · subst h
    simp [blank, truthy, trim_nil]
  · simp [blank, truthy, h, eval, callTrim, Js.bind]

/-- The validation of `adminRegister` on a body of four strings, rule by rule
in the order of the source. -/
theorem adminRegister_str (B : Builtins) (n e p sn : JStr) :
    adminRegister B ⟨.str n, .str e, .str p, .str sn⟩ =
      if trim n = [] then .respond (message 400 "Name is required")
      else if trim e = [] then .respond (message 400 "Email is required")
      else if trim p = [] then .respond (message 400 "Password is required")
      else if trim sn = [] then .respond (message 400 "School name is required")
      else if emailRegex.test (trim e) = false then .respond (message 400 "Invalid email format")
      else if p.length < 6 then
        .respond (message 400 "Password must be at least 6 characters long")
      else if (trim n).length > 100 then .respond (message 400 "Name is too long")
      else if (trim e).length > 255 then .respond (message 400 "Email is too long")
      else if xssRegex.test n = true then .respond (message 400 "Invalid characters in name")
      else tryBlock (registerAccount B ⟨.str n, .str e, .str p, .str sn⟩) := by
  simp only [adminRegister, blank_str, bind_eq, pure_eq, Js.bind, reply, eval, callTrim, getLength,
    lessThan, toStr, apply_ite tryBlock, tryBlock, decide_eq_true_eq, Bool.not_eq_true',
    Nat.cast_lt_ofNat]

/-! ## The regular expressions -/

theorem isWhiteSpace_at : isWhiteSpace 64 = false := by decide
theorem isWhiteSpace_dot : isWhiteSpace 46 = false := by decide

theorem mem_spans (p : Nat → Bool) (s t : JStr) :
    t ∈ spans p s ↔ ∃ pre, pre ≠ [] ∧ (∀ c ∈ pre, p c = true) ∧ s = pre ++ t := by
  induction s with
  | nil =>
    simp only [spans, List.not_mem_nil, false_iff]
    rintro ⟨pre, hne, -, h⟩
    cases pre with
    | nil => exact hne rfl
    | cons x xs => simp at h
  | cons c cs ih =>
    by_cases hc : p c = true
    · simp only [spans, hc, if_true, List.mem_append, List.mem_singleton, ih]
      constructor
      · rintro (⟨pre, -, hp, rfl⟩ | rfl)
        · exact ⟨c :: pre, by simp, by simpa [hc] using hp, rfl⟩
        · exact ⟨[c], by simp, by simpa using hc, rfl⟩
      · rintro ⟨pre, hne, hp, h⟩
        cases pre with
        | nil => exact absurd rfl hne
        | cons x xs =>
          simp only [List.cons_append, List.cons.injEq] at h
          obtain ⟨rfl, rfl⟩ := h
          by_cases hx : xs = []
          · subst hx
            right
            simp
          · left
            exact ⟨xs, hx, fun a ha => hp a (List.mem_cons_of_mem _ ha), rfl⟩
    · have hc' : p c = false := by simpa using hc
      simp only [spans, hc', Bool.false_eq_true, if_false, List.not_mem_nil, false_iff]
      rintro ⟨pre, hne, hp, h⟩
      cases pre with
      | nil => exact hne rfl
      | cons x xs =>
        simp only [List.cons_append, List.cons.injEq] at h
        have := hp x (List.mem_cons_self _ _)
        rw [← h.1, hc'] at this
        exact absurd this (by simp)

theorem mem_run_unit (ic : Bool) (c : Nat) (s t : JStr) :
    t ∈ (Re.unit c).run ic s ↔ ∃ x, canonicalize ic x = canonicalize ic c ∧ s = x :: t := by
  cases s with
  | nil => simp [Re.run]
  | cons x xs =>
    by_cases h : canonicalize ic x = canonicalize ic c
    · simp only [Re.run, h, if_true, List.mem_singleton, List.cons.injEq]
      constructor
      · rintro rfl; exact ⟨x, h, rfl, rfl⟩
      · rintro ⟨_, _, _, rfl⟩; rfl
    · simp only [Re.run, h, if_false, List.not_mem_nil, List.cons.injEq, false_iff]
      rintro ⟨y, hy, rfl, -⟩
      exact h hy

theorem mem_run_seq (ic : Bool) (a b : Re) (s t : JStr) :
    t ∈ (Re.seq a b).run ic s ↔ ∃ m, m ∈ a.run ic s ∧ t ∈ b.run ic m := by
  simp only [Re.run, List.mem_flatten, List.mem_map]
  constructor
  · rintro ⟨l, ⟨m, hm, rfl⟩, ht⟩; exact ⟨m, hm, ht⟩
  · rintro ⟨m, hm, ht⟩; exact ⟨_, ⟨m, hm, rfl⟩, ht⟩

/-- The shape that `emailRegex` accepts. -/
theorem emailRegex_test_iff (s : JStr) :
    emailRegex.test s = true ↔
      ∃ l d1 d2, l ≠ [] ∧ d1 ≠ [] ∧ d2 ≠ [] ∧ (∀ c ∈ l, notSpaceAt c = true) ∧
        (∀ c ∈ d1, notSpaceAt c = true) ∧ (∀ c ∈ d2, notSpaceAt c = true) ∧
        s = l ++ 64 :: (d1 ++ 46 :: d2) := by
  have hcan : ∀ x c, canonicalize false x = canonicalize false c ↔ x = c := by
    intro x c; simp [canonicalize]
  simp only [RegExp.test, emailRegex, RegExp.matchAt, if_true, List.any_eq_true, Bool.not_true,
    Bool.false_or, List.isEmpty_iff, exists_eq_right, mem_run_seq, mem_run_unit, hcan]
  simp only [Re.run, mem_spans]
  constructor
  · rintro ⟨m1, ⟨l, hl, hlp, rfl⟩, m2, ⟨x, rfl, rfl⟩, m3, ⟨d1, hd1, hd1p, rfl⟩, m4, ⟨y, rfl, rfl⟩,
      d2, hd2, hd2p, h⟩
    refine ⟨l, d1, d2, hl, hd1, hd2, hlp, hd1p, hd2p, ?_⟩
    simp at h
    simp [h]
  · rintro ⟨l, d1, d2, hl, hd1, hd2, hlp, hd1p, hd2p, rfl⟩
    exact ⟨_, ⟨l, hl, hlp, rfl⟩, _, ⟨64, rfl, rfl⟩, _, ⟨d1, hd1, hd1p, rfl⟩, _, ⟨46, rfl, rfl⟩,
      d2, hd2, hd2p, by simp⟩

theorem notSpaceAt_iff (c : Nat) : notSpaceAt c = true ↔ isWhiteSpace c = false ∧ c ≠ 64 := by
  simp [notSpaceAt]

theorem dropWhile_ne_at (l rest : JStr) (hl : ∀ c ∈ l, c ≠ 64) :
    (l ++ 64 :: rest).dropWhile (fun c => c != 64) = 64 :: rest := by
  induction l with
  | nil => simp [List.dropWhile]
  | cons x xs ih =>
    have hx : x ≠ 64 := hl x (List.mem_cons_self _ _)
    simp only [List.cons_append, List.dropWhile_cons, bne_iff_ne, ne_eq, hx, not_false_eq_true,
      if_true]
    exact ih fun c hc => hl c (List.mem_cons_of_mem _ hc)

theorem count_at_zero (l : JStr) (hl : ∀ c ∈ l, c ≠ 64) : l.count 64 = 0 := by
  rw [List.count_eq_zero]
  intro h
  exact hl 64 h rfl

theorem split_at_first (s : JStr) (h : 64 ∈ s) :
    ∃ l, (∀ c ∈ l, c ≠ 64) ∧ s = l ++ 64 :: afterAt s := by
  induction s with
  | nil => simp at h
  | cons x xs ih =>
    by_cases hx : x = 64
    · subst hx
      exact ⟨[], by simp, by simp [afterAt]⟩
    · have hmem : 64 ∈ xs := by
        rcases List.mem_cons.1 h with h | h
        · exact absurd h.symm hx
        · exact h
      obtain ⟨l, hl, hs⟩ := ih hmem
      refine ⟨x :: l, ?_, ?_⟩
      · intro c hc
        rcases List.mem_cons.1 hc with rfl | hc
        · exact hx
        · exact hl c hc
      · have : afterAt (x :: xs) = afterAt xs := by
          simp [afterAt, List.dropWhile_cons, hx]
        rw [this, List.cons_append, ← hs]

theorem emailRegex_test_iff_shape (s : JStr) : emailRegex.test s = true ↔ SpecEmailShape s := by
  rw [emailRegex_test_iff]
  constructor
  · rintro ⟨l, d1, d2, hl, hd1, hd2, hlp, hd1p, hd2p, rfl⟩
    simp only [notSpaceAt_iff] at hlp hd1p hd2p
    have hl64 : ∀ c ∈ l, c ≠ 64 := fun c hc => (hlp c hc).2
    refine ⟨?_, ?_, ?_, d1, d2, hd1, hd2, ?_⟩
    · intro c hc
      simp only [List.mem_append, List.mem_cons] at hc
      rcases hc with hc | rfl | hc | rfl | hc
      · exact (hlp c hc).1
      · exact isWhiteSpace_at
      · exact (hd1p c hc).1
      · exact isWhiteSpace_dot
      · exact (hd2p c hc).1
    · simp [List.count_append, List.count_cons, count_at_zero l hl64,
        count_at_zero d1 fun c hc => (hd1p c hc).2, count_at_zero d2 fun c hc => (hd2p c hc).2]
    · cases l with
      | nil => exact absurd rfl hl
      | cons x xs =>
        simp only [List.cons_append, List.head?_cons, ne_eq, Option.some.injEq]
        exact hl64 x (List.mem_cons_self _ _)
    · simp [afterAt, dropWhile_ne_at l _ hl64]
  · rintro ⟨hws, hcount, hhead, a, b, ha, hb, hafter⟩
    have hmem : 64 ∈ s := by
      rw [← List.count_pos_iff]
      omega
    obtain ⟨l, hl, hs⟩ := split_at_first s hmem
    rw [hafter] at hs
    have hc : (a ++ 46 :: b).count 64 = 0 := by
      have := hcount
      rw [hs, List.count_append, List.count_cons, count_at_zero l hl] at this
      simp at this
      simpa [List.count_append, List.count_cons] using this
    rw [List.count_eq_zero] at hc
    have hws' : ∀ c ∈ l ++ 64 :: (a ++ 46 :: b), isWhiteSpace c = false := hs ▸ hws
    refine ⟨l, a, b, ?_, ha, hb, ?_, ?_, ?_, hs⟩
    · rintro rfl
      rw [hs] at hhead
      simp at hhead
    · intro c hc'
      exact (notSpaceAt_iff c).2 ⟨hws' c (by simp [hc']), hl c hc'⟩
    · intro c hc'
      refine (notSpaceAt_iff c).2 ⟨hws' c (by simp [hc']), ?_⟩
      rintro rfl
      exact hc (by simp [hc'])
    · intro c hc'
      refine (notSpaceAt_iff c).2 ⟨hws' c (by simp [hc']), ?_⟩
      rintro rfl
      exact hc (by simp [hc'])

theorem canonicalize_eq_iff (x c : Nat) (hc : patternUnit c = true) :
    canonicalize true x = canonicalize true c ↔ lowerUnit x = c := by
  simp only [patternUnit, Bool.or_eq_true, Bool.and_eq_true, decide_eq_true_eq] at hc
  simp only [canonicalize, lowerUnit, Bool.true_and, Bool.and_eq_true, decide_eq_true_eq]
  split_ifs <;> omega

theorem mem_run_lit (p : JStr) (hp : ∀ c ∈ p, patternUnit c = true) (s t : JStr) :
    t ∈ (Re.lit p).run true s ↔ ∃ mid, asciiLower mid = p ∧ s = mid ++ t := by
  induction p generalizing s with
  | nil =>
    simp only [Re.lit, Re.run, List.mem_singleton, asciiLower, List.map_eq_nil_iff]
    constructor
    · rintro rfl; exact ⟨[], rfl, rfl⟩
    · rintro ⟨mid, rfl, rfl⟩; rfl
  | cons c cs ih =>
    have hc := hp c (List.mem_cons_self _ _)
    have hcs : ∀ d ∈ cs, patternUnit d = true := fun d hd => hp d (List.mem_cons_of_mem _ hd)
    simp only [Re.lit, mem_run_seq, mem_run_unit, canonicalize_eq_iff _ _ hc, ih hcs]
    constructor
    · rintro ⟨m, ⟨x, hx, rfl⟩, mid, hmid, rfl⟩
      exact ⟨x :: mid, by simp [asciiLower, hx] at hmid ⊢; exact hmid, rfl⟩
    · rintro ⟨mid, hmid, rfl⟩
      cases mid with
      | nil => simp [asciiLower] at hmid
      | cons x xs =>
        simp only [asciiLower, List.map_cons, List.cons.injEq] at hmid
        exact ⟨xs ++ t, ⟨x, hmid.1, rfl⟩, xs, hmid.2, rfl⟩

theorem xssPatterns_units : ∀ p ∈ xssPatterns, ∀ c ∈ p, patternUnit c = true := by decide

theorem mem_run_alt (ic : Bool) (a b : Re) (s t : JStr) :
    t ∈ (Re.alt a b).run ic s ↔ t ∈ a.run ic s ∨ t ∈ b.run ic s := by
  simp only [Re.run, List.mem_append]

theorem mem_run_xss (t r : JStr) :
    r ∈ xssRegex.body.run true t ↔
      ∃ p ∈ xssPatterns, ∃ mid, asciiLower mid = p ∧ t = mid ++ r := by
  have h := xssPatterns_units
  simp only [xssPatterns, List.mem_cons, List.mem_singleton, List.not_mem_nil, or_false,
    forall_eq_or_imp, forall_eq] at h
  obtain ⟨h1, h2, h3, h4, h5⟩ := h
  simp only [xssRegex, mem_run_alt, mem_run_lit _ h1, mem_run_lit _ h2,
    mem_run_lit _ h3, mem_run_lit _ h4, mem_run_lit _ h5, xssPatterns, List.mem_cons,
    List.mem_singleton, List.not_mem_nil, or_false, exists_eq_or_imp, exists_eq_left]

/-- The screen on names: `xssRegex` matches exactly when the name contains one
of the five patterns, letter case ignored. -/
theorem xssRegex_test_iff (s : JStr) :
    xssRegex.test s = true ↔ ∃ p ∈ xssPatterns, SpecContains s p := by
  have htest : xssRegex.test s = true ↔ ∃ t ∈ s.tails, ∃ r, r ∈ xssRegex.body.run true t := by
    simp only [RegExp.test, RegExp.matchAt, xssRegex, Bool.false_eq_true, if_false,
      List.any_eq_true, Bool.not_false, Bool.true_or, and_true]
  rw [htest]
  simp only [mem_run_xss, List.mem_tails, SpecContains]
  constructor
  · rintro ⟨t, ⟨pre, rfl⟩, r, p, hp, mid, hmid, rfl⟩
    refine ⟨p, hp, asciiLower pre, asciiLower r, ?_⟩
    simp [asciiLower, ← hmid]
  · rintro ⟨p, hp, pre, post, h⟩
    simp only [asciiLower, List.append_assoc] at h
    obtain ⟨a, rest, rfl, ha, hrest⟩ := List.map_eq_append_iff.1 h
    obtain ⟨b, c, rfl, hb, hc⟩ := List.map_eq_append_iff.1 hrest
    exact ⟨b ++ c, ⟨a, rfl⟩, c, p, hp, b, hb, rfl⟩

/-! ## Runs -/

theorem run_respond {σ α : Type} (W : World σ) (s : σ) (r : Response) :
    (Js.respond r : Js α).run W s = ⟨.responded r, [], s⟩ := rfl

theorem pure_bind {α β : Type} (a : α) (f : α → Js β) : (Js.pure a).bind f = f a := rfl

theorem respond_bind {α β : Type} (r : Response) (f : α → Js β) :
    (Js.respond r : Js α).bind f = .respond r := rfl

theorem throw_bind {α β : Type} (e : Thrown) (f : α → Js β) :
    (Js.throw e : Js α).bind f = .throw e := rfl

theorem ite_bind {α β : Type} (c : Prop) [Decidable c] (x y : Js α) (f : α → Js β) :
    (if c then x else y).bind f = if c then x.bind f else y.bind f := by
  split <;> rfl

theorem tryBlock_respond {α : Type} (r : Response) :
    tryBlock (Js.respond r : Js α) = .respond r := rfl

theorem tryBlock_throw {α : Type} (e : Thrown) :
    tryBlock (Js.throw e : Js α) = .respond (failure e) := rfl

theorem run_await {σ α : Type} (W : World σ) (s : σ) (c : Call) (f : c.Result → Js α) :
    (tryBlock ((await c).bind f)).run W s =
      (match (W.answer s c).1 with
        | .ok v => (tryBlock (f v)).run W (W.answer s c).2
        | .error e => ⟨.responded (failure e), [], (W.answer s c).2⟩).after
        ⟨c, (W.answer s c).1⟩ := by
  simp only [await, Js.bind, tryBlock, Js.run]
  cases (W.answer s c).1 <;> simp [Js.bind, tryBlock, Js.run]

/-- The required-field condition on a field that is absent, null or a string. -/
theorem blank_of_textOrAbsent (expr : String) (v : JVal) (h : textOrAbsent v = true) :
    blank expr v = .pure (missing v) := by
  cases v <;> simp_all [textOrAbsent, missing, blank_str] <;> rfl

theorem blank_of_missing (expr : String) (v : JVal) (h : missing v = true) :
    blank expr v = .pure true := by
  cases v <;> simp_all [missing, blank_str] <;> rfl

/-- C1, as amended. For every request body whose name, email and password are
each absent, null or a string: if the name is absent or empty after trimming the
response is 400 `Name is required`; otherwise if the email is, it is 400
`Email is required`; otherwise if the password is, it is 400
`Password is required`; otherwise if the school name is, it is 400
`School name is required`. No call is made and the state is unchanged. -/
theorem adminRegister_required (B : Builtins) (body : RegisterBody) {σ : Type} (W : World σ)
    (s : σ) (hn : textOrAbsent body.name = true) (he : textOrAbsent body.email = true)
    (hp : textOrAbsent body.password = true) :
    (missing body.name = true →
      (adminRegister B body).run W s = ⟨.responded (message 400 "Name is required"), [], s⟩) ∧
    (missing body.name = false → missing body.email = true →
      (adminRegister B body).run W s = ⟨.responded (message 400 "Email is required"), [], s⟩) ∧
    (missing body.name = false → missing body.email = false → missing body.password = true →
      (adminRegister B body).run W s =
        ⟨.responded (message 400 "Password is required"), [], s⟩) ∧
    (missing body.name = false → missing body.email = false → missing body.password = false →
      missing body.schoolName = true →
      (adminRegister B body).run W s =
        ⟨.responded (message 400 "School name is required"), [], s⟩) := by
  refine ⟨fun h1 => ?_, fun h1 h2 => ?_, fun h1 h2 h3 => ?_, fun h1 h2 h3 h4 => ?_⟩
  · simp [adminRegister, blank_of_textOrAbsent, hn, h1, pure_bind, respond_bind, reply,
      tryBlock_respond, run_respond]
  · simp [adminRegister, blank_of_textOrAbsent, hn, he, h1, h2, pure_bind, respond_bind, reply,
      tryBlock_respond, run_respond]
  · simp [adminRegister, blank_of_textOrAbsent, hn, he, hp, h1, h2, h3, pure_bind, respond_bind,
      reply, tryBlock_respond, run_respond]
  · simp [adminRegister, blank_of_textOrAbsent, blank_of_missing, hn, he, hp, h1, h2, h3, h4,
      pure_bind, respond_bind, reply, tryBlock_respond, run_respond]

/-- C1 as stated fails. The name 5 is neither absent nor empty after trimming
and the email is absent, yet the response is not 400 `Email is required`: reading
`name.trim` throws, and the response is 500 with the message of that error. -/
theorem adminRegister_required_counterexample :
    missing numericNameBody.name = false ∧ missing numericNameBody.email = true ∧
    ((adminRegister asciiRuntime numericNameBody).run toyStore emptyDb).outcome =
      .responded (failure (.str (utf16 "name.trim is not a function"))) ∧
    ((adminRegister asciiRuntime numericNameBody).run toyStore emptyDb).outcome ≠
      .responded (message 400 "Email is required") := by
  decide

/-- The amended C1 at a body with a name and a blank email. -/
theorem adminRegister_required_witness :
    (adminRegister asciiRuntime { name := .str (utf16 "Admin"), email := .str (utf16 "  ") }).run
        toyStore emptyDb =
      ⟨.responded (message 400 "Email is required"), [], emptyDb⟩ :=
  (adminRegister_required asciiRuntime
    { name := .str (utf16 "Admin"), email := .str (utf16 "  ") } toyStore emptyDb
    (by decide) (by decide) (by decide)).2.1 (by decide) (by decide)

theorem run_registerAccount_exists {σ : Type} (W : World σ) (s s' : σ) (B : Builtins)
    (n e p sn : JStr) (a : AdminRec)
    (h : W.answer s (.findOne ⟨B.toLowerCase (trim e), none⟩) = (.ok (some a), s')) :
    (tryBlock (registerAccount B ⟨.str n, .str e, .str p, .str sn⟩)).run W s =
      ⟨.responded (message 400 "Email already exists"),
        [⟨.findOne ⟨B.toLowerCase (trim e), none⟩, .ok (some a)⟩], s'⟩ := by
  simp only [registerAccount, bind_eq, pure_eq, reply, eval, callTrim, pure_bind, respond_bind,
    ite_bind, run_await, h]
  simp [tryBlock_respond, run_respond, Run.after]

theorem firstFailure_eq_none_iff (n e p sn : JStr) :
    firstFailure n e p sn = none ↔
      trim n ≠ [] ∧ trim e ≠ [] ∧ trim p ≠ [] ∧ trim sn ≠ [] ∧ emailRegex.test (trim e) = true ∧
        6 ≤ p.length ∧ (trim n).length ≤ 100 ∧ (trim e).length ≤ 255 ∧ xssRegex.test n = false := by
  simp only [firstFailure, registerRules, Option.map_eq_none', List.find?_eq_none, List.mem_cons,
    List.mem_singleton, List.not_mem_nil, or_false, forall_eq_or_imp, forall_eq,
    Bool.not_eq_true, gt_iff_lt]
  simp only [decide_eq_false_iff_not, Bool.not_eq_false', not_lt, ne_eq]

/-- Validation passes exactly when no rule rejects. -/
theorem adminRegister_of_valid (B : Builtins) (n e p sn : JStr)
    (h : firstFailure n e p sn = none) :
    adminRegister B ⟨.str n, .str e, .str p, .str sn⟩ =
      tryBlock (registerAccount B ⟨.str n, .str e, .str p, .str sn⟩) := by
  obtain ⟨h1, h2, h3, h4, h5, h6, h7, h8, h9⟩ := (firstFailure_eq_none_iff n e p sn).1 h
  rw [adminRegister_str]
  simp only [h1, h2, h3, h4, h5, h9, if_false, Bool.true_eq_false, Bool.false_eq_true,
    Nat.not_lt.2 h6, gt_iff_lt, Nat.not_lt.2 h7, Nat.not_lt.2 h8]

/-- C2, as amended. On a body of four strings `adminRegister` applies its rules
in this order and answers 400 with the message of the first that fails, without
any call: the four required fields (name, email, password, school name), email
format, password minimum length, name length, email length, name denylist; when
none fails it goes on to the uniqueness lookup, and answers 400
`Email already exists` when that finds an account. In particular, when the four
fields are non-empty, the trimmed name is longer than 100 characters and the
email is malformed, the response is 400 `Invalid email format`. -/
theorem adminRegister_rule_order (B : Builtins) (n e p sn : JStr) {σ : Type} (W : World σ)
    (s : σ) :
    (∀ m, firstFailure n e p sn = some m →
      (adminRegister B ⟨.str n, .str e, .str p, .str sn⟩).run W s =
        ⟨.responded (message 400 m), [], s⟩) ∧
    (firstFailure n e p sn = none →
      adminRegister B ⟨.str n, .str e, .str p, .str sn⟩ =
        tryBlock (registerAccount B ⟨.str n, .str e, .str p, .str sn⟩) ∧
      ∀ a s', W.answer s (.findOne ⟨B.toLowerCase (trim e), none⟩) = (.ok (some a), s') →
        (adminRegister B ⟨.str n, .str e, .str p, .str sn⟩).run W s =
          ⟨.responded (message 400 "Email already exists"),
            [⟨.findOne ⟨B.toLowerCase (trim e), none⟩, .ok (some a)⟩], s'⟩) ∧
    (trim n ≠ [] → trim e ≠ [] → trim p ≠ [] → trim sn ≠ [] → 100 < (trim n).length →
      emailRegex.test (trim e) = false →
      (adminRegister B ⟨.str n, .str e, .str p, .str sn⟩).run W s =
        ⟨.responded (message 400 "Invalid email format"), [], s⟩) := by
  refine ⟨?_, ?_, ?_⟩
  · intro m hm
    rw [adminRegister_str]
    simp only [firstFailure, registerRules, List.find?_cons] at hm
    split_ifs <;> simp_all [run_respond]
  · intro h
    have hprog := adminRegister_of_valid B n e p sn h
    refine ⟨hprog, fun a s' ha => ?_⟩
    rw [hprog, run_registerAccount_exists W s s' B n e p sn a ha]
  · intro h1 h2 h3 h4 _ h6
    rw [adminRegister_str]
    simp [h1, h2, h3, h4, h6, run_respond]

/-- C2 as stated fails. The four fields are non-empty, the trimmed name has 101
characters and the email is malformed, and the response is 400
`Invalid email format`, not 400 `Name is too long`: the format of the email is
checked before the length of the name. -/
theorem adminRegister_rule_order_counterexample :
    (trim (List.replicate 101 97)).length = 101 ∧
    emailRegex.test (trim (utf16 "invalidemail")) = false ∧
    ((adminRegister asciiRuntime longNameBadEmail).run toyStore emptyDb).outcome =
      .responded (message 400 "Invalid email format") ∧
    ((adminRegister asciiRuntime longNameBadEmail).run toyStore emptyDb).outcome ≠
      .responded (message 400 "Name is too long") := by
  decide

/-- The amended C2 at a body with a long name and a malformed email. -/
theorem adminRegister_rule_order_witness :
    (adminRegister asciiRuntime ⟨.str (List.replicate 101 97), .str (utf16 "invalidemail"),
        .str (utf16 "password123"), .str (utf16 "Test School")⟩).run toyStore emptyDb =
      ⟨.responded (message 400 "Invalid email format"), [], emptyDb⟩ :=
  (adminRegister_rule_order asciiRuntime (List.replicate 101 97) (utf16 "invalidemail")
    (utf16 "password123") (utf16 "Test School") toyStore emptyDb).2.2
    (by decide) (by decide) (by decide) (by decide) (by decide) (by decide)

theorem after_outcome {σ : Type} (ev : Event) (r : Run σ) : (r.after ev).outcome = r.outcome := rfl

theorem after_trace {σ : Type} (ev : Event) (r : Run σ) : (r.after ev).trace = ev :: r.trace := rfl

theorem after_final {σ : Type} (ev : Event) (r : Run σ) : (r.after ev).final = r.final := rfl

/-- How `registerAccount` can end: with 500, with 400 `Email already exists`,
or with 200. -/
theorem registerAccount_outcome {σ : Type} (W : World σ) (s : σ) (B : Builtins)
    (n e p sn : JStr) :
    ∃ r, ((tryBlock (registerAccount B ⟨.str n, .str e, .str p, .str sn⟩)).run W s).outcome =
        .responded r ∧
      (r.status = 500 ∨ r = message 400 "Email already exists" ∨ r.status = 200) := by
  simp only [registerAccount, bind_eq, pure_eq, reply, eval, callTrim, pure_bind, respond_bind,
    ite_bind, run_await, after_outcome]
  split
  · split
    · exact ⟨_, rfl, Or.inr (Or.inl rfl)⟩
    · simp only [run_await, after_outcome]
      split
      · split
        · split
          · exact ⟨_, rfl, Or.inr (Or.inr rfl)⟩
          · exact ⟨_, rfl, Or.inl rfl⟩
        · exact ⟨_, rfl, Or.inl rfl⟩
      · exact ⟨_, rfl, Or.inl rfl⟩
  · exact ⟨_, rfl, Or.inl rfl⟩

/-- A response of `registerAccount` is not a validation message. -/
theorem registerAccount_outcome_ne {σ : Type} (W : World σ) (s : σ) (B : Builtins)
    (n e p sn : JStr) (m : String) (hm : utf16 m ≠ utf16 "Email already exists") :
    ((tryBlock (registerAccount B ⟨.str n, .str e, .str p, .str sn⟩)).run W s).outcome ≠
      .responded (message 400 m) := by
  obtain ⟨r, hr, h⟩ := registerAccount_outcome W s B n e p sn
  rw [hr]
  intro heq
  injection heq with heq
  subst heq
  rcases h with h | h | h
  · simp [message] at h
  · simp only [message, Response.mk.injEq, JVal.obj.injEq, List.cons.injEq, Prod.mk.injEq,
      JVal.str.injEq, true_and, and_true] at h
    exact hm h
  · simp [message] at h

/-- C3. For every body whose name is non-empty after trimming and whose email,
password and school name pass their own checks: the response is 400
`Name is too long` exactly when the trimmed name has more than 100 characters;
otherwise it is 400 `Invalid characters in name` exactly when the name contains,
letter case ignored, one of the five patterns; otherwise the name passes and the
handler goes on to `registerAccount`. -/
theorem adminRegister_name_rule (B : Builtins) (n e p sn : JStr) {σ : Type} (W : World σ) (s : σ)
    (hn : trim n ≠ []) (he : trim e ≠ []) (hfmt : emailRegex.test (trim e) = true)
    (hlen : (trim e).length ≤ 255) (hp : trim p ≠ []) (hp6 : 6 ≤ p.length) (hsn : trim sn ≠ []) :
    (((adminRegister B ⟨.str n, .str e, .str p, .str sn⟩).run W s).outcome =
        .responded (message 400 "Name is too long") ↔ 100 < (trim n).length) ∧
    ((trim n).length ≤ 100 →
      (((adminRegister B ⟨.str n, .str e, .str p, .str sn⟩).run W s).outcome =
        .responded (message 400 "Invalid characters in name") ↔
          ∃ q ∈ xssPatterns, SpecContains n q)) ∧
    ((trim n).length ≤ 100 → (¬ ∃ q ∈ xssPatterns, SpecContains n q) →
      adminRegister B ⟨.str n, .str e, .str p, .str sn⟩ =
        tryBlock (registerAccount B ⟨.str n, .str e, .str p, .str sn⟩)) := by
  have hform : adminRegister B ⟨.str n, .str e, .str p, .str sn⟩ =
      if (trim n).length > 100 then .respond (message 400 "Name is too long")
      else if xssRegex.test n = true then .respond (message 400 "Invalid characters in name")
      else tryBlock (registerAccount B ⟨.str n, .str e, .str p, .str sn⟩) := by
    rw [adminRegister_str]
    simp only [hn, he, hp, hsn, hfmt, if_false, Bool.true_eq_false, Nat.not_lt.2 hp6, gt_iff_lt,
      Nat.not_lt.2 hlen]
  rw [hform, ← xssRegex_test_iff]
  refine ⟨?_, fun h100 => ?_, fun h100 hx => ?_⟩
  · by_cases h : 100 < (trim n).length
    · simp [h, run_respond]
    · by_cases hx : xssRegex.test n = true
      · simp only [gt_iff_lt, h, if_false, hx, if_true, run_respond, iff_false]
        decide
      · simp only [gt_iff_lt, h, if_false, hx, iff_false]
        exact registerAccount_outcome_ne W s B n e p sn "Name is too long" (by decide)
  · by_cases hx : xssRegex.test n = true
    · simp [Nat.not_lt.2 h100, hx, run_respond]
    · simp only [gt_iff_lt, Nat.not_lt.2 h100, if_false, hx, Bool.false_eq_true, iff_false]
      exact registerAccount_outcome_ne W s B n e p sn "Invalid characters in name" (by decide)
  · simp [Nat.not_lt.2 h100, hx]

/-- C3 at a name of exactly 100 letters: it is not too long. -/
theorem adminRegister_name_rule_witness :
    ((adminRegister asciiRuntime ⟨.str (List.replicate 100 97), .str (utf16 "admin@school.com"),
        .str (utf16 "password123"), .str (utf16 "Test School")⟩).run toyStore emptyDb).outcome =
        .responded (message 400 "Name is too long") ↔
      100 < (trim (List.replicate 100 97)).length :=
  (adminRegister_name_rule asciiRuntime (List.replicate 100 97) (utf16 "admin@school.com")
    (utf16 "password123") (utf16 "Test School") toyStore emptyDb
    (by decide) (by decide) (by decide) (by decide) (by decide) (by decide) (by decide)).1

/-- The persistence part starts with a call: it is not a bare response. -/
theorem registerAccount_ne_respond (B : Builtins) (n e p sn : JStr) (r : Response) :
    Js.respond r ≠ tryBlock (registerAccount B ⟨.str n, .str e, .str p, .str sn⟩) := by
  intro h
  have h' := congrArg (fun q => (q.run toyStore emptyDb).trace) h
  simp [registerAccount, reply, eval, callTrim, pure_bind, run_await, after_trace,
    run_respond] at h'

/-- C4. For every body whose other fields are valid and whose email is a
string: the email passes validation, so that the handler goes on to
`registerAccount`, exactly when the trimmed email has at most 255 characters and
has the shape of `SpecEmailShape`; and for an email that is not empty after
trimming, the response is neither 400 `Invalid email format` nor 400
`Email is too long` exactly in that case. -/
theorem adminRegister_email_rule (B : Builtins) (n e p sn : JStr) {σ : Type} (W : World σ)
    (s : σ) (hn : trim n ≠ []) (hn100 : (trim n).length ≤ 100) (hx : xssRegex.test n = false)
    (hp : trim p ≠ []) (hp6 : 6 ≤ p.length) (hsn : trim sn ≠ []) :
    (adminRegister B ⟨.str n, .str e, .str p, .str sn⟩ =
        tryBlock (registerAccount B ⟨.str n, .str e, .str p, .str sn⟩) ↔
      (trim e).length ≤ 255 ∧ SpecEmailShape (trim e)) ∧
    (trim e ≠ [] →
      ((((adminRegister B ⟨.str n, .str e, .str p, .str sn⟩).run W s).outcome ≠
          .responded (message 400 "Invalid email format") ∧
        ((adminRegister B ⟨.str n, .str e, .str p, .str sn⟩).run W s).outcome ≠
          .responded (message 400 "Email is too long")) ↔
        (trim e).length ≤ 255 ∧ SpecEmailShape (trim e))) := by
  have hform : adminRegister B ⟨.str n, .str e, .str p, .str sn⟩ =
      if trim e = [] then .respond (message 400 "Email is required")
      else if emailRegex.test (trim e) = false then .respond (message 400 "Invalid email format")
      else if (trim e).length > 255 then .respond (message 400 "Email is too long")
      else tryBlock (registerAccount B ⟨.str n, .str e, .str p, .str sn⟩) := by
    rw [adminRegister_str]
    simp only [hn, hp, hsn, hx, if_false, Bool.false_eq_true, Nat.not_lt.2 hp6, gt_iff_lt,
      Nat.not_lt.2 hn100]
  have hempty : trim e = [] → ¬ SpecEmailShape (trim e) := by
    intro h hs
    rw [h] at hs
    simpa using hs.2.1
  rw [hform, ← emailRegex_test_iff_shape]
  constructor
  · by_cases h0 : trim e = []
    · have := hempty h0
      rw [← emailRegex_test_iff_shape] at this
      simp only [h0, if_true, registerAccount_ne_respond, false_iff, not_and]
      intro _
      rw [← h0]
      exact this
    · by_cases h1 : emailRegex.test (trim e) = true
      · by_cases h2 : (trim e).length > 255
        · simp [h0, h1, h2, registerAccount_ne_respond]
        · simp [h0, h1, h2, Nat.not_lt.1 h2]
      · simp [h0, h1, registerAccount_ne_respond]
  · intro h0
    by_cases h1 : emailRegex.test (trim e) = true
    · by_cases h2 : (trim e).length > 255
      · simp [h0, h1, h2, run_respond]
      · simp only [h0, h1, h2, if_false, Bool.true_eq_false, Nat.not_lt.1 h2, and_self, iff_true]
        exact ⟨registerAccount_outcome_ne W s B n e p sn "Invalid email format" (by decide),
          registerAccount_outcome_ne W s B n e p sn "Email is too long" (by decide)⟩
    · simp [h0, h1, run_respond]

/-- C4 at the email ` Admin@School.com `, which has the shape. -/
theorem adminRegister_email_rule_witness :
    adminRegister asciiRuntime ⟨.str (utf16 "Admin"), .str (utf16 " Admin@School.com "),
        .str (utf16 "password123"), .str (utf16 "Test School")⟩ =
      tryBlock (registerAccount asciiRuntime ⟨.str (utf16 "Admin"),
        .str (utf16 " Admin@School.com "), .str (utf16 "password123"),
        .str (utf16 "Test School")⟩) ↔
      (trim (utf16 " Admin@School.com ")).length ≤ 255 ∧
        SpecEmailShape (trim (utf16 " Admin@School.com ")) :=
  (adminRegister_email_rule asciiRuntime (utf16 "Admin") (utf16 " Admin@School.com ")
    (utf16 "password123") (utf16 "Test School") toyStore emptyDb
    (by decide) (by decide) (by decide) (by decide) (by decide) (by decide)).1

/-- The guard of `adminLogIn` lets a body through when both fields are truthy. -/
theorem adminLogIn_truthy (B : Builtins) (body : LoginBody) (he : truthy body.email = true)
    (hp : truthy body.password = true) :
    adminLogIn B body = tryBlock (loginAccount B body) := by
  simp only [adminLogIn, he, hp, Bool.not_true, Bool.or_self, Bool.false_eq_true, if_false,
    bind_eq, pure_eq, pure_bind]

/-- A login with a falsy email or password is refused before any call. -/
theorem adminLogIn_missing (B : Builtins) (body : LoginBody) {σ : Type} (W : World σ) (s : σ)
    (h : truthy body.email = false ∨ truthy body.password = false) :
    (adminLogIn B body).run W s =
      ⟨.responded (message 400 "Email and password are required"), [], s⟩ := by
  rcases h with h | h
  · simp [adminLogIn, h, reply, respond_bind, tryBlock_respond, run_respond]
  · simp [adminLogIn, h, reply, respond_bind, tryBlock_respond, run_respond]

/-- A login whose email is truthy but not a string throws at `email.trim()`. -/
theorem adminLogIn_not_string (B : Builtins) (body : LoginBody) {σ : Type} (W : World σ) (s : σ)
    (he : truthy body.email = true) (hp : truthy body.password = true)
    (hne : ∀ e, body.email ≠ .str e) :
    (adminLogIn B body).run W s =
      ⟨.responded (failure (.str (utf16 "email.trim is not a function"))), [], s⟩ := by
  rw [adminLogIn_truthy B body he hp]
  cases hb : body.email with
  | str e => exact absurd hb (hne e)
  | undefined => simp [hb, truthy] at he
  | null => simp [hb, truthy] at he
  | bool b => simp [loginAccount, hb, eval, callTrim, throw_bind, tryBlock_throw, run_respond]
  | num k => simp [loginAccount, hb, eval, callTrim, throw_bind, tryBlock_throw, run_respond]
  | arr xs => simp [loginAccount, hb, eval, callTrim, throw_bind, tryBlock_throw, run_respond]
  | obj xs => simp [loginAccount, hb, eval, callTrim, throw_bind, tryBlock_throw, run_respond]

/-- A login with a string email and a truthy password: the lookup, then the
compare. -/
theorem adminLogIn_lookup (B : Builtins) (body : LoginBody) {σ : Type} (W : World σ) (s : σ)
    (e : JStr) (he : body.email = .str e) (hne : e ≠ []) (hp : truthy body.password = true) :
    (∀ s', W.answer s (.findOne ⟨B.toLowerCase (trim e), none⟩) = (.ok none, s') →
      (adminLogIn B body).run W s =
        ⟨.responded (message 404 "Admin not found"),
          [⟨.findOne ⟨B.toLowerCase (trim e), none⟩, .ok none⟩], s'⟩) ∧
    (∀ a s' s'', W.answer s (.findOne ⟨B.toLowerCase (trim e), none⟩) = (.ok (some a), s') →
      W.answer s' (.compare body.password a.password) = (.ok false, s'') →
      (adminLogIn B body).run W s =
        ⟨.responded (message 401 "Invalid credentials"),
          [⟨.findOne ⟨B.toLowerCase (trim e), none⟩, .ok (some a)⟩,
            ⟨.compare body.password a.password, .ok false⟩], s''⟩) ∧
    (∀ a s' s'', W.answer s (.findOne ⟨B.toLowerCase (trim e), none⟩) = (.ok (some a), s') →
      W.answer s' (.compare body.password a.password) = (.ok true, s'') →
      (adminLogIn B body).run W s =
        ⟨.responded ⟨200, adminResponse a⟩,
          [⟨.findOne ⟨B.toLowerCase (trim e), none⟩, .ok (some a)⟩,
            ⟨.compare body.password a.password, .ok true⟩], s''⟩) := by
  have het : truthy body.email = true := by simp [he, truthy, hne]
  rw [adminLogIn_truthy B body het hp]
  simp only [loginAccount, he, bind_eq, pure_eq, eval, callTrim, pure_bind, run_await]
  refine ⟨fun s' h => ?_, fun a s' s'' h h' => ?_, fun a s' s'' h h' => ?_⟩
  · simp [h, reply, tryBlock_respond, run_respond, Run.after]
  · simp [h, h', run_await, reply, respond_bind, tryBlock_respond, run_respond, Run.after]
  · simp [h, h', run_await, reply, pure_bind, tryBlock_respond, run_respond, Run.after]

/-- C5, as amended. For every body: if email or password is falsy (absent, null,
the empty string, 0 or false) the response is 400
`Email and password are required` and no call is made; otherwise, if the email
is not a string, the response is 500 with the message of the thrown error and
no call is made; otherwise the account
is looked up by the trimmed, lower-cased email, and the response is 404
`Admin not found` if the lookup finds none, 401 `Invalid credentials` if it
finds one and the compare of the submitted password against the stored hash
gives false, and 200 with the `_id`, name, email, role and school name of the
account if the compare gives true. -/
theorem adminLogIn_outcome (B : Builtins) (body : LoginBody) {σ : Type} (W : World σ) (s : σ) :
    ((truthy body.email = false ∨ truthy body.password = false) →
      (adminLogIn B body).run W s =
        ⟨.responded (message 400 "Email and password are required"), [], s⟩) ∧
    (truthy body.email = true → truthy body.password = true → (∀ e, body.email ≠ .str e) →
      (adminLogIn B body).run W s =
        ⟨.responded (failure (.str (utf16 "email.trim is not a function"))), [], s⟩) ∧
    (∀ e, body.email = .str e → e ≠ [] → truthy body.password = true →
      (∀ s', W.answer s (.findOne ⟨B.toLowerCase (trim e), none⟩) = (.ok none, s') →
        (adminLogIn B body).run W s =
          ⟨.responded (message 404 "Admin not found"),
            [⟨.findOne ⟨B.toLowerCase (trim e), none⟩, .ok none⟩], s'⟩) ∧
      (∀ a s' s'', W.answer s (.findOne ⟨B.toLowerCase (trim e), none⟩) = (.ok (some a), s') →
        W.answer s' (.compare body.password a.password) = (.ok false, s'') →
        (adminLogIn B body).run W s =
          ⟨.responded (message 401 "Invalid credentials"),
            [⟨.findOne ⟨B.toLowerCase (trim e), none⟩, .ok (some a)⟩,
              ⟨.compare body.password a.password, .ok false⟩], s''⟩) ∧
      (∀ a s' s'', W.answer s (.findOne ⟨B.toLowerCase (trim e), none⟩) = (.ok (some a), s') →
        W.answer s' (.compare body.password a.password) = (.ok true, s'') →
        (adminLogIn B body).run W s =
          ⟨.responded ⟨200, adminResponse a⟩,
            [⟨.findOne ⟨B.toLowerCase (trim e), none⟩, .ok (some a)⟩,
              ⟨.compare body.password a.password, .ok true⟩], s''⟩)) :=
  ⟨adminLogIn_missing B body W s, adminLogIn_not_string B body W s,
    fun e he hne hp => adminLogIn_lookup B body W s e he hne hp⟩

/-- C5 as stated fails. Neither field of the body is absent, null or empty, yet
no account is looked up and the response is none of 404, 401 and 200: the email
is the number 5, reading `email.trim` throws, and the response is 500. -/
theorem adminLogIn_outcome_counterexample :
    loginMissing numericEmailLogin.email = false ∧
    loginMissing numericEmailLogin.password = false ∧
    ((adminLogIn asciiRuntime numericEmailLogin).run toyStore emptyDb).calls = [] ∧
    ((adminLogIn asciiRuntime numericEmailLogin).run toyStore emptyDb).outcome =
      .responded (failure (.str (utf16 "email.trim is not a function"))) := by
  decide

/-- The amended C5 at a login against the empty store. -/
theorem adminLogIn_outcome_witness :
    (adminLogIn asciiRuntime ⟨.str (utf16 " NoUser@Test.com"), .str (utf16 "x")⟩).run toyStore
        emptyDb =
      ⟨.responded (message 404 "Admin not found"),
        [⟨.findOne ⟨utf16 "nouser@test.com", none⟩, .ok none⟩], emptyDb⟩ :=
  ((adminLogIn_outcome asciiRuntime ⟨.str (utf16 " NoUser@Test.com"), .str (utf16 "x")⟩ toyStore
    emptyDb).2.2 (utf16 " NoUser@Test.com") rfl (by decide) (by decide)).1 emptyDb rfl

/-- What a registration that answers 200 has done to the in-memory store: the
lookup found nothing, the hash succeeded, and the new record was appended. -/
theorem register_memStore_success (B : Builtins) (H : Hasher) (newId : Nat → Id) (db : Db)
    (n e p sn : JStr) (hvalid : firstFailure n e p sn = none) (r : Response)
    (hstatus : r.status = 200)
    (hrun : ((adminRegister B ⟨.str n, .str e, .str p, .str sn⟩).run (memStore H newId)
      db).outcome = .responded r) :
    ∃ h, H.hash db.entropy (.str p) 10 = .ok h ∧
      db.admins.find? (Filter.holds ⟨B.toLowerCase (trim e), none⟩) = none ∧
      (adminRegister B ⟨.str n, .str e, .str p, .str sn⟩).run (memStore H newId) db =
        ⟨.responded ⟨200, adminResponse (registered B (newId (db.entropy + 1)) h n e sn)⟩,
          [⟨.findOne ⟨B.toLowerCase (trim e), none⟩, .ok none⟩,
            ⟨.hash (.str p) 10, .ok h⟩,
            ⟨.create ⟨trim n, B.toLowerCase (trim e), h, utf16 "Admin", trim sn⟩,
              .ok (newId (db.entropy + 1))⟩,
            ⟨.save (registered B (newId (db.entropy + 1)) h n e sn), .ok ()⟩],
          ⟨db.admins ++ [registered B (newId (db.entropy + 1)) h n e sn], db.dependents,
            db.entropy + 2⟩⟩ := by
  rw [adminRegister_of_valid B n e p sn hvalid] at hrun ⊢
  simp only [registerAccount, bind_eq, pure_eq, reply, eval, callTrim, pure_bind, respond_bind,
    ite_bind, run_await, after_outcome] at hrun ⊢
  simp only [memStore] at hrun ⊢
  cases hfind : db.admins.find? (Filter.holds ⟨B.toLowerCase (trim e), none⟩) with
  | some a =>
    simp [hfind, tryBlock_respond, run_respond, message] at hrun
    rw [← hrun] at hstatus
    simp at hstatus
  | none =>
    simp only [hfind, Option.isSome_none, Bool.false_eq_true, if_false, run_await,
      after_outcome] at hrun ⊢
    cases hh : H.hash db.entropy (.str p) 10 with
    | error err =>
      simp [hh, failure] at hrun
      rw [← hrun] at hstatus
      simp at hstatus
    | ok h =>
      refine ⟨h, rfl, trivial, ?_⟩
      simp [hh, run_await, Run.after, tryBlock_respond, run_respond, registered]

/-- C6. Over the in-memory store: after a valid registration that is answered
200, a login with the same password and any email whose trimmed lower-cased form
is that of the registered one is answered 200 with the registered account (name
and school name trimmed, email trimmed and lower-cased, role `Admin`), provided
the compare of the hasher accepts the password against the hash it produced.
The lower-casing of the runtime is assumed to map only the empty string to the
empty string. -/
theorem register_then_login (B : Builtins) (H : Hasher) (newId : Nat → Id) (db : Db)
    (n e p sn e' : JStr) (r : Response)
    (hlow : ∀ t, B.toLowerCase t = [] ↔ t = [])
    (hvalid : firstFailure n e p sn = none)
    (hstatus : r.status = 200)
    (hrun : ((adminRegister B ⟨.str n, .str e, .str p, .str sn⟩).run (memStore H newId)
      db).outcome = .responded r)
    (hsame : B.toLowerCase (trim e') = B.toLowerCase (trim e))
    (hcmp : ∀ h, H.hash db.entropy (.str p) 10 = .ok h → H.compare (.str p) h = .ok true) :
    ∃ a : AdminRec, a.name = trim n ∧ a.email = B.toLowerCase (trim e) ∧
      a.role = utf16 "Admin" ∧ a.schoolName = trim sn ∧ r = ⟨200, adminResponse a⟩ ∧
      ((adminLogIn B ⟨.str e', .str p⟩).run (memStore H newId)
        ((adminRegister B ⟨.str n, .str e, .str p, .str sn⟩).run (memStore H newId)
          db).final).outcome = .responded ⟨200, adminResponse a⟩ := by
  obtain ⟨h, hh, hfind, hreg⟩ :=
    register_memStore_success B H newId db n e p sn hvalid r hstatus hrun
  obtain ⟨-, he, hp, -⟩ := (firstFailure_eq_none_iff n e p sn).1 hvalid
  have hr : r = ⟨200, adminResponse (registered B (newId (db.entropy + 1)) h n e sn)⟩ := by
    rw [hreg] at hrun
    injection hrun with hrun
    exact hrun.symm
  have he' : e' ≠ [] := by
    apply ne_nil_of_trim_ne_nil
    intro h0
    rw [h0, (hlow []).2 rfl] at hsame
    exact he ((hlow _).1 hsame.symm)
  have hpt : truthy (.str p) = true := by
    simp [truthy, ne_nil_of_trim_ne_nil hp]
  refine ⟨registered B (newId (db.entropy + 1)) h n e sn, rfl, rfl, rfl, rfl, hr, ?_⟩
  rw [hreg]
  generalize hfin : (⟨db.admins ++ [registered B (newId (db.entropy + 1)) h n e sn],
    db.dependents, db.entropy + 2⟩ : Db) = fin
  have hlogin := (adminLogIn_lookup B ⟨.str e', .str p⟩ (memStore H newId) fin e' rfl
    he' hpt).2.2 (registered B (newId (db.entropy + 1)) h n e sn) fin fin
    (by subst hfin
        simp [memStore, hsame, List.find?_append, hfind, Filter.holds, registered])
    (by simp [memStore, registered, hcmp h hh])
  rw [hlogin]

theorem asciiLower_eq_nil (t : JStr) : asciiRuntime.toLowerCase t = [] ↔ t = [] := by
  simp [asciiRuntime, asciiLower]

/-- C6 at the scenario of the specification: register `ADMIN@Test.com`, then log
in as `admin@test.com`. -/
theorem register_then_login_witness :
    ∃ a : AdminRec, a.name = trim (utf16 "Admin") ∧
      a.email = asciiRuntime.toLowerCase (trim (utf16 "ADMIN@Test.com")) ∧
      a.role = utf16 "Admin" ∧ a.schoolName = trim (utf16 "X") ∧
      (⟨200, adminResponse ⟨toyId 1, utf16 "Admin", utf16 "admin@test.com",
        36 :: 0 :: utf16 "secret1", utf16 "Admin", utf16 "X"⟩⟩ : Response) =
        ⟨200, adminResponse a⟩ ∧
      ((adminLogIn asciiRuntime ⟨.str (utf16 "admin@test.com"), .str (utf16 "secret1")⟩).run
        toyStore ((adminRegister asciiRuntime scenarioRegistration).run toyStore
          emptyDb).final).outcome = .responded ⟨200, adminResponse a⟩ :=
  register_then_login asciiRuntime toyHasher toyId emptyDb (utf16 "Admin")
    (utf16 "ADMIN@Test.com") (utf16 "secret1") (utf16 "X") (utf16 "admin@test.com")
    ⟨200, adminResponse ⟨toyId 1, utf16 "Admin", utf16 "admin@test.com",
      36 :: 0 :: utf16 "secret1", utf16 "Admin", utf16 "X"⟩⟩
    asciiLower_eq_nil (by decide) rfl (by decide) (by decide)
    (by intro h hh; simp [toyHasher, emptyDb] at hh; subst hh; rfl)

section Meets

variable {α β : Type} (P : List Event → Call → Prop) (R : List Event → Response → Prop)

theorem meets_pure (K : List Event → α → Prop) (h : List Event) (a : α) :
    (Js.pure a).Meets P R K h ↔ K h a := Iff.rfl

theorem meets_throw (K : List Event → α → Prop) (h : List Event) (e : Thrown) :
    (Js.throw e : Js α).Meets P R K h ↔ R h (failure e) := Iff.rfl

theorem meets_respond (K : List Event → α → Prop) (h : List Event) (r : Response) :
    (Js.respond r : Js α).Meets P R K h ↔ R h r := Iff.rfl

theorem meets_reply (K : List Event → α → Prop) (h : List Event) (st : Nat) (m : String) :
    (reply st m : Js α).Meets P R K h ↔ R h (message st m) := Iff.rfl

theorem meets_bind (K : List Event → β → Prop) (h : List Event) (x : Js α) (f : α → Js β) :
    (x.bind f).Meets P R K h ↔ x.Meets P R (fun h' a => (f a).Meets P R K h') h := by
  induction x generalizing h with
  | pure a => rfl
  | throw e => rfl
  | respond r => rfl
  | call c k ih =>
    simp only [Js.bind, Js.Meets]
    exact and_congr Iff.rfl (forall_congr' fun x => ih x _)

theorem meets_tryBlock (K : List Event → α → Prop) (h : List Event) (x : Js α) :
    (tryBlock x).Meets P R K h ↔ x.Meets P R K h := by
  induction x generalizing h with
  | pure a => rfl
  | throw e => rfl
  | respond r => rfl
  | call c k ih =>
    simp only [tryBlock, Js.Meets]
    exact and_congr Iff.rfl (forall_congr' fun x => ih x _)

theorem meets_await (c : Call) (K : List Event → c.Result → Prop) (h : List Event) :
    (await c).Meets P R K h ↔
      P h c ∧ (∀ v, K (h ++ [⟨c, .ok v⟩]) v) ∧ ∀ e, R (h ++ [⟨c, .error e⟩]) (failure e) := by
  simp only [await, Js.Meets]
  constructor
  · rintro ⟨hp, hx⟩
    exact ⟨hp, fun v => hx (.ok v), fun e => hx (.error e)⟩
  · rintro ⟨hp, hv, he⟩
    refine ⟨hp, fun x => ?_⟩
    cases x with
    | ok v => exact hv v
    | error e => exact he e

theorem meets_eval (K : List Event → α → Prop) (h : List Event) (x : Except Thrown α) :
    (eval x).Meets P R K h ↔
      match x with
      | .ok v => K h v
      | .error e => R h (failure e) := by
  cases x <;> rfl

theorem meets_ite (K : List Event → α → Prop) (h : List Event) (c : Prop) [Decidable c]
    (x y : Js α) :
    (if c then x else y).Meets P R K h ↔ (c → x.Meets P R K h) ∧ (¬c → y.Meets P R K h) := by
  split <;> simp [*]

/-- Soundness: a program that meets a protocol keeps it in every run. -/
theorem meets_run {σ : Type} (W : World σ) (K : List Event → α → Prop) (p : Js α)
    (h : List Event) (s : σ) (hp : p.Meets P R K h) :
    (∀ pre ev post, (p.run W s).trace = pre ++ ev :: post → P (h ++ pre) ev.call) ∧
    (∀ r, (p.run W s).outcome = .responded r → R (h ++ (p.run W s).trace) r) ∧
    (∀ e, (p.run W s).outcome = .uncaught e → R (h ++ (p.run W s).trace) (failure e)) ∧
    ((p.run W s).outcome = .silent → ∃ a, K (h ++ (p.run W s).trace) a) := by
  induction p generalizing h s with
  | pure a =>
    simp only [Js.run, List.append_nil]
    exact ⟨fun pre ev post h' => by simp at h', fun r h' => by simp at h',
      fun e h' => by simp at h', fun _ => ⟨a, hp⟩⟩
  | throw e =>
    simp only [Js.run, List.append_nil]
    refine ⟨fun pre ev post h' => by simp at h', fun r h' => by simp at h', fun e' h' => ?_,
      fun h' => by simp at h'⟩
    injection h' with h'
    subst h'
    exact hp
  | respond r =>
    simp only [Js.run, List.append_nil]
    refine ⟨fun pre ev post h' => by simp at h', fun r' h' => ?_, fun e' h' => by simp at h',
      fun h' => by simp at h'⟩
    injection h' with h'
    subst h'
    exact hp
  | call c k ih =>
    obtain ⟨hc, hk⟩ := hp
    obtain ⟨h1, h2, h3, h4⟩ := ih (W.answer s c).1 (h ++ [⟨c, (W.answer s c).1⟩])
      (W.answer s c).2 (hk _)
    simp only [Js.run, after_trace, after_outcome]
    refine ⟨fun pre ev post h' => ?_, fun r h' => ?_, fun e h' => ?_, fun h' => ?_⟩
    · cases pre with
      | nil =>
        simp only [List.nil_append, List.cons.injEq] at h'
        rw [← h'.1]
        simpa using hc
      | cons x xs =>
        simp only [List.cons_append, List.cons.injEq] at h'
        have := h1 xs ev post h'.2
        rw [← h'.1]
        simpa using this
    · simpa using h2 r h'
    · simpa using h3 e h'
    · simpa using h4 h'

end Meets

theorem callTrim_str (expr : String) (s : JStr) : callTrim expr (.str s) = .ok (trim s) := rfl

theorem callTrim_of_not_str (expr : String) (v : JVal) (h : ∀ s, v ≠ .str s) :
    ∃ e, callTrim expr v = .error e := by
  cases v with
  | str s => exact absurd rfl (h s)
  | undefined => exact ⟨_, rfl⟩
  | null => exact ⟨_, rfl⟩
  | bool b => exact ⟨_, rfl⟩
  | num k => exact ⟨_, rfl⟩
  | arr xs => exact ⟨_, rfl⟩
  | obj xs => exact ⟨_, rfl⟩

/-- On a value that is not a string the required-field condition holds or
throws. -/
theorem blank_of_not_str (expr : String) (v : JVal) (h : ∀ s, v ≠ .str s) :
    blank expr v = .pure true ∨ ∃ e, blank expr v = .throw e := by
  obtain ⟨e, he⟩ := callTrim_of_not_str expr v h
  unfold blank
  by_cases ht : truthy v = true
  · right
    exact ⟨e, by simp [ht, he, eval, throw_bind]⟩
  · left
    simp [ht]

/-- The error of a failed `trim` call is a `TypeError` with a text. -/
theorem callTrim_error (expr : String) (v : JVal) (e : Thrown) (h : callTrim expr v = .error e) :
    ∃ m, e = .str m := by
  cases v <;> simp only [callTrim, reduceCtorEq, Except.error.injEq] at h <;> exact ⟨_, h.symm⟩

theorem blank_throw (expr : String) (v : JVal) (e : Thrown) (h : blank expr v = .throw e) :
    ∃ m, e = .str m := by
  unfold blank at h
  split at h
  · cases hc : callTrim expr v with
    | ok t => simp [hc, eval, pure_bind] at h
    | error e' =>
      simp only [hc, eval, bind_eq, throw_bind, Js.throw.injEq] at h
      exact h ▸ callTrim_error expr v e' hc
  · simp at h

/-- Validation answers with the message of the first rule that rejects. -/
theorem adminRegister_of_invalid (B : Builtins) (n e p sn : JStr) (m : String)
    (h : firstFailure n e p sn = some m) :
    adminRegister B ⟨.str n, .str e, .str p, .str sn⟩ = .respond (message 400 m) := by
  rw [adminRegister_str]
  simp only [firstFailure, registerRules, List.find?_cons] at h
  split_ifs <;> simp_all

/-- Every registration is either rejected before any call, with a 400 message or
with the 500 of a `TypeError`, or has four string fields that pass every rule
and goes on to `registerAccount`. -/
theorem adminRegister_split (B : Builtins) (body : RegisterBody) :
    (∃ r, ((∃ m, r = message 400 m) ∨ ∃ m, r = failure (.str m)) ∧
      adminRegister B body = .respond r) ∨
    ∃ n e p sn, body = ⟨.str n, .str e, .str p, .str sn⟩ ∧ firstFailure n e p sn = none ∧
      adminRegister B body = tryBlock (registerAccount B ⟨.str n, .str e, .str p, .str sn⟩) := by
  obtain ⟨name, email, password, schoolName⟩ := body
  have rej400 : ∀ m, (∃ m', message 400 m = message 400 m') ∨
      ∃ m', message 400 m = failure (.str m') := fun m => Or.inl ⟨m, rfl⟩
  have rej500 : ∀ e : JStr, (∃ m', failure (.str e) = message 400 m') ∨
      ∃ m', failure (.str e) = failure (.str m') := fun e => Or.inr ⟨e, rfl⟩
  by_cases hn : ∃ n, name = .str n
  swap
  · left
    rcases blank_of_not_str "name" name (fun s h => hn ⟨s, h⟩) with h | ⟨e, h⟩
    · exact ⟨message 400 "Name is required", rej400 _, by simp [adminRegister, h, pure_bind, respond_bind, reply,
        tryBlock_respond]⟩
    · obtain ⟨t, rfl⟩ := blank_throw _ _ e h
      exact ⟨_, rej500 t, by simp [adminRegister, h, throw_bind, tryBlock_throw]⟩
  obtain ⟨n, rfl⟩ := hn
  by_cases hn0 : trim n = []
  · left
    exact ⟨message 400 "Name is required", rej400 _, by simp [adminRegister, blank_str, hn0, pure_bind, respond_bind, reply,
      tryBlock_respond]⟩
  by_cases he : ∃ e, email = .str e
  swap
  · left
    rcases blank_of_not_str "email" email (fun s h => he ⟨s, h⟩) with h | ⟨e, h⟩
    · exact ⟨message 400 "Email is required", rej400 _, by simp [adminRegister, blank_str, hn0, h, pure_bind, respond_bind,
        reply, tryBlock_respond]⟩
    · obtain ⟨t, rfl⟩ := blank_throw _ _ e h
      exact ⟨_, rej500 t, by simp [adminRegister, blank_str, hn0, h, pure_bind, throw_bind,
        tryBlock_throw]⟩
  obtain ⟨e, rfl⟩ := he
  by_cases he0 : trim e = []
  · left
    exact ⟨message 400 "Email is required", rej400 _, by simp [adminRegister, blank_str, hn0, he0, pure_bind, respond_bind,
      reply, tryBlock_respond]⟩
  by_cases hp : ∃ p, password = .str p
  swap
  · left
    rcases blank_of_not_str "password" password (fun s h => hp ⟨s, h⟩) with h | ⟨e, h⟩
    · exact ⟨message 400 "Password is required", rej400 _, by simp [adminRegister, blank_str, hn0, he0, h, pure_bind,
        respond_bind, reply, tryBlock_respond]⟩
    · obtain ⟨t, rfl⟩ := blank_throw _ _ e h
      exact ⟨_, rej500 t, by simp [adminRegister, blank_str, hn0, he0, h, pure_bind, throw_bind,
        tryBlock_throw]⟩
  obtain ⟨p, rfl⟩ := hp
  by_cases hp0 : trim p = []
  · left
    exact ⟨message 400 "Password is required", rej400 _, by simp [adminRegister, blank_str, hn0, he0, hp0, pure_bind,
      respond_bind, reply, tryBlock_respond]⟩
  by_cases hs : ∃ sn, schoolName = .str sn
  swap
  · left
    rcases blank_of_not_str "schoolName" schoolName (fun s h => hs ⟨s, h⟩) with h | ⟨e, h⟩
    · exact ⟨message 400 "School name is required", rej400 _, by simp [adminRegister, blank_str, hn0, he0, hp0, h, pure_bind,
        respond_bind, reply, tryBlock_respond]⟩
    · obtain ⟨t, rfl⟩ := blank_throw _ _ e h
      exact ⟨_, rej500 t, by simp [adminRegister, blank_str, hn0, he0, hp0, h, pure_bind,
        throw_bind, tryBlock_throw]⟩
  obtain ⟨sn, rfl⟩ := hs
  cases hf : firstFailure n e p sn with
  | none => exact Or.inr ⟨n, e, p, sn, rfl, hf, adminRegister_of_valid B n e p sn hf⟩
  | some m =>
    left
    refine ⟨message 400 m, rej400 m, ?_⟩
    exact adminRegister_of_invalid B n e p sn m hf

/-- Every registration is either rejected before any call, or has four string
fields that pass every rule and goes on to `registerAccount`. -/
theorem adminRegister_cases (B : Builtins) (body : RegisterBody) :
    (∃ r, r.isRejection ∧ adminRegister B body = .respond r) ∨
    ∃ n e p sn, body = ⟨.str n, .str e, .str p, .str sn⟩ ∧ firstFailure n e p sn = none ∧
      adminRegister B body = tryBlock (registerAccount B ⟨.str n, .str e, .str p, .str sn⟩) := by
  rcases adminRegister_split B body with ⟨r, hr, h⟩ | h
  · refine Or.inl ⟨r, ?_, h⟩
    rcases hr with ⟨m, rfl⟩ | ⟨m, rfl⟩
    · exact Or.inl rfl
    · exact Or.inr rfl
  · exact Or.inr h

/-- A registration only ever appends to the stored accounts. -/
theorem register_memStore_admins (B : Builtins) (H : Hasher) (newId : Nat → Id) (db : Db)
    (body : RegisterBody) :
    ∃ l, ((adminRegister B body).run (memStore H newId) db).final.admins = db.admins ++ l := by
  rcases adminRegister_cases B body with ⟨r, -, hr⟩ | ⟨n, e, p, sn, rfl, -, hr⟩
  · exact ⟨[], by simp [hr, run_respond]⟩
  · rw [hr]
    simp only [registerAccount, bind_eq, pure_eq, reply, eval, callTrim, pure_bind, respond_bind,
      ite_bind, run_await, after_final]
    simp only [memStore]
    cases hfind : db.admins.find? (Filter.holds ⟨B.toLowerCase (trim e), none⟩) with
    | some a => exact ⟨[], by simp [tryBlock_respond, run_respond]⟩
    | none =>
      simp only [Option.isSome_none, Bool.false_eq_true, if_false, run_await, after_final]
      cases hh : H.hash db.entropy (.str p) 10 with
      | error err => exact ⟨[], by simp⟩
      | ok h => exact ⟨_, by simp [run_await, after_final, tryBlock_respond, run_respond]; rfl⟩

theorem afterRegistrations_admins (B : Builtins) (H : Hasher) (newId : Nat → Id)
    (bs : List RegisterBody) (db : Db) :
    ∃ l, (afterRegistrations B H newId bs db).admins = db.admins ++ l := by
  induction bs generalizing db with
  | nil => exact ⟨[], by simp [afterRegistrations]⟩
  | cons b bs ih =>
    obtain ⟨l1, h1⟩ := register_memStore_admins B H newId db b
    obtain ⟨l2, h2⟩ := ih ((adminRegister B b).run (memStore H newId) db).final
    exact ⟨l1 ++ l2, by rw [afterRegistrations, h2, h1, List.append_assoc]⟩

/-- C7. Over the in-memory store: after a registration that is answered 200 with
email `e1`, and after any further registration requests, a registration with
valid fields and an email `e2` whose trimmed lower-cased form is that of `e1` is
answered 400 `Email already exists`; its only call is the uniqueness lookup, so
nothing is hashed, and the store is left as it was. -/
theorem duplicate_registration (B : Builtins) (H : Hasher) (newId : Nat → Id) (db : Db)
    (n1 e1 p1 sn1 : JStr) (r : Response) (between : List RegisterBody) (n2 e2 p2 sn2 : JStr)
    (hvalid1 : firstFailure n1 e1 p1 sn1 = none) (hstatus : r.status = 200)
    (hrun : ((adminRegister B ⟨.str n1, .str e1, .str p1, .str sn1⟩).run (memStore H newId)
      db).outcome = .responded r)
    (hvalid2 : firstFailure n2 e2 p2 sn2 = none)
    (hsame : B.toLowerCase (trim e2) = B.toLowerCase (trim e1)) :
    ((adminRegister B ⟨.str n2, .str e2, .str p2, .str sn2⟩).run (memStore H newId)
      (afterRegistrations B H newId between
        ((adminRegister B ⟨.str n1, .str e1, .str p1, .str sn1⟩).run (memStore H newId)
          db).final)).outcome = .responded (message 400 "Email already exists") ∧
    ((adminRegister B ⟨.str n2, .str e2, .str p2, .str sn2⟩).run (memStore H newId)
      (afterRegistrations B H newId between
        ((adminRegister B ⟨.str n1, .str e1, .str p1, .str sn1⟩).run (memStore H newId)
          db).final)).calls = [.findOne ⟨B.toLowerCase (trim e2), none⟩] ∧
    ((adminRegister B ⟨.str n2, .str e2, .str p2, .str sn2⟩).run (memStore H newId)
      (afterRegistrations B H newId between
        ((adminRegister B ⟨.str n1, .str e1, .str p1, .str sn1⟩).run (memStore H newId)
          db).final)).final =
      afterRegistrations B H newId between
        ((adminRegister B ⟨.str n1, .str e1, .str p1, .str sn1⟩).run (memStore H newId)
          db).final := by
  obtain ⟨h, -, -, hreg⟩ :=
    register_memStore_success B H newId db n1 e1 p1 sn1 hvalid1 r hstatus hrun
  obtain ⟨l, hl⟩ := afterRegistrations_admins B H newId between
    ((adminRegister B ⟨.str n1, .str e1, .str p1, .str sn1⟩).run (memStore H newId) db).final
  generalize afterRegistrations B H newId between
    ((adminRegister B ⟨.str n1, .str e1, .str p1, .str sn1⟩).run (memStore H newId) db).final
    = db2 at hl ⊢
  rw [hreg] at hl
  have hfound : (db2.admins.find? (Filter.holds ⟨B.toLowerCase (trim e2), none⟩)).isSome := by
    rw [List.find?_isSome]
    exact ⟨registered B (newId (db.entropy + 1)) h n1 e1 sn1, by simp [hl],
      by simp [Filter.holds, registered, hsame]⟩
  obtain ⟨a, ha⟩ := Option.isSome_iff_exists.1 hfound
  have hrun2 := run_registerAccount_exists (memStore H newId) db2 db2 B n2 e2 p2 sn2 a
    (by simp [memStore, ha])
  rw [adminRegister_of_valid B n2 e2 p2 sn2 hvalid2, hrun2]
  exact ⟨rfl, rfl, rfl⟩

/-- C7 at the scenario of the specification: `ADMIN@Test.com` is registered,
then another account, then ` admin@test.COM ` is refused. -/
theorem duplicate_registration_witness :
    ((adminRegister asciiRuntime ⟨.str (utf16 "Bob"), .str (utf16 " admin@test.COM "),
        .str (utf16 "hunter22"), .str (utf16 "Y")⟩).run toyStore
      (afterRegistrations asciiRuntime toyHasher toyId
        [⟨.str (utf16 "Eve"), .str (utf16 "eve@test.com"), .str (utf16 "123456"),
          .str (utf16 "Z")⟩]
        ((adminRegister asciiRuntime scenarioRegistration).run toyStore
          emptyDb).final)).outcome = .responded (message 400 "Email already exists") :=
  (duplicate_registration asciiRuntime toyHasher toyId emptyDb (utf16 "Admin")
    (utf16 "ADMIN@Test.com") (utf16 "secret1") (utf16 "X")
    ⟨200, adminResponse ⟨toyId 1, utf16 "Admin", utf16 "admin@test.com",
      36 :: 0 :: utf16 "secret1", utf16 "Admin", utf16 "X"⟩⟩
    [⟨.str (utf16 "Eve"), .str (utf16 "eve@test.com"), .str (utf16 "123456"),
      .str (utf16 "Z")⟩]
    (utf16 "Bob") (utf16 " admin@test.COM ") (utf16 "hunter22") (utf16 "Y")
    (by decide) rfl (by decide) (by decide) (by decide)).1

/-- The calls of a run keep what the program guarantees of each call. -/
theorem meets_trace {σ α : Type} (W : World σ) (P : Call → Prop) (p : Js α) (s : σ)
    (hp : p.Meets (fun _ c => P c) (fun _ _ => True) (fun _ _ => True) []) :
    ∀ ev ∈ (p.run W s).trace, P ev.call := by
  intro ev hev
  obtain ⟨pre, post, h⟩ := List.append_of_mem hev
  exact (meets_run _ _ W _ p [] s hp).1 pre ev post h

theorem registerAccount_email (B : Builtins) (n e p sn : JStr) :
    (tryBlock (registerAccount B ⟨.str n, .str e, .str p, .str sn⟩)).Meets
      (fun _ c => ∀ x, c.email? = some x → x = B.toLowerCase (trim e))
      (fun _ _ => True) (fun _ _ => True) [] := by
  simp only [registerAccount, bind_eq, pure_eq, meets_tryBlock, meets_bind, meets_ite,
    meets_eval, meets_await, meets_reply, meets_respond, meets_pure, callTrim_str, Call.email?]
  simp

theorem adminLogIn_email (B : Builtins) (body : LoginBody) :
    (adminLogIn B body).Meets
      (fun _ c => ∀ x, c.email? = some x → ∃ e, body.email = .str e ∧ x = B.toLowerCase (trim e))
      (fun _ _ => True) (fun _ _ => True) [] := by
  simp only [adminLogIn, loginAccount, bind_eq, pure_eq, meets_tryBlock, meets_bind, meets_ite,
    meets_eval, meets_await, meets_reply, meets_respond, meets_pure]
  by_cases hs : ∃ e, body.email = .str e
  · obtain ⟨e, he⟩ := hs
    simp only [he, callTrim_str, Call.email?]
    simp
    intro _ _ a
    cases a <;> simp [meets_reply, meets_bind, meets_await, meets_ite, meets_respond,
      meets_pure, Call.email?]
  · obtain ⟨err, he⟩ := callTrim_of_not_str "email" body.email (fun s h => hs ⟨s, h⟩)
    simp [he]

theorem updateAdmin_email (B : Builtins) (id : Param) (body : UpdateBody) :
    (updateAdmin B id body).Meets
      (fun _ c => ∀ x, c.email? = some x → ∃ e, body.email = .str e ∧ x = B.toLowerCase (trim e))
      (fun _ _ => True) (fun _ _ => True) [] := by
  simp only [updateAdmin, bind_eq, pure_eq, meets_tryBlock, meets_bind, meets_ite,
    meets_eval, meets_await, meets_reply, meets_respond, meets_pure]
  by_cases hs : ∃ e, body.email = .str e
  · obtain ⟨e, he⟩ := hs
    simp only [he, callTrim_str, Call.email?]
    refine ⟨fun _ => ?_, fun _ => ?_⟩
    all_goals repeat' first | intro _ | constructor | split
    all_goals simp_all [meets_reply, meets_respond]
  · obtain ⟨err, he⟩ := callTrim_of_not_str "email" body.email (fun s h => hs ⟨s, h⟩)
    simp only [he, Call.email?]
    refine ⟨fun _ => ?_, fun _ => ?_⟩
    all_goals repeat' first | intro _ | constructor | split
    all_goals simp_all [meets_reply, meets_respond]

/-- C8. In `adminRegister`, `adminLogIn` and `updateAdmin`, whatever the store
and the hasher answer, every call that carries an email (the filter of a lookup,
the document that registration builds and saves, the update document) carries
`lowercase(trim(email))` of the submitted email, which is then a string. -/
theorem email_normalised (B : Builtins) {σ : Type} (W : World σ) (s : σ) :
    (∀ (body : RegisterBody), ∀ ev ∈ ((adminRegister B body).run W s).trace,
      ∀ x, ev.call.email? = some x →
        ∃ e, body.email = .str e ∧ x = B.toLowerCase (trim e)) ∧
    (∀ (body : LoginBody), ∀ ev ∈ ((adminLogIn B body).run W s).trace,
      ∀ x, ev.call.email? = some x →
        ∃ e, body.email = .str e ∧ x = B.toLowerCase (trim e)) ∧
    (∀ (id : Param) (body : UpdateBody), ∀ ev ∈ ((updateAdmin B id body).run W s).trace,
      ∀ x, ev.call.email? = some x →
        ∃ e, body.email = .str e ∧ x = B.toLowerCase (trim e)) := by
  refine ⟨fun body ev hev x hx => ?_, fun body => ?_, fun id body => ?_⟩
  · rcases adminRegister_cases B body with ⟨r, -, hr⟩ | ⟨n, e, p, sn, rfl, -, hr⟩
    · simp [hr, run_respond] at hev
    · rw [hr] at hev
      exact ⟨e, rfl, meets_trace W _ _ s (registerAccount_email B n e p sn) ev hev x hx⟩
  · exact meets_trace W _ _ s (adminLogIn_email B body)
  · exact meets_trace W _ _ s (updateAdmin_email B id body)

/-- A registration run of the scenario: the lookup and the stored document both
carry `admin@test.com`. -/
theorem email_normalised_witness :
    ((adminRegister asciiRuntime scenarioRegistration).run toyStore emptyDb).calls.map
        Call.email? =
      [some (utf16 "admin@test.com"), none, some (utf16 "admin@test.com"),
        some (utf16 "admin@test.com")] ∧
    ∀ ev ∈ ((adminRegister asciiRuntime scenarioRegistration).run toyStore emptyDb).trace,
      ∀ x, ev.call.email? = some x →
        ∃ e, scenarioRegistration.email = .str e ∧ x = asciiRuntime.toLowerCase (trim e) :=
  ⟨by decide, (email_normalised asciiRuntime toyStore emptyDb).1 scenarioRegistration⟩

/-- The responses of a run keep what the program guarantees of each response. -/
theorem meets_outcome {σ α : Type} (W : World σ) (R : Response → Prop) (p : Js α) (s : σ)
    (hp : p.Meets (fun _ _ => True) (fun _ r => R r) (fun _ _ => True) []) (r : Response)
    (hr : (p.run W s).outcome = .responded r) : R r :=
  (meets_run _ _ W _ p [] s hp).2.1 r hr

theorem adminResponse_keys (a : AdminRec) :
    (adminResponse a).keys = ["_id", "name", "email", "role", "schoolName"] := rfl

theorem adminResponse_password (a : AdminRec) (h : JStr) :
    adminResponse { a with password := h } = adminResponse a := rfl

theorem registerAccount_response (B : Builtins) (n e p sn : JStr) :
    (tryBlock (registerAccount B ⟨.str n, .str e, .str p, .str sn⟩)).Meets (fun _ _ => True)
      (fun _ r => r.status = 200 → ∃ a, r.body = adminResponse a) (fun _ _ => True) [] := by
  simp only [registerAccount, bind_eq, pure_eq, meets_tryBlock, meets_bind, meets_ite,
    meets_eval, meets_await, meets_reply, meets_respond, meets_pure, callTrim_str]
  simp [message, failure]

theorem adminLogIn_response (B : Builtins) (body : LoginBody) :
    (adminLogIn B body).Meets (fun _ _ => True)
      (fun _ r => r.status = 200 → ∃ a, r.body = adminResponse a) (fun _ _ => True) [] := by
  simp only [adminLogIn, loginAccount, bind_eq, pure_eq, meets_tryBlock, meets_bind, meets_ite,
    meets_eval, meets_await, meets_reply, meets_respond, meets_pure]
  by_cases hs : ∃ e, body.email = .str e
  · obtain ⟨e, he⟩ := hs
    simp only [he, callTrim_str]
    simp only [message, failure, true_and]
    refine ⟨fun _ => by simp, fun _ => ⟨fun a => ?_, fun _ => by simp⟩⟩
    cases a <;> simp [meets_reply, meets_bind, meets_await, meets_ite, meets_respond,
      meets_pure, message, failure]
  · obtain ⟨err, he⟩ := callTrim_of_not_str "email" body.email (fun s h => hs ⟨s, h⟩)
    simp [he, message, failure]

/-- What a login that answers 200 has found in the in-memory store. -/
theorem login_memStore_success (B : Builtins) (H : Hasher) (newId : Nat → Id) (db : Db)
    (body : LoginBody) (r : Response) (hstatus : r.status = 200)
    (hrun : ((adminLogIn B body).run (memStore H newId) db).outcome = .responded r) :
    ∃ e a, body.email = .str e ∧
      db.admins.find? (Filter.holds ⟨B.toLowerCase (trim e), none⟩) = some a ∧
      r = ⟨200, adminResponse a⟩ := by
  have reject : ∀ q : Response, q.status ≠ 200 →
      (adminLogIn B body).run (memStore H newId) db = ⟨.responded q, [], db⟩ → False := by
    intro q hq hq'
    rw [hq'] at hrun
    injection hrun with hrun
    exact hq (hrun ▸ hstatus)
  cases hte : truthy body.email with
  | false =>
    exact (reject _ (by simp [message])
      (adminLogIn_missing B body (memStore H newId) db (Or.inl hte))).elim
  | true =>
  cases htp : truthy body.password with
  | false =>
    exact (reject _ (by simp [message])
      (adminLogIn_missing B body (memStore H newId) db (Or.inr htp))).elim
  | true =>
  by_cases hs : ∃ e, body.email = .str e
  swap
  · exact (reject _ (by simp [failure])
      (adminLogIn_not_string B body (memStore H newId) db hte htp
        (fun e he => hs ⟨e, he⟩))).elim
  obtain ⟨e, he⟩ := hs
  have hne : e ≠ [] := by
    rintro rfl
    simp [he, truthy] at hte
  obtain ⟨h404, h401, h200⟩ := adminLogIn_lookup B body (memStore H newId) db e he hne htp
  cases hfind : db.admins.find? (Filter.holds ⟨B.toLowerCase (trim e), none⟩) with
  | none =>
    rw [h404 db (by simp [memStore, hfind])] at hrun
    injection hrun with hrun
    rw [← hrun] at hstatus
    simp [message] at hstatus
  | some a =>
    cases hc : H.compare body.password a.password with
    | error err =>
      exfalso
      rw [adminLogIn_truthy B body hte htp] at hrun
      simp only [loginAccount, he, bind_eq, pure_eq, eval, callTrim, pure_bind, run_await,
        after_outcome] at hrun
      simp only [memStore, hfind, run_await, after_outcome, hc] at hrun
      injection hrun with hrun
      rw [← hrun] at hstatus
      simp [failure] at hstatus
    | ok b =>
      cases b with
      | false =>
        rw [h401 a db db (by simp [memStore, hfind]) (by simp [memStore, hc])] at hrun
        injection hrun with hrun
        rw [← hrun] at hstatus
        simp [message] at hstatus
      | true =>
        rw [h200 a db db (by simp [memStore, hfind]) (by simp [memStore, hc])] at hrun
        injection hrun with hrun
        exact ⟨e, a, he, hfind, hrun.symm⟩

theorem find?_rehash (g : AdminRec → JStr) (f : Filter) (l : List AdminRec) :
    (l.map fun a => { a with password := g a }).find? f.holds =
      (l.find? f.holds).map fun a => { a with password := g a } := by
  induction l with
  | nil => rfl
  | cons a as ih =>
    have hh : f.holds { a with password := g a } = f.holds a := rfl
    simp only [List.map_cons, List.find?_cons, hh]
    cases f.holds a <;> simp [ih]

/-- C9. Whatever the store and the hasher answer, a 200 response of
`adminRegister` or of `adminLogIn` is an object with exactly the keys `_id`,
`name`, `email`, `role`, `schoolName`, so without a `password` key. Over the
in-memory store, two successful registrations of the same body that differ in
the hasher, and two successful logins with the same body against stores that
differ only in the stored hashes (and in the hasher), send the same response. -/
theorem password_not_returned (B : Builtins) :
    (∀ (σ : Type) (W : World σ) (s : σ) (body : RegisterBody) (r : Response),
      ((adminRegister B body).run W s).outcome = .responded r → r.status = 200 →
      r.body.keys = ["_id", "name", "email", "role", "schoolName"] ∧
        "password" ∉ r.body.keys) ∧
    (∀ (σ : Type) (W : World σ) (s : σ) (body : LoginBody) (r : Response),
      ((adminLogIn B body).run W s).outcome = .responded r → r.status = 200 →
      r.body.keys = ["_id", "name", "email", "role", "schoolName"] ∧
        "password" ∉ r.body.keys) ∧
    (∀ (H1 H2 : Hasher) (newId : Nat → Id) (db : Db) (body : RegisterBody) (r1 r2 : Response),
      ((adminRegister B body).run (memStore H1 newId) db).outcome = .responded r1 →
      r1.status = 200 →
      ((adminRegister B body).run (memStore H2 newId) db).outcome = .responded r2 →
      r2.status = 200 → r1 = r2) ∧
    (∀ (H1 H2 : Hasher) (newId : Nat → Id) (db : Db) (g : AdminRec → JStr) (body : LoginBody)
      (r1 r2 : Response),
      ((adminLogIn B body).run (memStore H1 newId) db).outcome = .responded r1 →
      r1.status = 200 →
      ((adminLogIn B body).run (memStore H2 newId) (db.rehash g)).outcome = .responded r2 →
      r2.status = 200 → r1 = r2) := by
  have keys : ∀ r : Response, (∃ a, r.body = adminResponse a) →
      r.body.keys = ["_id", "name", "email", "role", "schoolName"] ∧
        "password" ∉ r.body.keys := by
    rintro r ⟨a, ha⟩
    rw [ha, adminResponse_keys]
    exact ⟨rfl, by decide⟩
  refine ⟨fun σ W s body r hr hs => keys r ?_, fun σ W s body r hr hs => keys r ?_, ?_, ?_⟩
  · rcases adminRegister_cases B body with ⟨q, hq, hprog⟩ | ⟨n, e, p, sn, rfl, -, hprog⟩
    · rw [hprog] at hr
      injection hr with hr
      subst hr
      rcases hq with hq | hq <;> rw [hq] at hs <;> simp at hs
    · rw [hprog] at hr
      exact meets_outcome W _ _ s (registerAccount_response B n e p sn) r hr hs
  · exact meets_outcome W _ _ s (adminLogIn_response B body) r hr hs
  · intro H1 H2 newId db body r1 r2 h1 hs1 h2 hs2
    rcases adminRegister_cases B body with ⟨q, hq, hprog⟩ | ⟨n, e, p, sn, rfl, hvalid, -⟩
    · rw [hprog] at h1
      injection h1 with h1
      subst h1
      rcases hq with hq | hq <;> rw [hq] at hs1 <;> simp at hs1
    · obtain ⟨x1, -, -, hreg1⟩ := register_memStore_success B H1 newId db n e p sn hvalid r1 hs1 h1
      obtain ⟨x2, -, -, hreg2⟩ := register_memStore_success B H2 newId db n e p sn hvalid r2 hs2 h2
      rw [hreg1] at h1
      rw [hreg2] at h2
      injection h1 with h1
      injection h2 with h2
      rw [← h1, ← h2]
      rfl
  · intro H1 H2 newId db g body r1 r2 h1 hs1 h2 hs2
    obtain ⟨e1, a1, he1, hf1, rfl⟩ := login_memStore_success B H1 newId db body r1 hs1 h1
    obtain ⟨e2, a2, he2, hf2, rfl⟩ :=
      login_memStore_success B H2 newId (db.rehash g) body r2 hs2 h2
    rw [he1] at he2
    injection he2 with he2
    subst he2
    simp only [Db.rehash, find?_rehash, hf1, Option.map_some', Option.some.injEq] at hf2
    rw [← hf2]
    rfl

/-- C9 at the scenario of the specification: the response of the registration
has the five keys. -/
theorem password_not_returned_witness :
    (⟨200, adminResponse ⟨toyId 1, utf16 "Admin", utf16 "admin@test.com",
        36 :: 0 :: utf16 "secret1", utf16 "Admin", utf16 "X"⟩⟩ : Response).body.keys =
      ["_id", "name", "email", "role", "schoolName"] ∧
    "password" ∉ (⟨200, adminResponse ⟨toyId 1, utf16 "Admin", utf16 "admin@test.com",
        36 :: 0 :: utf16 "secret1", utf16 "Admin", utf16 "X"⟩⟩ : Response).body.keys :=
  (password_not_returned asciiRuntime).1 Db toyStore emptyDb scenarioRegistration
    ⟨200, adminResponse ⟨toyId 1, utf16 "Admin", utf16 "admin@test.com",
      36 :: 0 :: utf16 "secret1", utf16 "Admin", utf16 "X"⟩⟩ (by decide) rfl

/-- A program whose every path ends in a response that satisfies `R` of the
events before it: every run ends so. -/
theorem meets_total {σ α : Type} (W : World σ) (R : List Event → Response → Prop) (p : Js α)
    (s : σ) (hp : p.Meets (fun _ _ => True) R (fun _ _ => False) []) :
    ∃ r, R (p.run W s).trace r ∧
      ((p.run W s).outcome = .responded r ∨ ∃ e, (p.run W s).outcome = .uncaught e) := by
  obtain ⟨-, h2, h3, h4⟩ := meets_run _ R W _ p [] s hp
  cases h : (p.run W s).outcome with
  | responded r => exact ⟨r, by simpa using h2 r h, Or.inl rfl⟩
  | uncaught e => exact ⟨failure e, by simpa using h3 e h, Or.inr ⟨e, rfl⟩⟩
  | silent => exact (h4 h).elim fun _ hf => hf.elim

theorem registerAccount_hashing (B : Builtins) (n e p sn : JStr) :
    (tryBlock (registerAccount B ⟨.str n, .str e, .str p, .str sn⟩)).Meets (fun _ _ => True)
      (fun t r => RegisterHashing B ⟨.str n, .str e, .str p, .str sn⟩ t r.status)
      (fun _ _ => False) [] := by
  simp only [registerAccount, bind_eq, pure_eq, meets_tryBlock, meets_bind, meets_ite,
    meets_eval, meets_await, meets_reply, meets_respond, meets_pure, callTrim_str]
  simp [RegisterHashing, hashCalls, savedDocs, message, failure]

theorem callTrim_cases (expr : String) (v : JVal) :
    (∃ s, v = .str s ∧ callTrim expr v = .ok (trim s)) ∨ ∃ e, callTrim expr v = .error e := by
  by_cases hs : ∃ s, v = .str s
  · obtain ⟨s, rfl⟩ := hs
    exact Or.inl ⟨s, rfl, rfl⟩
  · exact Or.inr (callTrim_of_not_str expr v fun s h => hs ⟨s, h⟩)

theorem updateAdmin_hashing (B : Builtins) (id : Param) (body : UpdateBody) :
    (updateAdmin B id body).Meets (fun _ _ => True)
      (fun t r => UpdateHashing B body t r.status) (fun _ _ => False) [] := by
  simp only [updateAdmin, bind_eq, pure_eq, meets_tryBlock, meets_bind, meets_ite,
    meets_eval, meets_await, meets_reply, meets_respond, meets_pure]
  rcases callTrim_cases "name" body.name with ⟨n, hn, hn'⟩ | ⟨en, hn'⟩ <;>
    rcases callTrim_cases "email" body.email with ⟨e, he, he'⟩ | ⟨ee, he'⟩ <;>
    simp only [hn', he'] <;>
    refine ⟨fun _ => ?_, fun _ => ?_⟩
  all_goals repeat' first | intro _ | apply And.intro | split
  all_goals simp_all [meets_reply, meets_respond, UpdateHashing, hashCalls, updateDocs, message,
    failure]

/-- A `try` block lets no error escape. -/
theorem tryBlock_caught {σ α : Type} (W : World σ) (p : Js α) (s : σ) (e : Thrown) :
    ((tryBlock p).run W s).outcome ≠ .uncaught e := by
  induction p generalizing s with
  | pure a => simp [tryBlock, Js.run]
  | throw e' => simp [tryBlock, Js.run]
  | respond r => simp [tryBlock, Js.run]
  | call c k ih =>
    simp only [tryBlock, Js.run, after_outcome]
    exact ih _ _

/-- C10. Whatever the store and the hasher answer, a run of `adminRegister`
calls the hasher at most once, and then with the submitted password, unchanged,
and cost 10; it calls it exactly once when it answers 200; and a document it
saves has as password the result of that call, its other fields being the
trimmed name, the normalised email, `Admin` and the trimmed school name. A run
of `updateAdmin` calls the hasher at most once, with the submitted password and
cost 10; an update document it writes has, when a password was supplied, the
result of that one call as password, and no password otherwise, and its name and
email come from the submitted name and email alone. -/
theorem password_hashed (B : Builtins) {σ : Type} (W : World σ) (s : σ) :
    (∀ body : RegisterBody, ∃ r,
      ((adminRegister B body).run W s).outcome = .responded r ∧
      RegisterHashing B body ((adminRegister B body).run W s).trace r.status) ∧
    (∀ (id : Param) (body : UpdateBody), ∃ r,
      ((updateAdmin B id body).run W s).outcome = .responded r ∧
      UpdateHashing B body ((updateAdmin B id body).run W s).trace r.status) := by
  constructor
  · intro body
    rcases adminRegister_cases B body with ⟨q, hq, hprog⟩ | ⟨n, e, p, sn, rfl, -, hprog⟩
    · refine ⟨q, by rw [hprog]; rfl, ?_⟩
      rw [hprog]
      refine ⟨Or.inl rfl, fun h200 => ?_, fun doc hdoc => by simp [run_respond, savedDocs] at hdoc⟩
      rcases hq with hq | hq <;> rw [hq] at h200 <;> simp at h200
    · rw [hprog]
      obtain ⟨r, hr, hout | ⟨err, hout⟩⟩ :=
        meets_total W _ _ s (registerAccount_hashing B n e p sn)
      · exact ⟨r, hout, hr⟩
      · exact absurd hout (tryBlock_caught W _ s err)
  · intro id body
    obtain ⟨r, hr, hout | ⟨err, hout⟩⟩ := meets_total W _ _ s (updateAdmin_hashing B id body)
    · exact ⟨r, hout, hr⟩
    · exact absurd hout (tryBlock_caught W _ s err)

/-- C10 at the scenario of the specification: one call to the hasher, with
`secret1` and cost 10, and the saved document holds its result. -/
theorem password_hashed_witness :
    hashCalls ((adminRegister asciiRuntime scenarioRegistration).run toyStore emptyDb).trace =
      [(.str (utf16 "secret1"), 10, .ok (36 :: 0 :: utf16 "secret1"))] ∧
    (savedDocs ((adminRegister asciiRuntime scenarioRegistration).run toyStore emptyDb).trace).map
      AdminRec.password = [36 :: 0 :: utf16 "secret1"] ∧
    ∃ r, ((adminRegister asciiRuntime scenarioRegistration).run toyStore emptyDb).outcome =
        .responded r ∧
      RegisterHashing asciiRuntime scenarioRegistration
        ((adminRegister asciiRuntime scenarioRegistration).run toyStore emptyDb).trace r.status :=
  ⟨rfl, rfl, (password_hashed asciiRuntime toyStore emptyDb).1 scenarioRegistration⟩

/-- The state a run leaves is the state after its calls. -/
theorem run_final_exec {σ α : Type} (W : World σ) (p : Js α) (s : σ) :
    (p.run W s).final = W.exec s (p.run W s).calls := by
  induction p generalizing s with
  | pure a => rfl
  | throw e => rfl
  | respond r => rfl
  | call c k ih =>
    simp only [Js.run, after_final, Run.calls, after_trace, List.map_cons, World.exec]
    exact ih _ _

/-- A property of the state that every allowed call keeps is kept by a run of
a program that makes only allowed calls. -/
theorem run_invariant {σ α : Type} (W : World σ) (I : σ → Prop) (P : Call → Prop)
    (hstep : ∀ s c, I s → P c → I (W.answer s c).2) (p : Js α) (h : List Event)
    (hp : p.Meets (fun _ c => P c) (fun _ _ => True) (fun _ _ => True) h) (s : σ) (hs : I s) :
    I (p.run W s).final := by
  induction p generalizing s h with
  | pure a => exact hs
  | throw e => exact hs
  | respond r => exact hs
  | call c k ih =>
    simp only [Js.run, after_final]
    exact ih _ _ (hp.2 _) _ (hstep s c hs hp.1)

/-- A program whose every path ends in a response that satisfies `R` of the
events before it, and that lets no error escape: every run ends with such a
response. -/
theorem meets_responds {σ α : Type} (W : World σ) (P : List Event → Call → Prop)
    (R : List Event → Response → Prop) (p : Js α) (s : σ)
    (hp : p.Meets P R (fun _ _ => False) [])
    (hc : ∀ e, (p.run W s).outcome ≠ .uncaught e) :
    ∃ r, (p.run W s).outcome = .responded r ∧ R (p.run W s).trace r := by
  obtain ⟨-, h2, -, h4⟩ := meets_run P R W _ p [] s hp
  cases h : (p.run W s).outcome with
  | responded r => exact ⟨r, rfl, by simpa using h2 r h⟩
  | uncaught e => exact absurd h (hc e)
  | silent => exact (h4 h).elim fun _ hf => hf.elim

/-- Every run of one of the seven handlers ends with a response. -/
theorem program_caught {σ : Type} (W : World σ) (B : Builtins) (q : Request) (s : σ)
    (e : Thrown) : ((q.program B).run W s).outcome ≠ .uncaught e := by
  cases q <;> exact tryBlock_caught W _ s e

theorem deleteAdmin_protocol (id : Param) :
    (deleteAdmin id).Meets (fun h _ => ∀ ev ∈ h, ev.error? = none)
      (fun h r => ((∀ ev ∈ h, ev.error? = none) → DeleteDone id h r) ∧
        ∀ e, h.getLast?.bind Event.error? = some e → DeleteAborted id h r e)
      (fun _ _ => False) [] := by
  simp only [deleteAdmin, bind_eq, pure_eq, meets_tryBlock, meets_bind, meets_ite,
    meets_await, meets_reply, meets_respond, meets_pure]
  simp [Event.error?, DeleteDone, DeleteAborted, deletionEvents, deletionSteps]
  intro v hv
  exact Option.ne_none_iff_exists'.1 hv

/-- A failed event of a run whose calls are made only after events that did not
fail is the last event of the run. -/
theorem failed_event_last {σ α : Type} (W : World σ) (R : List Event → Response → Prop)
    (K : List Event → α → Prop) (p : Js α) (s : σ)
    (hp : p.Meets (fun h _ => ∀ ev ∈ h, ev.error? = none) R K [])
    (pre post : List Event) (ev : Event) (e : Thrown)
    (ht : (p.run W s).trace = pre ++ ev :: post) (he : ev.error? = some e) : post = [] := by
  cases post with
  | nil => rfl
  | cons ev2 post2 =>
    have h := (meets_run _ R W K p [] s hp).1 (pre ++ [ev]) ev2 post2 (by simp [ht])
    have : ev.error? = none := h ev (by simp)
    simp [he] at this

/-- The account is deleted only by the last of the deletion steps. -/
theorem deletionSteps_take (id : Param) (k : Nat) (hk : k ≤ 6) :
    Call.findByIdAndDelete id ∉ Call.findById id :: (deletionSteps id).take k := by
  interval_cases k <;> simp [deletionSteps]

/-- The six bulk deletes together remove the documents of the school. -/
theorem filter_collections (id : Param) (l : List Dependent) :
    (((((l.filter fun d => !(decide (d.coll = .sclass) && decide (some d.school = id))).filter
      fun d => !(decide (d.coll = .student) && decide (some d.school = id))).filter
      fun d => !(decide (d.coll = .teacher) && decide (some d.school = id))).filter
      fun d => !(decide (d.coll = .subject) && decide (some d.school = id))).filter
      fun d => !(decide (d.coll = .notice) && decide (some d.school = id))).filter
      (fun d => !(decide (d.coll = .complain) && decide (some d.school = id))) =
    l.filter fun d => !decide (some d.school = id) := by
  simp only [List.filter_filter]
  apply List.filter_congr
  intro d _
  cases hc : d.coll <;> simp

/-- The run of `deleteAdmin` on the in-memory store when the account is
there. -/
theorem deleteAdmin_memStore (H : Hasher) (newId : Nat → Id) (db : Db) (id : Param)
    (a : AdminRec) (hfind : db.admins.find? (fun a => decide (some a._id = id)) = some a) :
    (deleteAdmin id).run (memStore H newId) db =
      ⟨.responded (message 200 "Admin and all related data deleted successfully"),
        ⟨.findById id, .ok (some a)⟩ :: deletionEvents id,
        ⟨db.admins.filter fun a => !decide (some a._id = id),
          db.dependents.filter fun d => !decide (some d.school = id), db.entropy⟩⟩ := by
  simp only [deleteAdmin, bind_eq, pure_eq, run_await, memStore, hfind, reply, pure_bind,
    ite_bind, respond_bind, Option.isNone_some, Bool.false_eq_true, if_false, tryBlock_respond,
    run_respond, Run.after, deletionEvents, filter_collections]

theorem deleteAdmin_memStore_absent (H : Hasher) (newId : Nat → Id) (db : Db) (id : Param)
    (hfind : db.admins.find? (fun a => decide (some a._id = id)) = none) :
    (deleteAdmin id).run (memStore H newId) db =
      ⟨.responded (message 404 "Admin not found"), [⟨.findById id, .ok none⟩], db⟩ := by
  simp only [deleteAdmin, bind_eq, pure_eq, run_await, memStore, hfind, reply, pure_bind,
    ite_bind, respond_bind, Option.isNone_none, if_true, tryBlock_respond,
    run_respond, Run.after]

/-- C19. For every id, and every store and state in which no call of the run
fails: `deleteAdmin` first looks the account up; when the lookup finds nothing
that is its only call and the response is 404 `Admin not found`; when it finds
the account, the calls that follow are, in this order and each once, the bulk
deletes with `school: id` on classes, students, teachers, subjects, notices and
complaints and then the deletion of the account, and the response is 200
`Admin and all related data deleted successfully`. -/
theorem deleteAdmin_sequence (id : Param) {σ : Type} (W : World σ) (s : σ)
    (hok : ∀ ev ∈ ((deleteAdmin id).run W s).trace, ev.error? = none) :
    (((deleteAdmin id).run W s).trace = [⟨.findById id, .ok none⟩] ∧
      ((deleteAdmin id).run W s).outcome = .responded (message 404 "Admin not found")) ∨
    ∃ a, ((deleteAdmin id).run W s).trace = ⟨.findById id, .ok (some a)⟩ :: deletionEvents id ∧
      ((deleteAdmin id).run W s).calls =
        [.findById id, .deleteMany .sclass id, .deleteMany .student id, .deleteMany .teacher id,
          .deleteMany .subject id, .deleteMany .notice id, .deleteMany .complain id,
          .findByIdAndDelete id] ∧
      ((deleteAdmin id).run W s).outcome =
        .responded (message 200 "Admin and all related data deleted successfully") := by
  obtain ⟨r, hout, hr, -⟩ := meets_responds W _ _ _ s (deleteAdmin_protocol id)
    (fun e => tryBlock_caught W _ s e)
  rcases hr hok with ⟨ht, rfl⟩ | ⟨a, ht, rfl⟩
  · exact Or.inl ⟨ht, hout⟩
  · refine Or.inr ⟨a, ht, ?_, hout⟩
    simp only [Run.calls]
    rw [ht]
    rfl

/-- C19 on the store with two schools: deleting `a0` makes the eight calls in
order. -/
theorem deleteAdmin_sequence_witness :
    ((deleteAdmin (some (toyId 0))).run toyStore twoSchools).calls =
      [.findById (some (toyId 0)), .deleteMany .sclass (some (toyId 0)),
        .deleteMany .student (some (toyId 0)), .deleteMany .teacher (some (toyId 0)),
        .deleteMany .subject (some (toyId 0)), .deleteMany .notice (some (toyId 0)),
        .deleteMany .complain (some (toyId 0)), .findByIdAndDelete (some (toyId 0))] ∧
    ((((deleteAdmin (some (toyId 0))).run toyStore twoSchools).trace =
        [⟨.findById (some (toyId 0)), .ok none⟩] ∧
      ((deleteAdmin (some (toyId 0))).run toyStore twoSchools).outcome =
        .responded (message 404 "Admin not found")) ∨
    ∃ a, ((deleteAdmin (some (toyId 0))).run toyStore twoSchools).trace =
        ⟨.findById (some (toyId 0)), .ok (some a)⟩ :: deletionEvents (some (toyId 0)) ∧
      ((deleteAdmin (some (toyId 0))).run toyStore twoSchools).calls =
        [.findById (some (toyId 0)), .deleteMany .sclass (some (toyId 0)),
          .deleteMany .student (some (toyId 0)), .deleteMany .teacher (some (toyId 0)),
          .deleteMany .subject (some (toyId 0)), .deleteMany .notice (some (toyId 0)),
          .deleteMany .complain (some (toyId 0)), .findByIdAndDelete (some (toyId 0))] ∧
      ((deleteAdmin (some (toyId 0))).run toyStore twoSchools).outcome =
        .responded (message 200 "Admin and all related data deleted successfully")) :=
  ⟨by decide, deleteAdmin_sequence (some (toyId 0)) toyStore twoSchools (by
    intro ev hev
    rw [show toyStore = memStore toyHasher toyId from rfl,
      deleteAdmin_memStore toyHasher toyId twoSchools (some (toyId 0)) _ rfl] at hev
    simp only [deletionEvents, List.mem_cons, List.mem_singleton, List.not_mem_nil,
      or_false] at hev
    rcases hev with rfl | rfl | rfl | rfl | rfl | rfl | rfl | rfl <;> rfl)⟩

/-- C20. For every store, state and id: if in a run of `deleteAdmin` the k-th
of the seven deletion steps (the six bulk deletes, then the deletion of the
account; the lookup comes before them, as call 0) fails with the error `e`, then the
response is 500 with `e.message` as message, the calls made are the lookup and
the first k deletion steps and no other, the lookup and the steps before the
k-th did not fail, the state left is the one after these calls, and when the
failed step is one of the six bulk deletes the deletion of the account is not
among the calls. -/
theorem deleteAdmin_partial_failure (id : Param) {σ : Type} (W : World σ) (s : σ) (k : Nat)
    (e : Thrown)
    (hfail : (((deleteAdmin id).run W s).trace[k]?).bind Event.error? = some e) :
    k ≤ 7 ∧
    ((deleteAdmin id).run W s).outcome = .responded (failure e) ∧
    ((deleteAdmin id).run W s).calls = .findById id :: (deletionSteps id).take k ∧
    (∀ ev ∈ ((deleteAdmin id).run W s).trace.take k, ev.error? = none) ∧
    ((deleteAdmin id).run W s).final = W.exec s (.findById id :: (deletionSteps id).take k) ∧
    (k ≤ 6 → Call.findByIdAndDelete id ∉ ((deleteAdmin id).run W s).calls) := by
  have hfin := run_final_exec W (deleteAdmin id) s
  obtain ⟨r, hout, -, hr⟩ := meets_responds W _ _ _ s (deleteAdmin_protocol id)
    (fun e => tryBlock_caught W _ s e)
  have hlast := failed_event_last W _ _ (deleteAdmin id) s (deleteAdmin_protocol id)
  generalize (deleteAdmin id).run W s = run at *
  cases hev : run.trace[k]? with
  | none => simp [hev] at hfail
  | some ev =>
    rw [hev] at hfail
    simp only [Option.some_bind] at hfail
    obtain ⟨hlt, hget⟩ := List.getElem?_eq_some.1 hev
    have hsplit : run.trace = run.trace.take k ++ ev :: run.trace.drop (k + 1) := by
      rw [← hget, ← List.drop_eq_getElem_cons hlt, List.take_append_drop]
    have hpost := hlast _ _ ev e hsplit hfail
    rw [hpost] at hsplit
    have hlen : run.trace.length = k + 1 := by
      have := congrArg List.length hsplit
      simp only [List.length_append, List.length_take, List.length_singleton] at this
      omega
    have hab := hr e (by rw [hsplit]; simp [hfail])
    obtain ⟨rfl, hpre, hcalls⟩ := hab
    rw [hlen, List.take_succ_cons] at hcalls
    have hk7 : k ≤ 7 := by
      have := congrArg List.length hcalls
      simp only [List.length_map, hlen, List.length_cons, List.length_take, deletionSteps,
        List.length_nil] at this
      omega
    have hcalls2 : run.calls = Call.findById id :: (deletionSteps id).take k := hcalls
    refine ⟨hk7, hout, hcalls2, ?_, ?_, ?_⟩
    · simpa only [List.dropLast_eq_take, hlen, Nat.add_sub_cancel] using hpre
    · rw [hfin, hcalls2]
    · intro h6
      rw [hcalls2]
      exact deletionSteps_take id k h6

/-- C20 at the partial failure of the test: the bulk delete of the teachers of
`a0` is rejected. The response is 500 with the message of the error, the
classes and students of `a0` are gone, and its teacher and the account itself
are still there. -/
theorem deleteAdmin_partial_failure_witness :
    ((deleteAdmin (some (toyId 0))).run teacherFault twoSchools).final =
      ⟨twoSchools.admins, [⟨.teacher, toyId 12, toyId 0⟩, ⟨.student, toyId 13, toyId 1⟩], 2⟩ ∧
    3 ≤ 7 ∧
    ((deleteAdmin (some (toyId 0))).run teacherFault twoSchools).outcome =
      .responded (failure (.str (utf16 "Partial failure: Could not delete all teachers"))) ∧
    ((deleteAdmin (some (toyId 0))).run teacherFault twoSchools).calls =
      .findById (some (toyId 0)) :: (deletionSteps (some (toyId 0))).take 3 ∧
    (∀ ev ∈ ((deleteAdmin (some (toyId 0))).run teacherFault twoSchools).trace.take 3,
      ev.error? = none) ∧
    ((deleteAdmin (some (toyId 0))).run teacherFault twoSchools).final =
      teacherFault.exec twoSchools
        (.findById (some (toyId 0)) :: (deletionSteps (some (toyId 0))).take 3) ∧
    (3 ≤ 6 → Call.findByIdAndDelete (some (toyId 0)) ∉
      ((deleteAdmin (some (toyId 0))).run teacherFault twoSchools).calls) :=
  ⟨by decide, deleteAdmin_partial_failure (some (toyId 0)) teacherFault twoSchools 3
    (.str (utf16 "Partial failure: Could not delete all teachers")) rfl⟩

/-- C29. Over the in-memory store, in which `deleteMany({ school: id })` removes
exactly the documents of its collection whose `school` is `id`: a run of
`deleteAdmin` that answers 200 leaves exactly the dependent documents whose
`school` differs from `id`, in their order, and exactly the accounts whose
identity differs from `id`. So no class, student, teacher, subject, notice or
complaint of that school and no account with that id is left, and every other
dependent document and every other account is still there. -/
theorem deleteAdmin_frame (H : Hasher) (newId : Nat → Id) (db : Db) (id : Param)
    (hok : ((deleteAdmin id).run (memStore H newId) db).outcome =
      .responded (message 200 "Admin and all related data deleted successfully")) :
    ((deleteAdmin id).run (memStore H newId) db).final.dependents =
      db.dependents.filter (fun d => !decide (some d.school = id)) ∧
    ((deleteAdmin id).run (memStore H newId) db).final.admins =
      db.admins.filter (fun a => !decide (some a._id = id)) ∧
    (∀ d ∈ ((deleteAdmin id).run (memStore H newId) db).final.dependents, some d.school ≠ id) ∧
    (∀ a ∈ ((deleteAdmin id).run (memStore H newId) db).final.admins, some a._id ≠ id) ∧
    (∀ d ∈ db.dependents, some d.school ≠ id →
      d ∈ ((deleteAdmin id).run (memStore H newId) db).final.dependents) ∧
    (∀ a ∈ db.admins, some a._id ≠ id →
      a ∈ ((deleteAdmin id).run (memStore H newId) db).final.admins) := by
  cases hfind : db.admins.find? (fun a => decide (some a._id = id)) with
  | none =>
    rw [deleteAdmin_memStore_absent H newId db id hfind] at hok
    simp [message] at hok
  | some a =>
    rw [deleteAdmin_memStore H newId db id a hfind]
    simp only [List.mem_filter, Bool.not_eq_true', decide_eq_false_iff_not, ne_eq, true_and]
    exact ⟨fun d hd => hd.2, fun a ha => ha.2, fun d hd h => ⟨hd, h⟩, fun a ha h => ⟨ha, h⟩⟩

/-- C29 on the store with two schools: deleting `a0` leaves the account `a1`
and its student, and nothing of `a0`. -/
theorem deleteAdmin_frame_witness :
    ((deleteAdmin (some (toyId 0))).run toyStore twoSchools).final.dependents =
      [⟨.student, toyId 13, toyId 1⟩] ∧
    ((deleteAdmin (some (toyId 0))).run toyStore twoSchools).final.admins.map AdminRec._id =
      [toyId 1] ∧
    ((deleteAdmin (some (toyId 0))).run toyStore twoSchools).final.dependents =
      twoSchools.dependents.filter (fun d => !decide (some d.school = some (toyId 0))) ∧
    ((deleteAdmin (some (toyId 0))).run toyStore twoSchools).final.admins =
      twoSchools.admins.filter (fun a => !decide (some a._id = some (toyId 0))) :=
  ⟨by decide, by decide,
    (deleteAdmin_frame toyHasher toyId twoSchools (some (toyId 0)) rfl).1,
    (deleteAdmin_frame toyHasher toyId twoSchools (some (toyId 0)) rfl).2.1⟩

/-- A program that meets a protocol meets every weaker one. -/
theorem meets_mono {α : Type} (P P' : List Event → Call → Prop)
    (R R' : List Event → Response → Prop) (K K' : List Event → α → Prop)
    (hP : ∀ h c, P h c → P' h c) (hR : ∀ h r, R h r → R' h r) (hK : ∀ h a, K h a → K' h a)
    (p : Js α) (h : List Event) (hp : p.Meets P R K h) : p.Meets P' R' K' h := by
  induction p generalizing h with
  | pure a => exact hK h a hp
  | throw e => exact hR h _ hp
  | respond r => exact hR h r hp
  | call c k ih => exact ⟨hP h c hp.1, fun x => ih x _ (hp.2 x)⟩

/-- A protocol that the validation responses keep and that `registerAccount`
meets on every valid body is met by `adminRegister`. -/
theorem adminRegister_meets (B : Builtins) (body : RegisterBody)
    (P : List Event → Call → Prop) (R : List Event → Response → Prop)
    (K : List Event → Unit → Prop) (h400 : ∀ m, R [] (message 400 m))
    (h500 : ∀ m, R [] (failure (.str m)))
    (hreg : ∀ n e p sn, body = ⟨.str n, .str e, .str p, .str sn⟩ → firstFailure n e p sn = none →
      (tryBlock (registerAccount B ⟨.str n, .str e, .str p, .str sn⟩)).Meets P R K []) :
    (adminRegister B body).Meets P R K [] := by
  rcases adminRegister_split B body with ⟨r, hr, hprog⟩ | ⟨n, e, p, sn, hb, hf, hprog⟩
  · rw [hprog]
    rcases hr with ⟨m, rfl⟩ | ⟨m, rfl⟩
    · exact h400 m
    · exact h500 m
  · rw [hprog]
    exact hreg n e p sn hb hf

theorem registerAccount_roles (B : Builtins) (n e p sn : JStr) :
    (tryBlock (registerAccount B ⟨.str n, .str e, .str p, .str sn⟩)).Meets
      (fun _ c => ∀ x, c.role? = some x → x = utf16 "Admin")
      (fun _ r => r.status = 200 → r.body.prop "role" = .str (utf16 "Admin"))
      (fun _ _ => False) [] := by
  simp only [registerAccount, bind_eq, pure_eq, meets_tryBlock, meets_bind, meets_ite,
    meets_eval, meets_await, meets_reply, meets_respond, meets_pure, callTrim_str, Call.role?]
  simp [message, failure, adminResponse, JVal.prop, field, List.lookup]

/-- No handler hands a role other than `Admin` to the store. -/
theorem program_roles (B : Builtins) (q : Request) :
    (q.program B).Meets (fun _ c => ∀ x, c.role? = some x → x = utf16 "Admin")
      (fun _ _ => True) (fun _ _ => True) [] := by
  cases q with
  | adminRegister body =>
    refine adminRegister_meets B body _ _ _ (fun _ => trivial) (fun _ => trivial) ?_
    intro n e p sn _ _
    simp only [registerAccount, bind_eq, pure_eq, meets_tryBlock, meets_bind, meets_ite,
      meets_eval, meets_await, meets_reply, meets_respond, meets_pure, callTrim_str, Call.role?]
    simp
  | adminLogIn body =>
    simp only [Request.program, adminLogIn, loginAccount, bind_eq, pure_eq, meets_tryBlock,
      meets_bind, meets_ite, meets_eval, meets_await, meets_reply, meets_respond, meets_pure]
    rcases callTrim_cases "email" body.email with ⟨e, -, he⟩ | ⟨e, he⟩
    · simp only [he, Call.role?]
      simp
      intro _ _ a
      cases a <;> simp [meets_reply, meets_bind, meets_await, meets_ite, meets_respond,
        meets_pure, Call.role?]
    · simp [he]
  | getAdminDetail id =>
    simp only [Request.program, getAdminDetail, bind_eq, pure_eq, meets_tryBlock,
      meets_bind, meets_await, Call.role?]
    simp
    intro a
    cases a <;> simp [meets_reply, meets_respond]
  | getAllAdmins =>
    simp [Request.program, getAllAdmins, meets_tryBlock, meets_bind, meets_await, meets_respond,
      Call.role?]
  | updateAdmin id body =>
    simp only [Request.program, updateAdmin, bind_eq, pure_eq, meets_tryBlock, meets_bind,
      meets_ite, meets_eval, meets_await, meets_reply, meets_respond, meets_pure]
    rcases callTrim_cases "name" body.name with ⟨n, -, hn⟩ | ⟨en, hn⟩ <;>
      rcases callTrim_cases "email" body.email with ⟨e, -, he⟩ | ⟨ee, he⟩ <;>
      simp only [hn, he, Call.role?] <;>
      refine ⟨fun _ => ?_, fun _ => ?_⟩
    all_goals repeat' first | intro _ | apply And.intro | split
    all_goals simp_all [meets_reply, meets_respond]
  | deleteAdmin id =>
    simp [Request.program, deleteAdmin, meets_tryBlock, meets_bind, meets_await, meets_respond,
      meets_reply, meets_ite, meets_pure, Call.role?]
  | getDashboard id =>
    simp [Request.program, getDashboard, meets_tryBlock, meets_bind, meets_await, meets_respond,
      meets_reply, meets_ite, meets_pure, Call.role?]

/-- A call that hands no role other than `Admin` to the in-memory store keeps
every stored role `Admin`. -/
theorem memStore_roles (H : Hasher) (newId : Nat → Id) (db : Db) (c : Call)
    (hdb : ∀ a ∈ db.admins, a.role = utf16 "Admin")
    (hc : ∀ x, c.role? = some x → x = utf16 "Admin") :
    ∀ a ∈ (((memStore H newId).answer db c).2).admins, a.role = utf16 "Admin" := by
  cases c with
  | save doc =>
    intro a ha
    simp only [memStore, List.mem_append, List.mem_singleton] at ha
    rcases ha with ha | rfl
    · exact hdb a ha
    · exact hc _ rfl
  | findByIdAndUpdate id u =>
    intro a ha
    simp only [memStore, List.mem_map] at ha
    obtain ⟨b, hb, rfl⟩ := ha
    split
    · exact hdb b hb
    · exact hdb b hb
  | findByIdAndDelete id =>
    intro a ha
    simp only [memStore, List.mem_filter] at ha
    exact hdb a ha.1
  | _ => exact hdb

theorem updateAdmin_roles (B : Builtins) (id : Param) (body : UpdateBody) :
    (updateAdmin B id body).Meets (fun _ c => c.role? = none)
      (fun _ _ => True) (fun _ _ => True) [] := by
  simp only [updateAdmin, bind_eq, pure_eq, meets_tryBlock, meets_bind,
    meets_ite, meets_eval, meets_await, meets_reply, meets_respond, meets_pure]
  rcases callTrim_cases "name" body.name with ⟨n, -, hn⟩ | ⟨en, hn⟩ <;>
    rcases callTrim_cases "email" body.email with ⟨e, -, he⟩ | ⟨ee, he⟩ <;>
    simp only [hn, he, Call.role?] <;>
    refine ⟨fun _ => ?_, fun _ => ?_⟩
  all_goals repeat' first | intro _ | apply And.intro | split
  all_goals simp_all [meets_reply, meets_respond]

/-- Every request leaves every stored role `Admin`. -/
theorem afterRequests_roles (B : Builtins) (H : Hasher) (newId : Nat → Id) (qs : List Request)
    (db : Db) (hdb : ∀ a ∈ db.admins, a.role = utf16 "Admin") :
    ∀ a ∈ (afterRequests B H newId qs db).admins, a.role = utf16 "Admin" := by
  induction qs generalizing db with
  | nil => exact hdb
  | cons q qs ih =>
    exact ih _ (run_invariant (memStore H newId) (fun d => ∀ a ∈ d.admins, a.role = utf16 "Admin")
      _ (fun d c hd hc => memStore_roles H newId d c hd hc) (q.program B) [] (program_roles B q)
      db hdb)

/-- C11. The body of a registration is read through its keys `name`, `email`,
`password` and `schoolName` alone, so a `role` key changes nothing; whatever
the store and the hasher answer, every document that `adminRegister` builds or
saves has the role `Admin`, and so has the body of a 200 response; no call of
`updateAdmin` carries a role (its update document has the keys `name`, `email`
and `password` at most); and over the in-memory store, any sequence of requests
to the seven handlers, from a state in which every account has the role
`Admin`, leaves every account with the role `Admin`. -/
theorem role_always_admin (B : Builtins) (H : Hasher) (newId : Nat → Id) {σ : Type}
    (W : World σ) (s : σ) :
    (∀ (raw : List (String × JVal)) (role : JVal),
      RegisterBody.ofFields (("role", role) :: raw) = RegisterBody.ofFields raw) ∧
    (∀ body : RegisterBody,
      (∀ ev ∈ ((adminRegister B body).run W s).trace, ∀ x, ev.call.role? = some x →
        x = utf16 "Admin") ∧
      ∀ r, ((adminRegister B body).run W s).outcome = .responded r → r.status = 200 →
        r.body.prop "role" = .str (utf16 "Admin")) ∧
    (∀ (id : Param) (body : UpdateBody), ∀ ev ∈ ((updateAdmin B id body).run W s).trace,
      ev.call.role? = none) ∧
    (∀ (qs : List Request) (db : Db), (∀ a ∈ db.admins, a.role = utf16 "Admin") →
      ∀ a ∈ (afterRequests B H newId qs db).admins, a.role = utf16 "Admin") := by
  refine ⟨fun raw role => rfl, fun body => ⟨?_, ?_⟩, fun id body => ?_, ?_⟩
  · exact meets_trace W _ _ s (program_roles B (.adminRegister body))
  · intro r hr
    have hm : (adminRegister B body).Meets (fun _ _ => True)
        (fun _ r => r.status = 200 → r.body.prop "role" = .str (utf16 "Admin"))
        (fun _ _ => True) [] := by
      refine adminRegister_meets B body _ _ _ (fun m h => ?_) (fun m h => ?_) ?_
      · simp [message] at h
      · simp [failure] at h
      · intro n e p sn _ _
        exact meets_mono _ _ _ _ _ _ (fun _ _ _ => trivial) (fun _ _ h => h)
          (fun _ _ h => h.elim) _ _ (registerAccount_roles B n e p sn)
    exact meets_outcome W _ _ s hm r hr
  · exact meets_trace W _ _ s (updateAdmin_roles B id body)
  · exact afterRequests_roles B H newId

/-- C11 at the registration of the test that sends `role: SuperAdmin`: the
stored account and the response have the role `Admin`. -/
theorem role_always_admin_witness :
    ((adminRegister asciiRuntime (.ofFields superAdminFields)).run toyStore
      emptyDb).final.admins.map AdminRec.role = [utf16 "Admin"] ∧
    ∀ r, ((adminRegister asciiRuntime (.ofFields superAdminFields)).run toyStore
        emptyDb).outcome = .responded r → r.status = 200 →
      r.body.prop "role" = .str (utf16 "Admin") :=
  ⟨by decide,
    ((role_always_admin asciiRuntime toyHasher toyId toyStore emptyDb).2.1
      (.ofFields superAdminFields)).2⟩

theorem after_calls {σ : Type} (ev : Event) (r : Run σ) :
    (r.after ev).calls = ev.call :: r.calls := rfl

/-- A registration whose first five rules pass and whose password has fewer
than 6 code units is answered with the password message. -/
theorem adminRegister_short (B : Builtins) (n e p sn : JStr) (hn : trim n ≠ [])
    (he : trim e ≠ []) (hp : trim p ≠ []) (hsn : trim sn ≠ [])
    (hfmt : emailRegex.test (trim e) = true) (hlen : p.length < 6) :
    adminRegister B ⟨.str n, .str e, .str p, .str sn⟩ =
      .respond (message 400 "Password must be at least 6 characters long") := by
  rw [adminRegister_str]
  simp only [hn, he, hp, hsn, hfmt, hlen, if_false, if_true, Bool.true_eq_false]

/-- A registration whose password has 6 code units or more is not answered
with the password message. -/
theorem adminRegister_long {σ : Type} (W : World σ) (s : σ) (B : Builtins) (n e p sn : JStr)
    (hlen : 6 ≤ p.length) :
    ((adminRegister B ⟨.str n, .str e, .str p, .str sn⟩).run W s).outcome ≠
      .responded (message 400 "Password must be at least 6 characters long") := by
  rw [adminRegister_str]
  have hne : ∀ m : String,
      message 400 m ≠ message 400 "Password must be at least 6 characters long" →
      ((Js.respond (message 400 m) : Js Unit).run W s).outcome ≠
        .responded (message 400 "Password must be at least 6 characters long") := by
    intro m hm h
    exact hm (by simpa [run_respond] using h)
  split_ifs
  all_goals first
    | exact absurd ‹p.length < 6› (Nat.not_lt.2 hlen)
    | exact registerAccount_outcome_ne W s B n e p sn _ (by decide)
    | (refine hne _ ?_; decide)

theorem truthy_str (s : JStr) : truthy (.str s) = true ↔ s ≠ [] := by
  cases s <;> simp [truthy]

/-- An update with a short password, a name that is absent, null or a string,
and no email is answered with the password message before any call. -/
theorem updateAdmin_short (B : Builtins) (id : Param) (body : UpdateBody) (p : JStr)
    (hp : body.password = .str p) (hne : p ≠ []) (hlen : p.length < 6)
    (hname : textOrAbsent body.name = true) (hemail : truthy body.email = false) :
    updateAdmin B id body =
      .respond (message 400 "Password must be at least 6 characters long") := by
  obtain ⟨name, email, password⟩ := body
  simp only at hp hname hemail
  subst hp
  have htp : truthy (.str p) = true := (truthy_str p).2 hne
  by_cases hn : truthy name = true
  · obtain ⟨n, rfl⟩ : ∃ n, name = .str n := by
      cases name <;> simp_all [textOrAbsent, truthy]
    simp [updateAdmin, hn, hemail, htp, eval, callTrim, getLength, lessThan, hlen, reply,
      pure_bind, respond_bind, tryBlock_respond, Js.bind, tryBlock]
  · simp [updateAdmin, hn, hemail, htp, eval, getLength, lessThan, hlen, reply,
      pure_bind, respond_bind, tryBlock_respond, Js.bind, tryBlock]

theorem updateAdmin_password (B : Builtins) (id : Param) (body : UpdateBody) (p : JStr)
    (hp : body.password = .str p) (hlen : 6 ≤ p.length) :
    (updateAdmin B id body).Meets (fun _ _ => True)
      (fun _ r => r ≠ message 400 "Password must be at least 6 characters long")
      (fun _ _ => False) [] := by
  have h6 : ¬ p.length < 6 := Nat.not_lt.2 hlen
  simp only [updateAdmin, bind_eq, pure_eq, meets_tryBlock, meets_bind, meets_ite,
    meets_eval, meets_await, meets_reply, meets_respond, meets_pure, hp, getLength, lessThan]
  rcases callTrim_cases "name" body.name with ⟨n, hn, hn'⟩ | ⟨en, hn'⟩ <;>
    rcases callTrim_cases "email" body.email with ⟨e, he, he'⟩ | ⟨ee, he'⟩ <;>
    simp only [hn', he'] <;>
    refine ⟨fun _ => ?_, fun _ => ?_⟩
  all_goals repeat' first | intro _ | apply And.intro | split
  all_goals first
    | exact absurd ‹message _ _ = message _ _› (by decide)
    | (simp_all [meets_reply, meets_respond, failure, message]; done)
    | (simp_all [meets_reply, meets_respond, failure, message]; omega)

/-- C12, as the claim words it, fails. The password of two letters padded with
spaces to six characters has trimmed length 2, yet the registration that
carries it is answered 200 and the password is hashed as submitted; and an
update that carries it is answered 200 as well. -/
theorem password_minimum_counterexample :
    (trim (utf16 "  ab  ")).length = 2 ∧
    ((adminRegister asciiRuntime paddedPassword).run toyStore emptyDb).outcome.status? =
      some 200 ∧
    (hashCalls ((adminRegister asciiRuntime paddedPassword).run toyStore emptyDb).trace).map
      (fun c => c.1) = [.str (utf16 "  ab  ")] ∧
    ((updateAdmin asciiRuntime (some (toyId 0)) ⟨.undefined, .undefined,
      .str (utf16 "  ab  ")⟩).run toyStore twoSchools).outcome.status? = some 200 := by
  decide

/-- C12, as amended. The minimum is on the length of the password as
submitted, in UTF-16 code units and without trimming. In `adminRegister`, once
the four fields are non-empty after trimming and the email is well formed, a
password of fewer than 6 code units is answered 400
`Password must be at least 6 characters long` before any call, and a password
of 6 code units or more is never answered so, whatever its trimmed length. In
`updateAdmin`, a non-empty string password of fewer than 6 code units, with a
name that is absent, null or a string and no email, is answered with the same
message before any call, and a string password of 6 code units or more is never
answered so. -/
theorem password_minimum (B : Builtins) {σ : Type} (W : World σ) (s : σ) (p : JStr) :
    (∀ n e sn, trim n ≠ [] → trim e ≠ [] → trim p ≠ [] → trim sn ≠ [] →
      emailRegex.test (trim e) = true → p.length < 6 →
      (adminRegister B ⟨.str n, .str e, .str p, .str sn⟩).run W s =
        ⟨.responded (message 400 "Password must be at least 6 characters long"), [], s⟩) ∧
    (∀ n e sn, 6 ≤ p.length →
      ((adminRegister B ⟨.str n, .str e, .str p, .str sn⟩).run W s).outcome ≠
        .responded (message 400 "Password must be at least 6 characters long")) ∧
    (∀ (id : Param) (body : UpdateBody), body.password = .str p → p ≠ [] → p.length < 6 →
      textOrAbsent body.name = true → truthy body.email = false →
      (updateAdmin B id body).run W s =
        ⟨.responded (message 400 "Password must be at least 6 characters long"), [], s⟩) ∧
    (∀ (id : Param) (body : UpdateBody), body.password = .str p → 6 ≤ p.length →
      ((updateAdmin B id body).run W s).outcome ≠
        .responded (message 400 "Password must be at least 6 characters long")) := by
  refine ⟨fun n e sn hn he hp hsn hfmt hlen => ?_, fun n e sn hlen => ?_,
    fun id body hp hne hlen hname hemail => ?_, fun id body hp hlen h => ?_⟩
  · rw [adminRegister_short B n e p sn hn he hp hsn hfmt hlen, run_respond]
  · exact adminRegister_long W s B n e p sn hlen
  · rw [updateAdmin_short B id body p hp hne hlen hname hemail, run_respond]
  · exact (meets_run _ _ W _ _ [] s (updateAdmin_password B id body p hp hlen)).2.1 _ h rfl

/-- C12, as amended, at the passwords `12345` and `  ab  `. -/
theorem password_minimum_witness :
    (adminRegister asciiRuntime ⟨.str (utf16 "Admin"), .str (utf16 "admin@test.com"),
        .str (utf16 "12345"), .str (utf16 "X")⟩).run toyStore emptyDb =
      ⟨.responded (message 400 "Password must be at least 6 characters long"), [], emptyDb⟩ ∧
    ((adminRegister asciiRuntime paddedPassword).run toyStore emptyDb).outcome ≠
      .responded (message 400 "Password must be at least 6 characters long") :=
  ⟨(password_minimum asciiRuntime toyStore emptyDb (utf16 "12345")).1 (utf16 "Admin")
      (utf16 "admin@test.com") (utf16 "X") (by decide) (by decide) (by decide) (by decide)
      (by decide) (by decide),
    (password_minimum asciiRuntime toyStore emptyDb (utf16 "  ab  ")).2.1 (utf16 "Admin")
      (utf16 "admin@test.com") (utf16 "X") (by decide)⟩

/-- A registration that passes validation and whose lookup finds no account
goes on to hash the password. -/
theorem registerAccount_hashes {σ : Type} (W : World σ) (s s' : σ) (B : Builtins)
    (n e p sn : JStr)
    (h : W.answer s (.findOne ⟨B.toLowerCase (trim e), none⟩) = (.ok none, s')) :
    Call.hash (.str p) 10 ∈
      ((tryBlock (registerAccount B ⟨.str n, .str e, .str p, .str sn⟩)).run W s).calls := by
  simp only [registerAccount, bind_eq, pure_eq, reply, eval, callTrim, pure_bind, respond_bind,
    ite_bind, run_await, h, after_calls, Option.isSome_none, Bool.false_eq_true, if_false]
  simp

/-- An update that carries only a password of 6 code units or more starts by
hashing it. -/
theorem updateAdmin_hashes {σ : Type} (W : World σ) (s : σ) (B : Builtins) (id : Param)
    (p : JStr) (hlen : 6 ≤ p.length) :
    ((updateAdmin B id ⟨.undefined, .undefined, .str p⟩).run W s).calls.head? =
      some (.hash (.str p) 10) := by
  have hne : p ≠ [] := by
    rintro rfl
    simp at hlen
  have htp : truthy (.str p) = true := (truthy_str p).2 hne
  have h6 : ¬ p.length < 6 := Nat.not_lt.2 hlen
  have hu : truthy .undefined = false := rfl
  simp only [updateAdmin, hu, htp, bind_eq, pure_eq, pure_bind, eval, getLength, lessThan,
    Bool.false_eq_true, if_false, if_true, Nat.cast_lt_ofNat, h6, decide_False, ite_bind,
    Js.bind, await, tryBlock, Js.run, after_calls]
  rfl

/-- A registration whose name and email are not empty after trimming and whose
password is, is answered `Password is required`. -/
theorem adminRegister_blank_password (B : Builtins) (n e p sn : JStr) (hn : trim n ≠ [])
    (he : trim e ≠ []) (hp : trim p = []) :
    adminRegister B ⟨.str n, .str e, .str p, .str sn⟩ =
      .respond (message 400 "Password is required") := by
  rw [adminRegister_str]
  simp only [hn, he, hp, if_false, if_true]

/-- C13, as the claim words it, fails. The password of five spaces is not
empty and has 5 characters, yet the registration that carries it, with
otherwise valid fields, is answered 400 `Password is required` and not the
length message. -/
theorem password_boundary_counterexample :
    (utf16 "     ").length = 5 ∧
    ((adminRegister asciiRuntime ⟨.str (utf16 "Admin"), .str (utf16 "admin@test.com"),
        .str (utf16 "     "), .str (utf16 "X")⟩).run toyStore emptyDb).outcome =
      .responded (message 400 "Password is required") ∧
    ((adminRegister asciiRuntime ⟨.str (utf16 "Admin"), .str (utf16 "admin@test.com"),
        .str (utf16 "     "), .str (utf16 "X")⟩).run toyStore emptyDb).trace.length = 0 := by
  decide

/-- C13, as amended. For every registration whose other fields are valid: a
password of 6 code units or more that is not empty after trimming passes
validation, so that the handler goes on to `registerAccount`, and it is hashed
whenever the uniqueness lookup finds no account; a password of 5 code units or
fewer that is not empty after trimming, padded or not, is answered 400
`Password must be at least 6 characters long` and no call is made; and a
password that is empty after trimming, whatever its length, is answered 400
`Password is required` and no call is made. For every update that carries only
a password: one of 6 code units or more is hashed, as the first call; a
non-empty one of 5 code units or fewer, white space included, is answered 400
`Password must be at least 6 characters long` and no call is made. -/
theorem password_boundary (B : Builtins) {σ : Type} (W : World σ) (s : σ) (n e p sn : JStr)
    (id : Param) (hn : trim n ≠ []) (he : trim e ≠ []) (hsn : trim sn ≠ [])
    (hfmt : emailRegex.test (trim e) = true) (hnl : (trim n).length ≤ 100)
    (hel : (trim e).length ≤ 255) (hx : xssRegex.test n = false) :
    (6 ≤ p.length → trim p ≠ [] →
      adminRegister B ⟨.str n, .str e, .str p, .str sn⟩ =
        tryBlock (registerAccount B ⟨.str n, .str e, .str p, .str sn⟩) ∧
      ∀ s', W.answer s (.findOne ⟨B.toLowerCase (trim e), none⟩) = (.ok none, s') →
        Call.hash (.str p) 10 ∈
          ((adminRegister B ⟨.str n, .str e, .str p, .str sn⟩).run W s).calls) ∧
    (6 ≤ p.length →
      ((updateAdmin B id ⟨.undefined, .undefined, .str p⟩).run W s).calls.head? =
        some (.hash (.str p) 10)) ∧
    (p.length ≤ 5 → trim p ≠ [] →
      (adminRegister B ⟨.str n, .str e, .str p, .str sn⟩).run W s =
        ⟨.responded (message 400 "Password must be at least 6 characters long"), [], s⟩) ∧
    (p.length ≤ 5 → p ≠ [] →
      (updateAdmin B id ⟨.undefined, .undefined, .str p⟩).run W s =
        ⟨.responded (message 400 "Password must be at least 6 characters long"), [], s⟩) ∧
    (trim p = [] →
      (adminRegister B ⟨.str n, .str e, .str p, .str sn⟩).run W s =
        ⟨.responded (message 400 "Password is required"), [], s⟩) := by
  refine ⟨fun h6 hp0 => ?_, fun h6 => updateAdmin_hashes W s B id p h6, fun h5 hp0 => ?_,
    fun h5 hne => ?_, fun hp0 => ?_⟩
  · have hvalid := adminRegister_of_valid B n e p sn
      ((firstFailure_eq_none_iff n e p sn).2 ⟨hn, he, hp0, hsn, hfmt, h6, hnl, hel, hx⟩)
    refine ⟨hvalid, fun s' h => ?_⟩
    rw [hvalid]
    exact registerAccount_hashes W s s' B n e p sn h
  · rw [adminRegister_short B n e p sn hn he hp0 hsn hfmt (by omega), run_respond]
  · rw [updateAdmin_short B id ⟨.undefined, .undefined, .str p⟩ p rfl hne (by omega) rfl rfl,
      run_respond]
  · rw [adminRegister_blank_password B n e p sn hn he hp0, run_respond]

/-- C13, as amended, at the passwords `123456`, `12345` and the padded
` abc `. -/
theorem password_boundary_witness :
    ((adminRegister asciiRuntime ⟨.str (utf16 "Admin"), .str (utf16 "admin@test.com"),
        .str (utf16 "123456"), .str (utf16 "X")⟩).run toyStore emptyDb).outcome.status? =
      some 200 ∧
    (adminRegister asciiRuntime ⟨.str (utf16 "Admin"), .str (utf16 "admin@test.com"),
        .str (utf16 "12345"), .str (utf16 "X")⟩).run toyStore emptyDb =
      ⟨.responded (message 400 "Password must be at least 6 characters long"), [], emptyDb⟩ ∧
    (adminRegister asciiRuntime ⟨.str (utf16 "Admin"), .str (utf16 "admin@test.com"),
        .str (utf16 " abc "), .str (utf16 "X")⟩).run toyStore emptyDb =
      ⟨.responded (message 400 "Password must be at least 6 characters long"), [], emptyDb⟩ ∧
    (updateAdmin asciiRuntime (some (toyId 0)) ⟨.undefined, .undefined,
        .str (utf16 "     ")⟩).run toyStore emptyDb =
      ⟨.responded (message 400 "Password must be at least 6 characters long"), [], emptyDb⟩ ∧
    ((updateAdmin asciiRuntime (some (toyId 0)) ⟨.undefined, .undefined,
        .str (utf16 "123456")⟩).run toyStore emptyDb).calls.head? =
      some (.hash (.str (utf16 "123456")) 10) :=
  ⟨by decide,
    (password_boundary asciiRuntime toyStore emptyDb (utf16 "Admin") (utf16 "admin@test.com")
      (utf16 "12345") (utf16 "X") (some (toyId 0)) (by decide) (by decide) (by decide)
      (by decide) (by decide) (by decide) (by decide)).2.2.1 (by decide) (by decide),
    (password_boundary asciiRuntime toyStore emptyDb (utf16 "Admin") (utf16 "admin@test.com")
      (utf16 " abc ") (utf16 "X") (some (toyId 0)) (by decide) (by decide) (by decide)
      (by decide) (by decide) (by decide) (by decide)).2.2.1 (by decide) (by decide),
    (password_boundary asciiRuntime toyStore emptyDb (utf16 "Admin") (utf16 "admin@test.com")
      (utf16 "     ") (utf16 "X") (some (toyId 0)) (by decide) (by decide) (by decide)
      (by decide) (by decide) (by decide) (by decide)).2.2.2.1 (by decide) (by decide),
    (password_boundary asciiRuntime toyStore emptyDb (utf16 "Admin") (utf16 "admin@test.com")
      (utf16 "123456") (utf16 "X") (some (toyId 0)) (by decide) (by decide) (by decide)
      (by decide) (by decide) (by decide) (by decide)).2.1 (by decide)⟩

/-- A call that is not a write leaves the in-memory store as it is. -/
theorem memStore_read (H : Hasher) (newId : Nat → Id) (db : Db) (c : Call)
    (hc : c.isWrite = false) : ((memStore H newId).answer db c).2 = db := by
  cases c <;> first | rfl | simp [Call.isWrite] at hc

theorem exec_reads (H : Hasher) (newId : Nat → Id) (db : Db) (cs : List Call)
    (hcs : ∀ c ∈ cs, c.isWrite = false) : (memStore H newId).exec db cs = db := by
  induction cs generalizing db with
  | nil => rfl
  | cons c cs ih =>
    simp only [World.exec]
    rw [memStore_read H newId db c (hcs c (by simp))]
    exact ih db fun c' hc' => hcs c' (by simp [hc'])

theorem registerAccount_failFast (B : Builtins) (n e p sn : JStr) :
    (tryBlock (registerAccount B ⟨.str n, .str e, .str p, .str sn⟩)).Meets (fun _ _ => True)
      FailFast (fun _ _ => False) [] := by
  simp only [registerAccount, bind_eq, pure_eq, meets_tryBlock, meets_bind, meets_ite,
    meets_eval, meets_await, meets_reply, meets_respond, meets_pure, callTrim_str]
  simp [FailFast, message, failure, Call.isWrite]

theorem adminRegister_failFast (B : Builtins) (body : RegisterBody) :
    (adminRegister B body).Meets (fun _ _ => True) FailFast (fun _ _ => False) [] := by
  refine adminRegister_meets B body _ _ _ (fun m _ => ?_) (fun m _ => ?_) ?_
  · exact ⟨fun _ => rfl, fun ev hev => by simp at hev⟩
  · exact ⟨fun _ => rfl, fun ev hev => by simp at hev⟩
  · intro n e p sn _ _
    exact registerAccount_failFast B n e p sn

/-- C14. Whatever the store and the hasher answer: when `adminRegister` answers
400 with a message other than `Email already exists` it has made no call at all
(no lookup, no hashing, no save); when it answers any 400, none of its calls is
a write or a hashing call, no document has been handed to `save`, and over the
in-memory store the state is left as it was. -/
theorem register_fail_fast (B : Builtins) (body : RegisterBody) (H : Hasher)
    (newId : Nat → Id) :
    (∀ {σ : Type} (W : World σ) (s : σ) (r : Response),
      ((adminRegister B body).run W s).outcome = .responded r → r.status = 400 →
      (r ≠ message 400 "Email already exists" → ((adminRegister B body).run W s).trace = []) ∧
      (∀ ev ∈ ((adminRegister B body).run W s).trace, ev.call.isWrite = false) ∧
      savedDocs ((adminRegister B body).run W s).trace = []) ∧
    (∀ (db : Db) (r : Response),
      ((adminRegister B body).run (memStore H newId) db).outcome = .responded r →
      r.status = 400 → ((adminRegister B body).run (memStore H newId) db).final = db) := by
  have key : ∀ {σ : Type} (W : World σ) (s : σ) (r : Response),
      ((adminRegister B body).run W s).outcome = .responded r → r.status = 400 →
      (r ≠ message 400 "Email already exists" → ((adminRegister B body).run W s).trace = []) ∧
      (∀ ev ∈ ((adminRegister B body).run W s).trace, ev.call.isWrite = false) := by
    intro σ W s r hr h400
    have := (meets_run _ _ W _ _ [] s (adminRegister_failFast B body)).2.1 r hr
    simpa using this h400
  constructor
  · intro σ W s r hr h400
    obtain ⟨h1, h2⟩ := key W s r hr h400
    refine ⟨h1, h2, ?_⟩
    generalize ((adminRegister B body).run W s).trace = t at h2
    induction t with
    | nil => rfl
    | cons ev t ih =>
      have hev := h2 ev (by simp)
      obtain ⟨c, res⟩ := ev
      cases c <;> first
        | (simp [Call.isWrite] at hev; done)
        | (simp only [savedDocs]; exact ih fun ev' h' => h2 ev' (by simp [h']))
  · intro db r hr h400
    obtain ⟨-, h2⟩ := key (memStore H newId) db r hr h400
    rw [run_final_exec]
    apply exec_reads
    intro c hc
    simp only [Run.calls, List.mem_map] at hc
    obtain ⟨ev, hev, rfl⟩ := hc
    exact h2 ev hev

/-- C14 at a second registration of the same email: 400
`Email already exists` after the lookup alone, and the store is as it was. -/
theorem register_fail_fast_witness :
    ((adminRegister asciiRuntime scenarioRegistration).run toyStore
      ((adminRegister asciiRuntime scenarioRegistration).run toyStore emptyDb).final).outcome =
      .responded (message 400 "Email already exists") ∧
    ((adminRegister asciiRuntime scenarioRegistration).run toyStore
      ((adminRegister asciiRuntime scenarioRegistration).run toyStore emptyDb).final).final =
      ((adminRegister asciiRuntime scenarioRegistration).run toyStore emptyDb).final :=
  ⟨by decide, (register_fail_fast asciiRuntime scenarioRegistration toyHasher toyId).2 _
    (message 400 "Email already exists") (by decide) rfl⟩

theorem updateAdmin_validation (B : Builtins) (id : Param) (body : UpdateBody) :
    (updateAdmin B id body).Meets (fun _ _ => True) (UpdateValidation body)
      (fun _ _ => False) [] := by
  simp only [updateAdmin, bind_eq, pure_eq, meets_tryBlock, meets_bind, meets_ite,
    meets_eval, meets_await, meets_reply, meets_respond, meets_pure]
  rcases callTrim_cases "name" body.name with ⟨n, hn, hn'⟩ | ⟨en, hn'⟩ <;>
    rcases callTrim_cases "email" body.email with ⟨e, he, he'⟩ | ⟨ee, he'⟩ <;>
    simp only [hn', he'] <;>
    refine ⟨fun _ => ?_, fun _ => ?_⟩
  all_goals repeat' first | intro _ | apply And.intro | split
  all_goals first
    | exact absurd ‹message _ _ = message _ _› (by decide)
    | simp_all [meets_reply, meets_respond, failure, message, UpdateValidation]

/-- C15, as the claim words it, fails. An update that carries a well-formed
email that no account has and the password `123` is answered 400
`Password must be at least 6 characters long` after the uniqueness lookup has
been made. -/
theorem update_fail_fast_counterexample :
    ((updateAdmin asciiRuntime (some (toyId 0)) emailAndShortPassword).run toyStore
      twoSchools).outcome =
      .responded (message 400 "Password must be at least 6 characters long") ∧
    ((updateAdmin asciiRuntime (some (toyId 0)) emailAndShortPassword).run toyStore
      twoSchools).calls = [.findOne ⟨utf16 "new@x.com", some (some (toyId 0))⟩] := by
  decide

/-- C15, as amended. Whatever the store and the hasher answer: when
`updateAdmin` answers 400 `Invalid email format` it has made no call; when it
answers 400 `Password must be at least 6 characters long` it has made no call,
or, when an email was supplied, the uniqueness lookup alone, which found
nothing; in both cases none of its calls is a write or a hashing call, and over
the in-memory store the state is left as it was. -/
theorem update_fail_fast (B : Builtins) (id : Param) (body : UpdateBody) (H : Hasher)
    (newId : Nat → Id) :
    (∀ {σ : Type} (W : World σ) (s : σ),
      (((updateAdmin B id body).run W s).outcome =
          .responded (message 400 "Invalid email format") →
        ((updateAdmin B id body).run W s).trace = []) ∧
      (((updateAdmin B id body).run W s).outcome =
          .responded (message 400 "Password must be at least 6 characters long") →
        (((updateAdmin B id body).run W s).trace = [] ∨
          truthy body.email = true ∧
            ∃ f, ((updateAdmin B id body).run W s).trace = [⟨.findOne f, .ok none⟩]) ∧
        ∀ ev ∈ ((updateAdmin B id body).run W s).trace, ev.call.isWrite = false)) ∧
    (∀ (db : Db) (m : String),
      m = "Invalid email format" ∨ m = "Password must be at least 6 characters long" →
      ((updateAdmin B id body).run (memStore H newId) db).outcome = .responded (message 400 m) →
      ((updateAdmin B id body).run (memStore H newId) db).final = db) := by
  have key : ∀ {σ : Type} (W : World σ) (s : σ),
      (((updateAdmin B id body).run W s).outcome =
          .responded (message 400 "Invalid email format") →
        ((updateAdmin B id body).run W s).trace = []) ∧
      (((updateAdmin B id body).run W s).outcome =
          .responded (message 400 "Password must be at least 6 characters long") →
        (((updateAdmin B id body).run W s).trace = [] ∨
          truthy body.email = true ∧
            ∃ f, ((updateAdmin B id body).run W s).trace = [⟨.findOne f, .ok none⟩]) ∧
        ∀ ev ∈ ((updateAdmin B id body).run W s).trace, ev.call.isWrite = false) := by
    intro σ W s
    have hm := (meets_run _ _ W _ _ [] s (updateAdmin_validation B id body)).2.1
    simp only [List.nil_append] at hm
    refine ⟨fun h => (hm _ h).1 rfl, fun h => ?_⟩
    have h2 := (hm _ h).2 rfl
    refine ⟨h2, fun ev hev => ?_⟩
    rcases h2 with h0 | ⟨-, f, hf⟩
    · simp [h0] at hev
    · rw [hf] at hev
      simp only [List.mem_singleton] at hev
      subst hev
      rfl
  refine ⟨key, fun db m hm hout => ?_⟩
  have hreads : ∀ ev ∈ ((updateAdmin B id body).run (memStore H newId) db).trace,
      ev.call.isWrite = false := by
    rcases hm with rfl | rfl
    · have := (key (memStore H newId) db).1 hout
      simp [this]
    · exact ((key (memStore H newId) db).2 hout).2
  rw [run_final_exec]
  apply exec_reads
  intro c hc
  simp only [Run.calls, List.mem_map] at hc
  obtain ⟨ev, hev, rfl⟩ := hc
  exact hreads ev hev

/-- C15, as amended, at the update with a new email and the password `123`:
the lookup is the only call, and the store is as it was. -/
theorem update_fail_fast_witness :
    ((updateAdmin asciiRuntime (some (toyId 0)) emailAndShortPassword).run toyStore
      twoSchools).trace.length = 1 ∧
    ((updateAdmin asciiRuntime (some (toyId 0)) emailAndShortPassword).run toyStore
      twoSchools).final = twoSchools :=
  ⟨by decide, (update_fail_fast asciiRuntime (some (toyId 0)) emailAndShortPassword toyHasher
    toyId).2 twoSchools "Password must be at least 6 characters long" (Or.inr rfl)
    (by decide)⟩

theorem updateAdmin_calls (B : Builtins) (id : Param) (body : UpdateBody) :
    (updateAdmin B id body).Meets (fun _ c => UpdateCall body c)
      (fun _ _ => True) (fun _ _ => True) [] := by
  simp only [updateAdmin, bind_eq, pure_eq, meets_tryBlock, meets_bind, meets_ite,
    meets_eval, meets_await, meets_reply, meets_respond, meets_pure]
  rcases callTrim_cases "name" body.name with ⟨n, hn, hn'⟩ | ⟨en, hn'⟩ <;>
    rcases callTrim_cases "email" body.email with ⟨e, he, he'⟩ | ⟨ee, he'⟩ <;>
    simp only [hn', he'] <;>
    refine ⟨fun _ => ?_, fun _ => ?_⟩
  all_goals repeat' first | intro _ | apply And.intro | split
  all_goals simp_all [meets_reply, meets_respond, UpdateCall]

theorem untouched_refl (body : UpdateBody) (a : AdminRec) : Untouched body a a :=
  ⟨rfl, rfl, rfl, fun _ => rfl, fun _ => rfl, fun _ => rfl⟩

theorem untouched_trans (body : UpdateBody) (a b c : AdminRec) (h1 : Untouched body a b)
    (h2 : Untouched body b c) : Untouched body a c :=
  ⟨h2.1.trans h1.1, h2.2.1.trans h1.2.1, h2.2.2.1.trans h1.2.2.1,
    fun h => (h2.2.2.2.1 h).trans (h1.2.2.2.1 h),
    fun h => (h2.2.2.2.2.1 h).trans (h1.2.2.2.2.1 h),
    fun h => (h2.2.2.2.2.2 h).trans (h1.2.2.2.2.2 h)⟩

/-- An update document with a key exactly for each truthy field leaves the
other fields of an account as they are. -/
theorem untouched_apply (body : UpdateBody) (u : UpdateData) (a : AdminRec)
    (hn : u.name.isSome = truthy body.name) (he : u.email.isSome = truthy body.email)
    (hp : u.password.isSome = truthy body.password) : Untouched body a (u.apply a) := by
  refine ⟨rfl, rfl, rfl, fun h => ?_, fun h => ?_, fun h => ?_⟩
  · rw [h] at hn
    cases hu : u.name with
    | none => simp [UpdateData.apply, hu]
    | some x => simp [hu] at hn
  · rw [h] at he
    cases hu : u.email with
    | none => simp [UpdateData.apply, hu]
    | some x => simp [hu] at he
  · rw [h] at hp
    cases hu : u.password with
    | none => simp [UpdateData.apply, hu]
    | some x => simp [hu] at hp

/-- A call of an update keeps, on the in-memory store, every account in its
place and every field for which the body has no truthy value. -/
theorem memStore_untouched (H : Hasher) (newId : Nat → Id) (body : UpdateBody) (db0 db : Db)
    (c : Call) (hdb : List.Forall₂ (Untouched body) db0.admins db.admins)
    (hc : UpdateCall body c) :
    List.Forall₂ (Untouched body) db0.admins (((memStore H newId).answer db c).2).admins := by
  cases c with
  | findOne f => exact hdb
  | hash d r => exact hdb
  | findByIdAndUpdate id u =>
    obtain ⟨hn, he, hp⟩ := hc
    simp only [memStore]
    rw [List.forall₂_map_right_iff]
    refine hdb.imp fun a b hab => ?_
    split
    · exact untouched_trans body a b _ hab (untouched_apply body u b hn he hp)
    · exact hab
  | _ => exact hc.elim

theorem forall₂_refl (body : UpdateBody) (l : List AdminRec) :
    List.Forall₂ (Untouched body) l l := by
  induction l with
  | nil => exact .nil
  | cons a l ih => exact .cons (untouched_refl body a) ih

theorem mem_updateDocs (t : List Event) (u : UpdateData) (hu : u ∈ updateDocs t) :
    ∃ ev ∈ t, ∃ id, ev.call = .findByIdAndUpdate id u := by
  induction t with
  | nil => simp [updateDocs] at hu
  | cons ev t ih =>
    obtain ⟨c, res⟩ := ev
    cases c
    case findByIdAndUpdate id u' =>
      simp only [updateDocs, List.mem_cons] at hu
      rcases hu with rfl | hu
      · exact ⟨⟨.findByIdAndUpdate id u, res⟩, by simp, id, rfl⟩
      · obtain ⟨ev, hev, h⟩ := ih hu
        exact ⟨ev, by simp [hev], h⟩
    all_goals
      simp only [updateDocs] at hu
      obtain ⟨ev, hev, h⟩ := ih hu
      exact ⟨ev, by simp [hev], h⟩

/-- C16. Whatever the store and the hasher answer, every update document that
`updateAdmin` hands to `findByIdAndUpdate` has the key `name` exactly when the
name of the body is truthy, the key `email` exactly when its email is, the key
`password` exactly when its password is, and no other key; for a field that is
absent, null or a string, truthy means present and not the empty string; the
empty body gives the empty document as the only call; and over the in-memory
store an update leaves every account in its place with its identity, role and
school name, and with every field for which the body has no truthy value. -/
theorem update_document_keys (B : Builtins) (id : Param) (body : UpdateBody) (H : Hasher)
    (newId : Nat → Id) :
    (∀ {σ : Type} (W : World σ) (s : σ), ∀ u ∈ updateDocs ((updateAdmin B id body).run W s).trace,
      u.name.isSome = truthy body.name ∧ u.email.isSome = truthy body.email ∧
        u.password.isSome = truthy body.password) ∧
    (∀ v, textOrAbsent v = true → truthy v = !loginMissing v) ∧
    (∀ {σ : Type} (W : World σ) (s : σ),
      ((updateAdmin B id {}).run W s).calls = [.findByIdAndUpdate id {}]) ∧
    (∀ db : Db, List.Forall₂ (Untouched body) db.admins
      ((updateAdmin B id body).run (memStore H newId) db).final.admins) := by
  refine ⟨fun W s u hu => ?_, fun v hv => ?_, fun W s => ?_, fun db => ?_⟩
  · obtain ⟨ev, hev, i, hcall⟩ := mem_updateDocs _ u hu
    have := meets_trace W _ _ s (updateAdmin_calls B id body) ev hev
    rw [hcall] at this
    exact this
  · cases v with
    | str x => cases x <;> rfl
    | undefined => rfl
    | null => rfl
    | _ => simp [textOrAbsent] at hv
  · have hu : truthy .undefined = false := rfl
    simp only [updateAdmin, hu, bind_eq, pure_eq, pure_bind, Bool.false_eq_true, if_false,
      Js.bind, await, tryBlock, Js.run, after_calls]
    cases (W.answer s (.findByIdAndUpdate id {})).1 with
    | ok v => cases v <;> rfl
    | error e => rfl
  · exact run_invariant (memStore H newId)
      (fun d => List.Forall₂ (Untouched body) db.admins d.admins) _
      (fun d c hd hc => memStore_untouched H newId body db d c hd hc) _ []
      (updateAdmin_calls B id body) db (forall₂_refl body db.admins)

/-- C16 at the update of the name alone of `a0`: the update document has the
key `name` only, and the email and the password hash of `a0` are as before. -/
theorem update_document_keys_witness :
    updateDocs ((updateAdmin asciiRuntime (some (toyId 0))
      ⟨.str (utf16 " Eve "), .undefined, .undefined⟩).run toyStore twoSchools).trace =
      [⟨some (utf16 "Eve"), none, none⟩] ∧
    ((updateAdmin asciiRuntime (some (toyId 0))
      ⟨.str (utf16 " Eve "), .undefined, .undefined⟩).run toyStore twoSchools).final.admins.map
      (fun a => (a.name, a.email)) =
      [(utf16 "Eve", utf16 "ann@a.com"), (utf16 "Bob", utf16 "bob@b.com")] ∧
    List.Forall₂ (Untouched ⟨.str (utf16 " Eve "), .undefined, .undefined⟩) twoSchools.admins
      ((updateAdmin asciiRuntime (some (toyId 0))
        ⟨.str (utf16 " Eve "), .undefined, .undefined⟩).run toyStore twoSchools).final.admins :=
  ⟨by decide, by decide, (update_document_keys asciiRuntime (some (toyId 0))
    ⟨.str (utf16 " Eve "), .undefined, .undefined⟩ toyHasher toyId).2.2.2 twoSchools⟩

theorem trim_infix (s : JStr) : ∃ a b, s = a ++ trim s ++ b := by
  refine ⟨s.takeWhile isWhiteSpace,
    ((trimStart s).reverse.takeWhile isWhiteSpace).reverse, ?_⟩
  have h1 : s = s.takeWhile isWhiteSpace ++ trimStart s :=
    (List.takeWhile_append_dropWhile _ _).symm
  have h2 : trimStart s = trim s ++ ((trimStart s).reverse.takeWhile isWhiteSpace).reverse := by
    have := congrArg List.reverse
      (List.takeWhile_append_dropWhile isWhiteSpace (trimStart s).reverse)
    simp only [List.reverse_append, List.reverse_reverse] at this
    exact this.symm
  rw [List.append_assoc, ← h2]
  exact h1

/-- A name without a denylisted pattern has none after trimming. -/
theorem xssRegex_trim (n : JStr) (h : xssRegex.test n = false) :
    xssRegex.test (trim n) = false := by
  by_contra hc
  rw [Bool.not_eq_false] at hc
  obtain ⟨p, hp, pre, post, hpp⟩ := (xssRegex_test_iff _).1 hc
  obtain ⟨a, b, hab⟩ := trim_infix n
  have : xssRegex.test n = true := by
    refine (xssRegex_test_iff n).2 ⟨p, hp, asciiLower a ++ pre, post ++ asciiLower b, ?_⟩
    have h2 : asciiLower n = asciiLower a ++ asciiLower (trim n) ++ asciiLower b := by
      conv_lhs => rw [hab]
      simp [asciiLower]
    rw [h2, hpp]
    simp
  rw [h] at this
  exact Bool.false_ne_true this

/-- The run of an update of the name alone on the in-memory store. -/
theorem updateAdmin_rename (B : Builtins) (H : Hasher) (newId : Nat → Id) (db : Db)
    (id : Param) (nm : JStr) (hnm : nm ≠ []) :
    (updateAdmin B id (renameTo nm)).run (memStore H newId) db =
      ⟨.responded (match ((db.admins.find? fun a => decide (some a._id = id)).map
            (UpdateData.apply ⟨some (trim nm), none, none⟩)).map AdminRec.view with
          | none => message 404 "Admin not found"
          | some v => ⟨200, v.toJson⟩),
        [⟨.findByIdAndUpdate id ⟨some (trim nm), none, none⟩,
          .ok (((db.admins.find? fun a => decide (some a._id = id)).map
            (UpdateData.apply ⟨some (trim nm), none, none⟩)).map AdminRec.view)⟩],
        { db with admins := db.admins.map fun a =>
            if some a._id = id then { a with name := trim nm } else a }⟩ := by
  have hu : truthy .undefined = false := rfl
  have ht : truthy (.str nm) = true := (truthy_str nm).2 hnm
  simp only [updateAdmin, renameTo, hu, ht, bind_eq, pure_eq, pure_bind, Bool.false_eq_true,
    if_false, if_true, eval, callTrim, run_await, memStore]
  cases db.admins.find? fun a => decide (some a._id = id) with
  | none => rfl
  | some a => rfl

/-- The run of an update of the name alone: the trimmed name is handed to
`findByIdAndUpdate` as the only call, and the response is made of its answer. -/
theorem updateAdmin_rename_run {σ : Type} (W : World σ) (s : σ) (B : Builtins) (id : Param)
    (nm : JStr) (hnm : nm ≠ []) :
    ((updateAdmin B id (renameTo nm)).run W s).calls =
      [.findByIdAndUpdate id ⟨some (trim nm), none, none⟩] ∧
    (∀ v, (W.answer s (.findByIdAndUpdate id ⟨some (trim nm), none, none⟩)).1 = .ok (some v) →
      ((updateAdmin B id (renameTo nm)).run W s).outcome = .responded ⟨200, v.toJson⟩) ∧
    ((W.answer s (.findByIdAndUpdate id ⟨some (trim nm), none, none⟩)).1 = .ok none →
      ((updateAdmin B id (renameTo nm)).run W s).outcome =
        .responded (message 404 "Admin not found")) ∧
    (∀ e, (W.answer s (.findByIdAndUpdate id ⟨some (trim nm), none, none⟩)).1 = .error e →
      ((updateAdmin B id (renameTo nm)).run W s).outcome = .responded (failure e)) := by
  have hu : truthy .undefined = false := rfl
  have ht : truthy (.str nm) = true := (truthy_str nm).2 hnm
  simp only [updateAdmin, renameTo, hu, ht, bind_eq, pure_eq, pure_bind, Bool.false_eq_true,
    if_false, if_true, eval, callTrim, run_await, after_calls, after_outcome]
  cases h : (W.answer s (.findByIdAndUpdate id ⟨some (trim nm), none, none⟩)).1 with
  | error e =>
    refine ⟨rfl, fun v hv => by simp at hv, fun hv => by simp at hv, fun e' he' => ?_⟩
    simp only [Except.error.injEq] at he'
    subst he'
    rfl
  | ok v =>
    cases v with
    | none =>
      exact ⟨rfl, fun v hv => by simp at hv, fun _ => rfl, fun e he => by simp at he⟩
    | some v =>
      refine ⟨rfl, fun v' hv' => ?_, fun hv => by simp at hv, fun e he => by simp at he⟩
      have hv2 : v = v' := Option.some.inj (Except.ok.inj hv')
      subst hv2
      rfl

/-- C17, the behaviour of the code. Registration validates the name: whatever
the store and the hasher answer, every document that `adminRegister` saves has a
name of 1 to 100 code units without any of the five patterns. `updateAdmin`
applies none of these rules: when the body has a non-empty string as name, every
update document it writes has the trimmed name as name, whatever that is; an
update of the name alone makes `findByIdAndUpdate` with that document its only
call and answers 200 with the document that the store gives back, 404 when the
store gives none, and 500 when the call fails, so never 400; and over the
in-memory store, which applies an update document as it is (the schema, and so
what `runValidators` checks, is not among the sources), the stored name of the
account with the given id becomes the trimmed name. -/
theorem stored_name (B : Builtins) (H : Hasher) (newId : Nat → Id) :
    (∀ {σ : Type} (W : World σ) (s : σ) (body : RegisterBody),
      ∀ doc ∈ savedDocs ((adminRegister B body).run W s).trace,
        1 ≤ doc.name.length ∧ doc.name.length ≤ 100 ∧ xssRegex.test doc.name = false) ∧
    (∀ {σ : Type} (W : World σ) (s : σ) (id : Param) (body : UpdateBody) (nm : JStr),
      body.name = .str nm → nm ≠ [] →
      ∀ u ∈ updateDocs ((updateAdmin B id body).run W s).trace, u.name = some (trim nm)) ∧
    (∀ {σ : Type} (W : World σ) (s : σ) (id : Param) (nm : JStr), nm ≠ [] →
      ((updateAdmin B id (renameTo nm)).run W s).calls =
        [.findByIdAndUpdate id ⟨some (trim nm), none, none⟩] ∧
      (∀ v, (W.answer s (.findByIdAndUpdate id ⟨some (trim nm), none, none⟩)).1 =
          .ok (some v) →
        ((updateAdmin B id (renameTo nm)).run W s).outcome = .responded ⟨200, v.toJson⟩) ∧
      ((W.answer s (.findByIdAndUpdate id ⟨some (trim nm), none, none⟩)).1 = .ok none →
        ((updateAdmin B id (renameTo nm)).run W s).outcome =
          .responded (message 404 "Admin not found")) ∧
      (∀ e, (W.answer s (.findByIdAndUpdate id ⟨some (trim nm), none, none⟩)).1 = .error e →
        ((updateAdmin B id (renameTo nm)).run W s).outcome = .responded (failure e))) ∧
    (∀ (db : Db) (id : Param) (nm : JStr), nm ≠ [] →
      ((updateAdmin B id (renameTo nm)).run (memStore H newId) db).final.admins =
        db.admins.map fun a => if some a._id = id then { a with name := trim nm } else a) := by
  refine ⟨fun W s body doc hdoc => ?_, fun W s id body nm hb hnm u hu => ?_,
    fun W s id nm hnm => updateAdmin_rename_run W s B id nm hnm, fun db id nm hnm => ?_⟩
  · rcases adminRegister_cases B body with ⟨r, -, hr⟩ | ⟨n, e, p, sn, rfl, hf, hr⟩
    · simp [hr, run_respond, savedDocs] at hdoc
    · rw [hr] at hdoc
      obtain ⟨r, -, hh⟩ := meets_responds W _ _ _ s (registerAccount_hashing B n e p sn)
        (fun e => tryBlock_caught W _ s e)
      obtain ⟨-, n', -, -, hn', -, -, hname, -⟩ := hh.2.2 doc hdoc
      simp only [JVal.str.injEq] at hn'
      subst hn'
      obtain ⟨h1, -, -, -, -, -, h7, -, h9⟩ := (firstFailure_eq_none_iff n e p sn).1 hf
      rw [hname]
      exact ⟨List.length_pos.2 h1, h7, xssRegex_trim n h9⟩
  · obtain ⟨r, -, hh⟩ := meets_responds W _ _ _ s (updateAdmin_hashing B id body)
      (fun e => tryBlock_caught W _ s e)
    obtain ⟨-, -, hname, -⟩ := hh.2.2 u hu
    obtain ⟨ev, hev, i, hcall⟩ := mem_updateDocs _ u hu
    have hk := meets_trace W _ _ s (updateAdmin_calls B id body) ev hev
    rw [hcall] at hk
    rcases hname with hnone | ⟨n, hn, hun⟩
    · have := hk.1
      rw [hnone, hb, (truthy_str nm).2 hnm] at this
      simp at this
    · rw [hb] at hn
      simp only [JVal.str.injEq] at hn
      subst hn
      exact hun
  · rw [updateAdmin_rename B H newId db id nm hnm]

/-- C17 at three updates of the name of `a0` on the store with two schools: a
name that contains `<script`, a name of white space only and a name of 101
letters are each handed to the store and answered 200, and the stored name
becomes the script text, the empty string, the 101 letters. -/
theorem stored_name_witness :
    xssRegex.test (utf16 "<script>alert(1)</script>") = true ∧
    ((updateAdmin asciiRuntime (some (toyId 0))
      (renameTo (utf16 "<script>alert(1)</script>"))).run toyStore
      twoSchools).outcome.status? = some 200 ∧
    ((updateAdmin asciiRuntime (some (toyId 0))
      (renameTo (utf16 "<script>alert(1)</script>"))).run toyStore
      twoSchools).final.admins.map AdminRec.name =
      [utf16 "<script>alert(1)</script>", utf16 "Bob"] ∧
    ((updateAdmin asciiRuntime (some (toyId 0)) (renameTo (utf16 "   "))).run
      toyStore twoSchools).outcome.status? = some 200 ∧
    ((updateAdmin asciiRuntime (some (toyId 0)) (renameTo (utf16 "   "))).run
      toyStore twoSchools).final.admins.map AdminRec.name = [[], utf16 "Bob"] ∧
    ((updateAdmin asciiRuntime (some (toyId 0)) (renameTo (List.replicate 101 97))).run
      toyStore twoSchools).outcome.status? = some 200 ∧
    ((updateAdmin asciiRuntime (some (toyId 0)) (renameTo (List.replicate 101 97))).run
      toyStore twoSchools).final.admins.map (fun a => a.name.length) = [101, 3] ∧
    ((updateAdmin asciiRuntime (some (toyId 0))
      (renameTo (utf16 "<script>alert(1)</script>"))).run toyStore twoSchools).calls =
      [.findByIdAndUpdate (some (toyId 0))
        ⟨some (trim (utf16 "<script>alert(1)</script>")), none, none⟩] :=
  ⟨by decide, by decide, by decide, by decide, by decide, by decide, by decide,
    ((stored_name asciiRuntime toyHasher toyId).2.2.1 toyStore twoSchools (some (toyId 0))
      (utf16 "<script>alert(1)</script>") (by decide)).1⟩

/-- The first event of a run holds the answer of the world in the first
state. -/
theorem run_head {σ α : Type} (W : World σ) (p : Js α) (s : σ) (c : Call)
    (res : Except Thrown c.Result) (rest : List Event)
    (h : (p.run W s).trace = ⟨c, res⟩ :: rest) : res = (W.answer s c).1 := by
  cases p with
  | pure a => simp [Js.run] at h
  | throw e => simp [Js.run] at h
  | respond r => simp [Js.run] at h
  | call c' k =>
    simp only [Js.run, after_trace, List.cons.injEq, Event.mk.injEq] at h
    obtain ⟨⟨rfl, h2⟩, -⟩ := h
    exact (eq_of_heq h2).symm

/-- What the lookup of an update is, and when `Email already exists` is
answered. -/
theorem updateAdmin_lookup (B : Builtins) (id : Param) (body : UpdateBody) (e : JStr)
    (he : body.email = .str e) :
    (updateAdmin B id body).Meets
      (fun _ c => ∀ f, c = .findOne f → f = ⟨B.toLowerCase (trim e), some id⟩)
      (fun h r => r = message 400 "Email already exists" →
        ∃ f a, h = [⟨.findOne f, .ok (some a)⟩])
      (fun _ _ => False) [] := by
  simp only [updateAdmin, bind_eq, pure_eq, meets_tryBlock, meets_bind, meets_ite,
    meets_eval, meets_await, meets_reply, meets_respond, meets_pure, he, callTrim_str]
  rcases callTrim_cases "name" body.name with ⟨n, hn, hn'⟩ | ⟨en, hn'⟩ <;>
    simp only [hn'] <;>
    refine ⟨fun _ => ?_, fun _ => ?_⟩
  all_goals repeat' first | intro _ | apply And.intro | split
  all_goals first
    | exact absurd ‹message _ _ = message _ _› (by decide)
    | (simp_all [meets_reply, meets_respond, failure, message]; done)
    | (simp_all [meets_reply, meets_respond, failure, message]
       exact Option.isSome_iff_exists.1 ‹_›)

/-- An update whose email another account holds is answered
`Email already exists` after the lookup alone. -/
theorem updateAdmin_taken (B : Builtins) (H : Hasher) (newId : Nat → Id) (db : Db) (id : Param)
    (body : UpdateBody) (e : JStr) (he : body.email = .str e)
    (hname : textOrAbsent body.name = true) (hfmt : emailRegex.test (trim e) = true)
    (b : AdminRec) (hb : b ∈ db.admins) (hbe : b.email = B.toLowerCase (trim e))
    (hbi : some b._id ≠ id) :
    ((updateAdmin B id body).run (memStore H newId) db).outcome =
        .responded (message 400 "Email already exists") ∧
      ((updateAdmin B id body).run (memStore H newId) db).final = db := by
  obtain ⟨name, email, password⟩ := body
  simp only at he hname
  subst he
  have hne : e ≠ [] := by
    rintro rfl
    simp [trim_nil] at hfmt
    revert hfmt
    decide
  have hte : truthy (.str e) = true := (truthy_str e).2 hne
  have hfind : (db.admins.find? (Filter.holds ⟨B.toLowerCase (trim e), some id⟩)).isSome = true := by
    rw [List.find?_isSome]
    exact ⟨b, hb, by simp [Filter.holds, hbe, hbi]⟩
  obtain ⟨found, hfound⟩ := Option.isSome_iff_exists.1 hfind
  by_cases hn : truthy name = true
  · obtain ⟨n, rfl⟩ : ∃ n, name = .str n := by
      cases name <;> simp_all [textOrAbsent, truthy]
    simp [updateAdmin, hn, hte, hfmt, eval, callTrim, reply, pure_bind, respond_bind,
      tryBlock_respond, run_await, memStore, hfound, run_respond, Run.after]
  · simp [updateAdmin, hn, hte, hfmt, eval, callTrim, reply, pure_bind, respond_bind,
      tryBlock_respond, run_await, memStore, hfound, run_respond, Run.after]

/-- C18. When `updateAdmin` is given a string email, every uniqueness lookup it
makes is for `lowercase(trim(email))` among the accounts whose identity differs
from the target id. Hence over the in-memory store, whose lookup matches on
exact equality: when no account other than the target holds that normalised
email (so also when the target itself holds it, in whatever letter case it was
submitted), the response is not `Email already exists`; and when an account with
a different identity holds it (the email being well formed, and the name
absent, null or a string), the response is 400 `Email already exists` and the
store is left as it was. -/
theorem update_uniqueness (B : Builtins) (H : Hasher) (newId : Nat → Id) (id : Param)
    (body : UpdateBody) (e : JStr) (he : body.email = .str e) :
    (∀ {σ : Type} (W : World σ) (s : σ), ∀ ev ∈ ((updateAdmin B id body).run W s).trace,
      ∀ f, ev.call = .findOne f → f = ⟨B.toLowerCase (trim e), some id⟩) ∧
    (∀ db : Db, (∀ a ∈ db.admins, a.email = B.toLowerCase (trim e) → some a._id = id) →
      ((updateAdmin B id body).run (memStore H newId) db).outcome ≠
        .responded (message 400 "Email already exists")) ∧
    (∀ db : Db, textOrAbsent body.name = true → emailRegex.test (trim e) = true →
      (∃ b ∈ db.admins, b.email = B.toLowerCase (trim e) ∧ some b._id ≠ id) →
      ((updateAdmin B id body).run (memStore H newId) db).outcome =
          .responded (message 400 "Email already exists") ∧
        ((updateAdmin B id body).run (memStore H newId) db).final = db) := by
  refine ⟨fun W s ev hev f hf => ?_, fun db hself hout => ?_, fun db hname hfmt hb => ?_⟩
  · obtain ⟨pre, post, hsplit⟩ := List.append_of_mem hev
    exact (meets_run _ _ W _ _ [] s (updateAdmin_lookup B id body e he)).1 pre ev post hsplit f hf
  · have hm := meets_run _ _ (memStore H newId) _ _ [] db (updateAdmin_lookup B id body e he)
    obtain ⟨f, a, ht⟩ := hm.2.1 _ hout rfl
    simp only [List.nil_append] at ht
    have hf := hm.1 [] ⟨.findOne f, .ok (some a)⟩ [] (by simpa using ht) f rfl
    have hres := run_head (memStore H newId) _ db _ _ _ ht
    simp only [memStore] at hres
    have hfound : db.admins.find? f.holds = some a := by
      injection hres with h
      exact h.symm
    have hmem := List.mem_of_find?_eq_some hfound
    have hholds := List.find?_some hfound
    subst hf
    simp only [Filter.holds, Bool.and_eq_true, decide_eq_true_eq] at hholds
    exact hholds.2 (hself a hmem hholds.1)
  · obtain ⟨b, hb, hbe, hbi⟩ := hb
    exact updateAdmin_taken B H newId db id body e he hname hfmt b hb hbe hbi

/-- C18 on the store with two schools: `a0` may set its email to its own in
upper case, and may not take the email of `a1`. -/
theorem update_uniqueness_witness :
    ((updateAdmin asciiRuntime (some (toyId 0)) ⟨.undefined, .str (utf16 "ANN@A.COM"),
      .undefined⟩).run toyStore twoSchools).outcome.status? = some 200 ∧
    ((updateAdmin asciiRuntime (some (toyId 0)) ⟨.undefined, .str (utf16 "ANN@A.COM"),
      .undefined⟩).run (memStore toyHasher toyId) twoSchools).outcome ≠
      .responded (message 400 "Email already exists") ∧
    ((updateAdmin asciiRuntime (some (toyId 0)) ⟨.undefined, .str (utf16 " Bob@B.com"),
      .undefined⟩).run (memStore toyHasher toyId) twoSchools).outcome =
      .responded (message 400 "Email already exists") ∧
    ((updateAdmin asciiRuntime (some (toyId 0)) ⟨.undefined, .str (utf16 " Bob@B.com"),
      .undefined⟩).run (memStore toyHasher toyId) twoSchools).final = twoSchools :=
  ⟨by decide,
    (update_uniqueness asciiRuntime toyHasher toyId (some (toyId 0))
      ⟨.undefined, .str (utf16 "ANN@A.COM"), .undefined⟩ (utf16 "ANN@A.COM") rfl).2.1
      twoSchools (by decide),
    (update_uniqueness asciiRuntime toyHasher toyId (some (toyId 0))
      ⟨.undefined, .str (utf16 " Bob@B.com"), .undefined⟩ (utf16 " Bob@B.com") rfl).2.2
      twoSchools rfl (by decide) (by decide)⟩

theorem getLength_error (v : JVal) (e : Thrown) (h : getLength v = .error e) :
    ∃ m, e = .str m := by
  cases v <;> simp only [getLength, reduceCtorEq, Except.error.injEq] at h <;>
    exact ⟨_, h.symm⟩

theorem hasMessage_message (st : Nat) (m : String) : (message st m).hasMessage := ⟨_, rfl⟩

theorem hasMessage_failure (m : JStr) : (failure (.str m)).hasMessage := ⟨_, rfl⟩

theorem errorShape_message (h : List Event) (st : Nat) (m : String) :
    ErrorShape h (message st m) := ⟨fun _ _ => hasMessage_message st m⟩

theorem errorShape_ok (h : List Event) (b : JVal) : ErrorShape h ⟨200, b⟩ :=
  ⟨fun _ h4 => absurd (show 400 ≤ 200 from h4) (by decide)⟩

theorem errorShape_text (h : List Event) (m : JStr) : ErrorShape h (failure (.str m)) :=
  ⟨fun _ _ => hasMessage_failure m⟩

theorem errorShape_failed (h : List Event) (c : Call) (e : Thrown) :
    ErrorShape (h ++ [⟨c, .error e⟩]) (failure e) := by
  refine ⟨fun ht _ => ?_⟩
  obtain ⟨m, rfl⟩ := ht ⟨c, .error e⟩ (by simp) e rfl
  exact hasMessage_failure m

theorem errorShape_of_mem (h : List Event) (e : Thrown) (hm : some e ∈ h.map Event.error?) :
    ErrorShape h (failure e) := by
  refine ⟨fun ht _ => ?_⟩
  obtain ⟨ev, hev, he⟩ := List.mem_map.1 hm
  obtain ⟨m, rfl⟩ := ht ev hev e he
  exact hasMessage_failure m

theorem registerAccount_errors (B : Builtins) (n e p sn : JStr) :
    (tryBlock (registerAccount B ⟨.str n, .str e, .str p, .str sn⟩)).Meets (fun _ _ => True)
      ErrorShape (fun _ _ => False) [] := by
  simp only [registerAccount, bind_eq, pure_eq, meets_tryBlock, meets_bind, meets_ite,
    meets_eval, meets_await, meets_reply, meets_respond, meets_pure, callTrim_str,
    errorShape_message, errorShape_failed, errorShape_ok, implies_true, and_self, true_and]

/-- Every handler answers an error with a message that is a string, as long as
the failures of its calls have one. -/
theorem program_errors (B : Builtins) (q : Request) :
    (q.program B).Meets (fun _ _ => True) ErrorShape (fun _ _ => False) [] := by
  cases q with
  | adminRegister body =>
    exact adminRegister_meets B body _ _ _ (fun m => errorShape_message _ _ _)
      (fun m => errorShape_text _ m) (fun n e p sn _ _ => registerAccount_errors B n e p sn)
  | adminLogIn body =>
    simp only [Request.program, adminLogIn, loginAccount, bind_eq, pure_eq, meets_tryBlock,
      meets_bind, meets_ite, meets_eval, meets_await, meets_reply, meets_respond, meets_pure,
      errorShape_message, errorShape_failed, implies_true, true_and]
    intro _
    rcases callTrim_cases "email" body.email with ⟨e, -, he⟩ | ⟨e, he⟩
    · simp only [he, errorShape_failed, implies_true, and_true]
      intro a
      cases a <;> simp [meets_reply, meets_bind, meets_await, meets_ite, meets_respond,
        meets_pure, errorShape_message, errorShape_of_mem, errorShape_ok, Event.error?]
    · obtain ⟨m, rfl⟩ := callTrim_error _ _ _ he
      simp only [he, errorShape_text]
  | getAdminDetail id =>
    simp only [Request.program, getAdminDetail, bind_eq, pure_eq, meets_tryBlock,
      meets_bind, meets_await, errorShape_failed, implies_true, and_true, true_and]
    intro a
    cases a <;> simp [meets_reply, meets_respond, errorShape_message, AdminView.toJson,
      errorShape_ok]
  | getAllAdmins =>
    simp [Request.program, getAllAdmins, meets_tryBlock, meets_bind, meets_await, meets_respond,
      errorShape_of_mem, errorShape_ok, Event.error?]
  | updateAdmin id body =>
    simp only [Request.program, updateAdmin, bind_eq, pure_eq, meets_tryBlock, meets_bind,
      meets_ite, meets_eval, meets_await, meets_reply, meets_respond, meets_pure]
    have hlen : ∀ e, getLength body.password = .error e → ∃ m, e = .str m :=
      fun e => getLength_error _ e
    rcases callTrim_cases "name" body.name with ⟨n, -, hn⟩ | ⟨en, hn⟩ <;>
      rcases callTrim_cases "email" body.email with ⟨e, -, he⟩ | ⟨ee, he⟩
    all_goals first
      | obtain ⟨mn, rfl⟩ := callTrim_error _ _ _ hn
      | skip
    all_goals first
      | obtain ⟨me, rfl⟩ := callTrim_error _ _ _ he
      | skip
    all_goals simp only [hn, he]
    all_goals refine ⟨fun _ => ?_, fun _ => ?_⟩
    all_goals repeat' first | intro _ | apply And.intro | split
    all_goals first
      | exact errorShape_message _ _ _
      | exact errorShape_failed _ _ _
      | exact errorShape_ok _ _
      | exact errorShape_text _ _
      | (obtain ⟨m, rfl⟩ := hlen _ ‹_›; exact errorShape_text _ _)
      | simp_all [meets_reply, meets_respond, errorShape_message, errorShape_of_mem,
          errorShape_ok, errorShape_text, Event.error?]
  | deleteAdmin id =>
    simp [Request.program, deleteAdmin, meets_tryBlock, meets_bind, meets_await, meets_respond,
      meets_reply, meets_ite, meets_pure, errorShape_message, errorShape_of_mem, Event.error?]
  | getDashboard id =>
    simp [Request.program, getDashboard, meets_tryBlock, meets_bind, meets_await, meets_respond,
      meets_reply, meets_ite, meets_pure, errorShape_message, errorShape_of_mem, errorShape_ok,
      Event.error?]

/-- C21, as the claim words it, fails. When the list of accounts cannot be read
and the reason of the rejection is a plain object without a `message`, the
response is 500 with a message that is `undefined`; and when `save` is rejected
with an `Error` whose message was set to `null`, the registration is answered
500 with the message `null`. -/
theorem error_body_shape_counterexample :
    (getAllAdmins.run (rejecting .undefined) ()).outcome =
      .responded ⟨500, .obj [("message", .undefined)]⟩ ∧
    ((adminRegister asciiRuntime scenarioRegistration).run (saveFault .null) emptyDb).outcome =
      .responded ⟨500, .obj [("message", .null)]⟩ := by
  decide

/-- C21, as amended. For each of the seven handlers, every request, and
whatever the store and the hasher answer: the run ends with a response, and if
every call that failed did so with an error whose message is a string, then a
response with status 400 or above has a body of the form
`{ message: <string> }`. -/
theorem error_body_shape (B : Builtins) (q : Request) {σ : Type} (W : World σ) (s : σ) :
    ∃ r, ((q.program B).run W s).outcome = .responded r ∧
      ((∀ ev ∈ ((q.program B).run W s).trace, ∀ e, ev.error? = some e → ∃ m : JStr, e = .str m) →
        400 ≤ r.status → ∃ m : JStr, r.body = .obj [("message", .str m)]) := by
  obtain ⟨r, hout, hr⟩ := meets_responds W _ _ _ s (program_errors B q)
    (fun e => program_caught W B q s e)
  exact ⟨r, hout, fun ht h4 => hr.shape ht h4⟩

/-- C21, as amended, at the partial failure of the cascade delete, whose error
has a text as message. -/
theorem error_body_shape_witness :
    ((deleteAdmin (some (toyId 0))).run teacherFault twoSchools).outcome.body? =
      some (.obj [("message", .str (utf16 "Partial failure: Could not delete all teachers"))]) ∧
    ∃ r, ((Request.program asciiRuntime (.deleteAdmin (some (toyId 0)))).run teacherFault
        twoSchools).outcome = .responded r ∧
      ((∀ ev ∈ ((Request.program asciiRuntime (.deleteAdmin (some (toyId 0)))).run teacherFault
          twoSchools).trace, ∀ e, ev.error? = some e → ∃ m : JStr, e = .str m) →
        400 ≤ r.status → ∃ m : JStr, r.body = .obj [("message", .str m)]) :=
  ⟨by decide, error_body_shape asciiRuntime (.deleteAdmin (some (toyId 0))) teacherFault
    twoSchools⟩

/-- C30. For each of the seven handlers, every request, and whatever the store
and the hasher answer, each call returning a value or failing with an error:
the run ends with one response, which is the only one (no path of a handler ends
without a response, and no error escapes the `try` block). A response is sent
by a `return` statement or by the last statement of the `try` or `catch` block,
so the calls of the run are those made before it. -/
theorem one_response (B : Builtins) (q : Request) {σ : Type} (W : World σ) (s : σ) :
    ∃! r, ((q.program B).run W s).outcome = .responded r := by
  obtain ⟨r, hout, -⟩ := meets_responds W _ _ _ s (program_errors B q)
    (fun e => program_caught W B q s e)
  refine ⟨r, hout, fun r' hr' => ?_⟩
  rw [hout] at hr'
  injection hr' with h
  exact h.symm

/-- C27. For every login body whose email is not a string, whatever its
password: `adminLogIn` answers with status 400 or 500 without any call, so the
lookup is not made, and the state of the store is left as it was. -/
theorem login_non_string_email (B : Builtins) (body : LoginBody) {σ : Type} (W : World σ)
    (s : σ) (hne : ∀ e, body.email ≠ .str e) :
    ∃ r, (adminLogIn B body).run W s = ⟨.responded r, [], s⟩ ∧
      (r.status = 400 ∨ r.status = 500) := by
  by_cases ht : truthy body.email = true ∧ truthy body.password = true
  · exact ⟨_, adminLogIn_not_string B body W s ht.1 ht.2 hne, Or.inr rfl⟩
  · refine ⟨_, adminLogIn_missing B body W s ?_, Or.inl rfl⟩
    by_contra hc
    simp only [not_or, Bool.not_eq_false] at hc
    exact ht hc

/-- C27 at the login whose email is the object `{ $gt: '' }`: 500 and no
call. -/
theorem login_non_string_email_witness :
    ((adminLogIn asciiRuntime operatorLogin).run toyStore twoSchools).outcome.status? =
      some 500 ∧
    ∃ r, (adminLogIn asciiRuntime operatorLogin).run toyStore twoSchools =
        ⟨.responded r, [], twoSchools⟩ ∧ (r.status = 400 ∨ r.status = 500) :=
  ⟨by decide, login_non_string_email asciiRuntime operatorLogin toyStore twoSchools
    (fun e h => by simp [operatorLogin] at h)⟩

/-- C24, the behaviour of the code. Of the five names of the test, those with
`onerror=` and `onload=` are answered 400 `Invalid characters in name`; those
with `onclick=`, `onmouseover=` and `onfocus=` match none of the five patterns
of the expression, are answered 200, and are stored. -/
theorem event_handler_names :
    ((adminRegister asciiRuntime (namedBody "Admin onerror=alert(1)")).run toyStore
      emptyDb).outcome = .responded (message 400 "Invalid characters in name") ∧
    ((adminRegister asciiRuntime (namedBody "Admin onload=alert(1)")).run toyStore
      emptyDb).outcome = .responded (message 400 "Invalid characters in name") ∧
    xssRegex.test (utf16 "Admin onclick=alert(1)") = false ∧
    ((adminRegister asciiRuntime (namedBody "Admin onclick=alert(1)")).run toyStore
      emptyDb).outcome.status? = some 200 ∧
    ((adminRegister asciiRuntime (namedBody "Admin onclick=alert(1)")).run toyStore
      emptyDb).final.admins.map AdminRec.name = [utf16 "Admin onclick=alert(1)"] ∧
    ((adminRegister asciiRuntime (namedBody "Admin onmouseover=alert(1)")).run toyStore
      emptyDb).outcome.status? = some 200 ∧
    ((adminRegister asciiRuntime (namedBody "Admin onfocus=alert(1)")).run toyStore
      emptyDb).outcome.status? = some 200 := by
  decide

/-- C25, the behaviour of the code. Of the six emails of the test, five are
answered 400 `Invalid email format` before any call; `admin..@school.com`
matches the expression, is answered 200, and is stored. -/
theorem invalid_email_shapes :
    ((adminRegister asciiRuntime (emailBody "admin")).run toyStore emptyDb).outcome =
      .responded (message 400 "Invalid email format") ∧
    ((adminRegister asciiRuntime (emailBody "admin@")).run toyStore emptyDb).outcome =
      .responded (message 400 "Invalid email format") ∧
    ((adminRegister asciiRuntime (emailBody "@school.com")).run toyStore emptyDb).outcome =
      .responded (message 400 "Invalid email format") ∧
    ((adminRegister asciiRuntime (emailBody "admin @school.com")).run toyStore emptyDb).outcome =
      .responded (message 400 "Invalid email format") ∧
    ((adminRegister asciiRuntime (emailBody "admin@school")).run toyStore emptyDb).outcome =
      .responded (message 400 "Invalid email format") ∧
    emailRegex.test (utf16 "admin..@school.com") = true ∧
    ((adminRegister asciiRuntime (emailBody "admin..@school.com")).run toyStore
      emptyDb).outcome.status? = some 200 ∧
    ((adminRegister asciiRuntime (emailBody "admin..@school.com")).run toyStore
      emptyDb).final.admins.map AdminRec.email = [utf16 "admin..@school.com"] := by
  decide

theorem matchRoute_adminReg (q : List (JStr × JStr)) (a : JVal) (b : List (String × JVal)) :
    matchRoute ⟨.post, [utf16 "AdminReg"], q, a, b⟩ =
      some (⟨.post, [.lit "AdminReg"], false, .adminRegister⟩, []) := rfl

theorem matchRoute_adminLogin (q : List (JStr × JStr)) (a : JVal) (b : List (String × JVal)) :
    matchRoute ⟨.post, [utf16 "AdminLogin"], q, a, b⟩ =
      some (⟨.post, [.lit "AdminLogin"], false, .adminLogIn⟩, []) := rfl

theorem matchRoute_detail (q : List (JStr × JStr)) (a : JVal) (b : List (String × JVal))
    (i : JStr) (hi : i ≠ []) :
    matchRoute ⟨.get, [utf16 "Admin", i], q, a, b⟩ =
      some (⟨.get, [.lit "Admin", .param "id"], false, .getAdminDetail⟩, [("id", i)]) := by
  simp +decide [matchRoute, routes, matchPath, List.findSome?, hi]

theorem matchRoute_admins (q : List (JStr × JStr)) (a : JVal) (b : List (String × JVal)) :
    matchRoute ⟨.get, [utf16 "Admins"], q, a, b⟩ =
      some (⟨.get, [.lit "Admins"], true, .getAllAdmins⟩, []) := rfl

theorem matchRoute_update (q : List (JStr × JStr)) (a : JVal) (b : List (String × JVal))
    (i : JStr) (hi : i ≠ []) :
    matchRoute ⟨.put, [utf16 "Admin", i], q, a, b⟩ =
      some (⟨.put, [.lit "Admin", .param "id"], true, .updateAdmin⟩, [("id", i)]) := by
  simp +decide [matchRoute, routes, matchPath, List.findSome?, hi]

theorem matchRoute_delete (q : List (JStr × JStr)) (a : JVal) (b : List (String × JVal))
    (i : JStr) (hi : i ≠ []) :
    matchRoute ⟨.delete, [utf16 "Admin", i], q, a, b⟩ =
      some (⟨.delete, [.lit "Admin", .param "id"], true, .deleteAdmin⟩, [("id", i)]) := by
  simp +decide [matchRoute, routes, matchPath, List.findSome?, hi]

theorem matchRoute_dashboard (q : List (JStr × JStr)) (a : JVal) (b : List (String × JVal)) :
    matchRoute ⟨.get, [utf16 "AdminDashboard"], q, a, b⟩ =
      some (⟨.get, [.lit "AdminDashboard"], true, .getDashboard⟩, []) := rfl

theorem matchRoute_dashboard_id (q : List (JStr × JStr)) (a : JVal) (b : List (String × JVal))
    (i : JStr) :
    matchRoute ⟨.get, [utf16 "AdminDashboard", i], q, a, b⟩ = none := by
  simp +decide [matchRoute, routes, matchPath, List.findSome?]

/-- C26. In the router, whatever the auth middleware is: a request for
`GET /Admins`, `PUT /Admin/:id`, `DELETE /Admin/:id` or `GET /AdminDashboard`
is given to the middleware first, and the handler (`getAllAdmins`,
`updateAdmin`, `deleteAdmin`, `getDashboard`) runs only when the middleware
calls `next`, the response being that of the middleware otherwise; a request for
`POST /AdminReg`, `POST /AdminLogin` or `GET /Admin/:id` runs its handler
(`adminRegister`, `adminLogIn`, `getAdminDetail`) without the middleware being
asked. -/
theorem protected_routes (B : Builtins) (others : String → HttpRequest → Js Unit)
    (auth : Middleware) (q : List (JStr × JStr)) (a : JVal) (b : List (String × JVal))
    (i : JStr) (hi : i ≠ []) :
    dispatch B others auth ⟨.get, [utf16 "Admins"], q, a, b⟩ =
      guarded auth ⟨.get, [utf16 "Admins"], q, a, b⟩ getAllAdmins ∧
    dispatch B others auth ⟨.put, [utf16 "Admin", i], q, a, b⟩ =
      guarded auth ⟨.put, [utf16 "Admin", i], q, a, b⟩ (updateAdmin B (some i) (.ofFields b)) ∧
    dispatch B others auth ⟨.delete, [utf16 "Admin", i], q, a, b⟩ =
      guarded auth ⟨.delete, [utf16 "Admin", i], q, a, b⟩ (deleteAdmin (some i)) ∧
    dispatch B others auth ⟨.get, [utf16 "AdminDashboard"], q, a, b⟩ =
      guarded auth ⟨.get, [utf16 "AdminDashboard"], q, a, b⟩ (getDashboard none) ∧
    dispatch B others auth ⟨.post, [utf16 "AdminReg"], q, a, b⟩ = adminRegister B (.ofFields b) ∧
    dispatch B others auth ⟨.post, [utf16 "AdminLogin"], q, a, b⟩ = adminLogIn B (.ofFields b) ∧
    dispatch B others auth ⟨.get, [utf16 "Admin", i], q, a, b⟩ = getAdminDetail (some i) ∧
    (routes.filter fun rt => rt.handler ∈ [.getAllAdmins, .updateAdmin, .deleteAdmin,
      .getDashboard]).all (fun rt => rt.auth) = true ∧
    (routes.filter fun rt => rt.handler ∈ [.adminRegister, .adminLogIn,
      .getAdminDetail]).all (fun rt => !rt.auth) = true := by
  refine ⟨?_, ?_, ?_, ?_, ?_, ?_, ?_, by decide, by decide⟩
  · simp only [dispatch, matchRoute_admins, if_true, Handler.program]
  · simp only [dispatch, matchRoute_update q a b i hi, if_true, Handler.program,
      List.lookup, beq_self_eq_true]
  · simp only [dispatch, matchRoute_delete q a b i hi, if_true, Handler.program,
      List.lookup, beq_self_eq_true]
  · simp only [dispatch, matchRoute_dashboard, if_true, Handler.program, List.lookup]
  · simp only [dispatch, matchRoute_adminReg, Handler.program, Bool.false_eq_true, if_false]
  · simp only [dispatch, matchRoute_adminLogin, Handler.program, Bool.false_eq_true, if_false]
  · simp only [dispatch, matchRoute_detail q a b i hi, Handler.program, Bool.false_eq_true,
      if_false, List.lookup, beq_self_eq_true]

/-- C26 at a request without a token for the list of accounts, with a
middleware that rejects it: the handler does not run. -/
theorem protected_routes_witness :
    ((dispatch asciiRuntime noOthers
        (fun _ => .reject (message 401 "Authorization token is missing"))
        ⟨.get, [utf16 "Admins"], [], .undefined, []⟩).run toyStore twoSchools).calls = [] ∧
    dispatch asciiRuntime noOthers
        (fun _ => .reject (message 401 "Authorization token is missing"))
        ⟨.get, [utf16 "Admins"], [], .undefined, []⟩ =
      guarded (fun _ => .reject (message 401 "Authorization token is missing"))
        ⟨.get, [utf16 "Admins"], [], .undefined, []⟩ getAllAdmins :=
  ⟨by decide, (protected_routes asciiRuntime noOthers
    (fun _ => .reject (message 401 "Authorization token is missing")) [] .undefined []
    (toyId 0) (by decide)).1⟩

/-- C28. When loading the auth middleware fails, the middleware that the
router puts in its place calls `next` on every request: whatever the
`authorization` header is, also when there is none, a request that matches a
route reaches the handler of that route; so a request for `GET /Admins`,
`PUT /Admin/:id`, `DELETE /Admin/:id` or `GET /AdminDashboard` runs
`getAllAdmins`, `updateAdmin`, `deleteAdmin` or `getDashboard` with no check of
a token. -/
theorem auth_fallback (B : Builtins) (others : String → HttpRequest → Js Unit) :
    (∀ req rt params, matchRoute req = some (rt, params) →
      dispatch B others (loadAuth none) req = rt.handler.program B others params req) ∧
    (∀ (q : List (JStr × JStr)) (a : JVal) (b : List (String × JVal)),
      dispatch B others (loadAuth none) ⟨.get, [utf16 "Admins"], q, a, b⟩ = getAllAdmins ∧
      dispatch B others (loadAuth none) ⟨.get, [utf16 "AdminDashboard"], q, a, b⟩ =
        getDashboard none) ∧
    (∀ (q : List (JStr × JStr)) (a : JVal) (b : List (String × JVal)) (i : JStr), i ≠ [] →
      dispatch B others (loadAuth none) ⟨.put, [utf16 "Admin", i], q, a, b⟩ =
        updateAdmin B (some i) (.ofFields b) ∧
      dispatch B others (loadAuth none) ⟨.delete, [utf16 "Admin", i], q, a, b⟩ =
        deleteAdmin (some i)) := by
  have key : ∀ req rt params, matchRoute req = some (rt, params) →
      dispatch B others (loadAuth none) req = rt.handler.program B others params req := by
    intro req rt params h
    simp only [dispatch, h, guarded, loadAuth, ite_self]
  refine ⟨key, fun q a b => ⟨?_, ?_⟩, fun q a b i hi => ⟨?_, ?_⟩⟩
  · rw [key _ _ _ (matchRoute_admins q a b)]
    rfl
  · rw [key _ _ _ (matchRoute_dashboard q a b)]
    rfl
  · rw [key _ _ _ (matchRoute_update q a b i hi)]
    rfl
  · rw [key _ _ _ (matchRoute_delete q a b i hi)]
    rfl

/-- C28 at a request without any header: the account `a0` and what belongs to
it are deleted. -/
theorem auth_fallback_witness :
    ((dispatch asciiRuntime noOthers (loadAuth none)
        ⟨.delete, [utf16 "Admin", toyId 0], [], .undefined, []⟩).run toyStore
        twoSchools).final.admins.map AdminRec._id = [toyId 1] ∧
    dispatch asciiRuntime noOthers (loadAuth none)
        ⟨.delete, [utf16 "Admin", toyId 0], [], .undefined, []⟩ = deleteAdmin (some (toyId 0)) :=
  ⟨by decide, ((auth_fallback asciiRuntime noOthers).2.2 [] .undefined [] (toyId 0)
    (by decide)).2⟩

/-- The lookup of an account without an id finds nothing. -/
theorem find?_no_id (l : List AdminRec) :
    l.find? (fun a => decide (some a._id = (none : Param))) = none := by
  simp [List.find?_eq_none]

/-- The run of `getDashboard` on the in-memory store when the account is
there. -/
theorem getDashboard_memStore (H : Hasher) (newId : Nat → Id) (db : Db) (id : Param)
    (a : AdminRec) (hfind : db.admins.find? (fun a => decide (some a._id = id)) = some a) :
    ((getDashboard id).run (memStore H newId) db).outcome =
      .responded ⟨200, .obj
        [("students", .num (db.dependents.countP fun d =>
            decide (d.coll = .student) && decide (some d.school = id))),
         ("teachers", .num (db.dependents.countP fun d =>
            decide (d.coll = .teacher) && decide (some d.school = id))),
         ("classes", .num (db.dependents.countP fun d =>
            decide (d.coll = .sclass) && decide (some d.school = id))),
         ("subjects", .num (db.dependents.countP fun d =>
            decide (d.coll = .subject) && decide (some d.school = id)))]⟩ := by
  simp only [getDashboard, bind_eq, pure_eq, run_await, memStore, hfind, reply, pure_bind,
    ite_bind, respond_bind, Option.isNone_some, Bool.false_eq_true, if_false, tryBlock_respond,
    run_respond, Run.after]

/-- C22, the behaviour of the code. The handler `getDashboard`, given the id of
an existing account, answers 200 with the four counts of the documents of that
school. But the route `GET /AdminDashboard` declares no `:id`, so
`req.params.id` is undefined: over the in-memory store, every request for
`GET /AdminDashboard` that passes the middleware, whatever its query string and
body and whatever accounts exist, is answered 404 `Admin not found` after a
lookup without an id; and a request for `GET /AdminDashboard/<id>` matches no
route and is answered 404 `Route not found`. -/
theorem dashboard_as_routed (B : Builtins) (others : String → HttpRequest → Js Unit)
    (auth : Middleware) (H : Hasher) (newId : Nat → Id) (db : Db) (q : List (JStr × JStr))
    (a : JVal) (b : List (String × JVal)) (user : JVal)
    (hpass : auth ⟨.get, [utf16 "AdminDashboard"], q, a, b⟩ = .next user) :
    (dispatch B others auth ⟨.get, [utf16 "AdminDashboard"], q, a, b⟩).run (memStore H newId) db =
      ⟨.responded (message 404 "Admin not found"), [⟨.findById none, .ok none⟩], db⟩ ∧
    (∀ i, dispatch B others auth ⟨.get, [utf16 "AdminDashboard", i], q, a, b⟩ =
      .respond (message 404 "Route not found")) ∧
    (∀ id found, db.admins.find? (fun x => decide (some x._id = id)) = some found →
      ((getDashboard id).run (memStore H newId) db).outcome =
        .responded ⟨200, .obj
          [("students", .num (db.dependents.countP fun d =>
              decide (d.coll = .student) && decide (some d.school = id))),
           ("teachers", .num (db.dependents.countP fun d =>
              decide (d.coll = .teacher) && decide (some d.school = id))),
           ("classes", .num (db.dependents.countP fun d =>
              decide (d.coll = .sclass) && decide (some d.school = id))),
           ("subjects", .num (db.dependents.countP fun d =>
              decide (d.coll = .subject) && decide (some d.school = id)))]⟩) := by
  refine ⟨?_, ?_, fun id found h => getDashboard_memStore H newId db id found h⟩
  · simp only [dispatch, matchRoute_dashboard, if_true, Handler.program, List.lookup, guarded,
      hpass, getDashboard, bind_eq, pure_eq, run_await, memStore, find?_no_id, reply, pure_bind,
      ite_bind, respond_bind, Option.isNone_none, tryBlock_respond, run_respond, Run.after]
  · intro i
    simp only [dispatch, matchRoute_dashboard_id]

/-- C22 at the request `GET /AdminDashboard?id=a0` with a token that the
middleware accepts, on the store with two schools: the handler given the id
answers 200 with one student, one teacher, one class and no subject, and the
request as routed is answered 404 `Admin not found`. -/
theorem dashboard_as_routed_witness :
    ((getDashboard (some (toyId 0))).run toyStore twoSchools).outcome =
      .responded ⟨200, .obj [("students", .num 1), ("teachers", .num 1), ("classes", .num 1),
        ("subjects", .num 0)]⟩ ∧
    (dispatch asciiRuntime noOthers passAll dashboardRequest).run toyStore twoSchools =
      ⟨.responded (message 404 "Admin not found"), [⟨.findById none, .ok none⟩], twoSchools⟩ :=
  ⟨by decide, (dashboard_as_routed asciiRuntime noOthers passAll toyHasher toyId twoSchools
    [(utf16 "id", toyId 0)] (.str (utf16 "Bearer t")) [] (.obj []) rfl).1⟩

theorem split_ne_nil (sep : Nat) (s : JStr) : split sep s ≠ [] := by
  cases s with
  | nil => simp [split]
  | cons c cs =>
    simp only [split]
    split
    · simp
    · split <;> simp

theorem split_eq_singleton (sep : Nat) (s a : JStr) :
    split sep s = [a] ↔ s = a ∧ sep ∉ a := by
  induction s generalizing a with
  | nil =>
    simp only [split, List.cons.injEq, and_true]
    constructor
    · rintro rfl
      simp
    · rintro ⟨rfl, -⟩
      rfl
  | cons c cs ih =>
    simp only [split]
    by_cases hc : c = sep
    · simp only [hc, if_true, List.cons.injEq]
      constructor
      · rintro ⟨rfl, h⟩
        exact absurd h (split_ne_nil sep cs)
      · rintro ⟨rfl, h⟩
        simp at h
    · simp only [hc, if_false]
      cases hs : split sep cs with
      | nil => exact absurd hs (split_ne_nil sep cs)
      | cons part parts =>
        simp only [List.cons.injEq]
        constructor
        · rintro ⟨rfl, rfl⟩
          obtain ⟨rfl, hp⟩ := (ih part).1 hs
          exact ⟨rfl, by simp [Ne.symm hc, hp]⟩
        · rintro ⟨rfl, h⟩
          simp only [List.mem_cons, not_or] at h
          have := (ih cs).2 ⟨rfl, h.2⟩
          rw [hs] at this
          simp only [List.cons.injEq] at this
          exact ⟨by rw [this.1], this.2⟩

theorem split_eq_pair (sep : Nat) (s a b : JStr) :
    split sep s = [a, b] ↔ s = a ++ sep :: b ∧ sep ∉ a ∧ sep ∉ b := by
  induction s generalizing a with
  | nil =>
    simp [split]
  | cons c cs ih =>
    simp only [split]
    by_cases hc : c = sep
    · subst hc
      simp only [if_true, List.cons.injEq]
      rw [split_eq_singleton]
      constructor
      · rintro ⟨rfl, rfl, h⟩
        exact ⟨rfl, by simp, h⟩
      · rintro ⟨h, ha, hb⟩
        cases a with
        | nil =>
          simp only [List.nil_append, List.cons.injEq, true_and] at h
          exact ⟨rfl, h, hb⟩
        | cons x xs =>
          simp only [List.cons_append, List.cons.injEq] at h
          simp [h.1] at ha
    · simp only [hc, if_false]
      cases hs : split sep cs with
      | nil => exact absurd hs (split_ne_nil sep cs)
      | cons part parts =>
        simp only [List.cons.injEq]
        constructor
        · rintro ⟨rfl, rfl⟩
          obtain ⟨rfl, hp, hb⟩ := (ih part).1 hs
          exact ⟨rfl, by simp [Ne.symm hc, hp], hb⟩
        · rintro ⟨h, ha, hb⟩
          cases a with
          | nil =>
            simp only [List.nil_append, List.cons.injEq] at h
            exact absurd h.1 hc
          | cons x xs =>
            simp only [List.cons_append, List.cons.injEq] at h
            simp only [List.mem_cons, not_or] at ha
            have := (ih xs).2 ⟨h.2, ha.2, hb⟩
            rw [hs] at this
            simp only [List.cons.injEq] at this
            exact ⟨by rw [h.1, this.1], this.2⟩

theorem bearerToken_eq_some (h t : JStr) :
    bearerToken h = some t ↔ h = utf16 "Bearer" ++ 32 :: t ∧ 32 ∉ t := by
  unfold bearerToken
  constructor
  · intro hb
    split at hb
    · rename_i scheme token hs
      split at hb
      · rename_i hsch
        simp only [Option.some.injEq] at hb
        subst hb hsch
        obtain ⟨h1, -, h3⟩ := (split_eq_pair 32 h _ _).1 hs
        exact ⟨h1, h3⟩
      · simp at hb
    · simp at hb
  · rintro ⟨rfl, ht⟩
    have := (split_eq_pair 32 (utf16 "Bearer" ++ 32 :: t) (utf16 "Bearer") t).2
      ⟨rfl, by decide, ht⟩
    simp [this]

/-- C23. For every token service and every value of the `authorization`
header: a header that is absent, null or empty is rejected with 401
`Authorization token is missing`; any other header that is not `Bearer`, one
space and a token without a space (two parts separated by one space, the first
being exactly `Bearer`) is rejected with 401 `Invalid token format`; for a
header of that form the outcome is decided by the token service: an expiry
error gives 401 `Token has expired`, any other error gives 401 `Invalid token`
whatever its detail, and claims are attached as `req.user` with `next` called
once. In every case the middleware either rejects with status 401, without
calling `next` and without setting `req.user`, or calls `next` with the claims
that the token service gave for the token of the header. -/
theorem authMiddleware_table (verify : JStr → Verified) :
    (∀ a, a = .undefined ∨ a = .null ∨ a = .str [] →
      authMiddleware verify a = .reject (message 401 "Authorization token is missing")) ∧
    (∀ h, h ≠ [] → (∀ t, h = utf16 "Bearer" ++ 32 :: t → 32 ∈ t) →
      authMiddleware verify (.str h) = .reject (message 401 "Invalid token format")) ∧
    (∀ t, 32 ∉ t →
      (verify t = .expired → authMiddleware verify (.str (utf16 "Bearer" ++ 32 :: t)) =
        .reject (message 401 "Token has expired")) ∧
      (∀ d, verify t = .rejected d → authMiddleware verify (.str (utf16 "Bearer" ++ 32 :: t)) =
        .reject (message 401 "Invalid token")) ∧
      (∀ c, verify t = .claims c → authMiddleware verify (.str (utf16 "Bearer" ++ 32 :: t)) =
        .next c)) ∧
    (∀ a, (∃ r, authMiddleware verify a = .reject r ∧ r.status = 401) ∨
      ∃ t c, a = .str (utf16 "Bearer" ++ 32 :: t) ∧ 32 ∉ t ∧ verify t = .claims c ∧
        authMiddleware verify a = .next c) := by
  have hform : ∀ t, 32 ∉ t → authMiddleware verify (.str (utf16 "Bearer" ++ 32 :: t)) =
      bearerVerdict verify t := by
    intro t ht
    have hb := (bearerToken_eq_some _ t).2 ⟨rfl, ht⟩
    simp only [authMiddleware, hb]
    rfl
  refine ⟨?_, ?_, ?_, ?_⟩
  · rintro a (rfl | rfl | rfl) <;> rfl
  · intro h hne hshape
    have ht : truthy (.str h) = true := by
      cases h with
      | nil => exact absurd rfl hne
      | cons c cs => rfl
    cases hb : bearerToken h with
    | none => simp [authMiddleware, ht, hb]
    | some t =>
      obtain ⟨h1, h2⟩ := (bearerToken_eq_some h t).1 hb
      exact absurd (hshape t h1) h2
  · intro t ht
    rw [hform t ht]
    refine ⟨fun h => ?_, fun d h => ?_, fun c h => ?_⟩ <;> simp [bearerVerdict, h]
  · intro a
    by_cases ht : truthy a = true
    swap
    · exact Or.inl ⟨message 401 "Authorization token is missing",
        by simp [authMiddleware, ht], rfl⟩
    cases a with
    | str h =>
      cases hb : bearerToken h with
      | none =>
        exact Or.inl ⟨message 401 "Invalid token format", by simp [authMiddleware, ht, hb],
          rfl⟩
      | some t =>
        obtain ⟨rfl, h2⟩ := (bearerToken_eq_some h t).1 hb
        rw [hform t h2]
        cases hv : verify t with
        | claims c => exact Or.inr ⟨t, c, rfl, h2, hv, by simp [bearerVerdict, hv]⟩
        | expired =>
          exact Or.inl ⟨message 401 "Token has expired", by simp [bearerVerdict, hv], rfl⟩
        | rejected d =>
          exact Or.inl ⟨message 401 "Invalid token", by simp [bearerVerdict, hv], rfl⟩
    | _ =>
      exact Or.inl ⟨message 401 "Invalid token format", by simp [authMiddleware, ht], rfl⟩

/-- C23 at the headers of the tests: `Bearer` alone, a lower-case scheme and
two spaces are a wrong format, and a good, an expired and a forged token are
told apart. -/
theorem authMiddleware_table_witness :
    authMiddleware toyVerify (.str (utf16 "Bearer")) =
      .reject (message 401 "Invalid token format") ∧
    authMiddleware toyVerify (.str (utf16 "bearer good")) =
      .reject (message 401 "Invalid token format") ∧
    authMiddleware toyVerify (.str (utf16 "Bearer  good")) =
      .reject (message 401 "Invalid token format") ∧
    authMiddleware toyVerify (.str (utf16 "Bearer good")) =
      .next (.obj [("id", .str (toyId 0))]) ∧
    authMiddleware toyVerify (.str (utf16 "Bearer old")) =
      .reject (message 401 "Token has expired") ∧
    authMiddleware toyVerify (.str (utf16 "Bearer forged")) =
      .reject (message 401 "Invalid token") ∧
    authMiddleware toyVerify (.str (utf16 "Bearer" ++ 32 :: utf16 "good")) =
      .next (.obj [("id", .str (toyId 0))]) :=
  ⟨by decide, by decide, by decide, by decide, by decide, by decide,
    ((authMiddleware_table toyVerify).2.2.1 (utf16 "good") (by decide)).2.2 _ rfl⟩

end Sms
